import Mathlib

/-!
# Argentum firmware: axis motion state machine and calibration engine

A shallow embedding of `src/util/axis.cpp`, `src/axis.cpp` and
`src/calibration.cpp`.  Unsigned 32-bit counters are natural numbers reduced
modulo `2 ^ 32` where the C++ arithmetic can wrap; the hardware (stepper,
limit switches, logger) is represented by explicit inputs and recorded calls.
-/

namespace Argentum

/-! ## Machine integers -/

/-- Number of values of a `uint32_t`. -/
def U32 : Nat := 4294967296

/-- Conversion of an integer to `int32_t` (two's complement wrap-around). -/
def toInt32 (x : Int) : Int := (x + 2147483648) % 4294967296 - 2147483648

/-- Conversion of an integer to `uint32_t`. -/
def toUInt32 (x : Int) : Nat := (x % 4294967296).toNat

/-- Modelled from the spec: the Arduino `max` macro (`Arduino.h` is not among
the sources), which `move_absolute` uses to clamp the target from below. -/
def arduino_max (a b : Nat) : Nat := if a > b then a else b

/-- Modelled from the spec: the Arduino `min` macro (`Arduino.h` is not among
the sources), which `move_absolute` uses to clamp the target into
`[0, MAX_TRAVEL]`. -/
def arduino_min (a b : Nat) : Nat := if a < b then a else b

/-! ## Collaborators of the axis -/

/-- Rotation sense commanded on a stepper (`Stepper::CW`, `Stepper::CCW`). -/
inductive Rotation where
  | CW
  | CCW
  deriving DecidableEq, Repr

/-- Severity of an event handed to the logging collaborator. -/
inductive LogLevel where
  | info
  | warn
  | error
  deriving DecidableEq, Repr

/-- Modelled from the spec: the Stepper capability (its class is not among the
sources).  The record keeps what the axis has commanded: the rotation sense, the
speed, and how many times `step()` was invoked.  Whether a `step()` succeeds is
decided by the motor's own timing gate and is an input of `Axis.step`. -/
structure Stepper where
  direction : Rotation
  speed : Nat
  step_calls : Nat
  deriving DecidableEq, Repr

/-- Records `motor->set_direction(r)`. -/
def Stepper.set_direction (m : Stepper) (r : Rotation) : Stepper :=
  { m with direction := r }

/-- Records `motor->set_speed(v)`. -/
def Stepper.set_speed (m : Stepper) (v : Nat) : Stepper :=
  { m with speed := v }

/-- Records one invocation of `motor->step()`. -/
def Stepper.step (m : Stepper) : Stepper :=
  { m with step_calls := m.step_calls + 1 }

/-! ## The axis of `src/util/axis.cpp` -/

/-- State of an `Axis` object (`src/util/axis.cpp`), together with the state of
the borrowed motor and the events logged so far. -/
structure Axis where
  axis : Char
  motor : Stepper
  direction : Nat
  length : Nat
  motor_mapping : Nat
  current_position : Nat
  desired_position : Nat
  log : List LogLevel
  deriving DecidableEq, Repr

namespace Axis

/-- Enumerator `Axis::Positive`. -/
def Positive : Nat := 0

/-- Enumerator `Axis::Negative`. -/
def Negative : Nat := 1

/-- Enumerator `Axis::CW_Positive`. -/
def CW_Positive : Nat := 0

/-- Enumerator `Axis::CW_Negative`. -/
def CW_Negative : Nat := 1

/-- The travel bound hard-coded in `move_absolute` of `src/util/axis.cpp`. -/
def MAX_TRAVEL : Nat := 16000

/-- Appends one event to the log (`logger.info()`, `logger.warn()`,
`logger.error()`). -/
def logger (a : Axis) (l : LogLevel) : Axis :=
  { a with log := a.log ++ [l] }

/-- Constructor `Axis::Axis` over a motor in an arbitrary state. -/
def ctor (axis : Char) (motor : Stepper) : Axis :=
  { axis := axis
    motor := motor.set_speed 1000
    direction := Positive
    length := 0
    motor_mapping := CW_Positive
    current_position := 0
    desired_position := 0
    log := [] }

/-- Method `Axis::hold`. -/
def hold (a : Axis) : Axis :=
  { a with desired_position := a.current_position }

/-- Method `Axis::zero`. -/
def zero (a : Axis) : Axis :=
  { a with current_position := 0, desired_position := 0 }

/-- Method `Axis::moving`. -/
def moving (a : Axis) : Bool :=
  a.current_position != a.desired_position

/-- Method `Axis::set_motor_direction`. -/
def set_motor_direction (a : Axis) : Axis :=
  if a.direction = Positive then
    if a.motor_mapping = CW_Positive then
      { a with motor := a.motor.set_direction Rotation.CW }
    else
      { a with motor := a.motor.set_direction Rotation.CCW }
  else if a.direction = Negative then
    if a.motor_mapping = CW_Negative then
      { a with motor := a.motor.set_direction Rotation.CW }
    else
      { a with motor := a.motor.set_direction Rotation.CCW }
  else a

/-- Method `Axis::set_direction`. -/
def set_direction (a : Axis) (direction : Nat) : Axis :=
  if direction = a.direction then a
  else ({ a with direction := direction }.set_motor_direction).logger LogLevel.info

/-- Method `Axis::set_motor_mapping`. -/
def set_motor_mapping (a : Axis) (motor_mapping : Nat) : Axis :=
  (({ a with motor_mapping := motor_mapping }).logger LogLevel.info).set_motor_direction

/-- Method `Axis::step`; `did_step` is the result of `motor->step()`. -/
def step (a : Axis) (did_step : Bool) : Bool × Axis :=
  let a1 := { a with motor := a.motor.step }
  if did_step then
    if a1.direction = Positive then
      (did_step, { a1 with current_position := (a1.current_position + 1) % U32 })
    else if a1.current_position > 0 then
      (did_step, { a1 with current_position := a1.current_position - 1 })
    else
      (did_step, a1)
  else
    (did_step, a1)

/-- Method `Axis::run`; `positive_limit` and `negative_limit` are the readings
of the two limit callbacks, `did_step` the result of `motor->step()`. -/
def run (a : Axis) (positive_limit negative_limit did_step : Bool) : Bool × Axis :=
  if a.current_position = a.desired_position then
    (false, a)
  else
    let a1 := a.logger LogLevel.info
    if (decide (a1.current_position < a1.desired_position) && positive_limit)
        || (decide (a1.current_position > a1.desired_position) && negative_limit) then
      (false, (a1.logger LogLevel.warn).hold)
    else
      a1.step did_step

/-- Method `Axis::move_absolute(uint32_t)`. -/
def move_absolute (a : Axis) (position : Nat) : Axis :=
  if position = a.desired_position ∨ position = a.current_position then a
  else
    let a1 := { a with desired_position := arduino_max position 0 }
    let a2 := { a1 with desired_position := arduino_min a1.desired_position 16000 }
    if a2.desired_position > a2.current_position then
      a2.set_direction Positive
    else
      a2.set_direction Negative

/-- The signed sum `(int32_t)desired_position + increment` that
`move_incremental` tests; `int32_t` addition is taken with two's complement
wrap-around. -/
def signed_sum (a : Axis) (increment : Int) : Int :=
  toInt32 (toInt32 a.desired_position + increment)

/-- Method `Axis::move_incremental(int32_t)`. -/
def move_incremental (a : Axis) (increment : Int) : Axis :=
  let new_desired_position : Nat := toUInt32 (a.desired_position + increment)
  if a.signed_sum increment < 0 then
    (a.logger LogLevel.error).move_absolute 0
  else
    a.move_absolute new_desired_position

end Axis

/-- One call on an axis by its driver, with the hardware readings the call
observes. -/
inductive AxisOp where
  | move_absolute (position : Nat)
  | move_incremental (increment : Int)
  | run (positive_limit negative_limit did_step : Bool)
  | zero
  | hold
  deriving DecidableEq, Repr

/-- Effect of one call on the axis state. -/
def Axis.apply (a : Axis) : AxisOp → Axis
  | AxisOp.move_absolute p => a.move_absolute p
  | AxisOp.move_incremental d => a.move_incremental d
  | AxisOp.run pl nl st => (a.run pl nl st).2
  | AxisOp.zero => a.zero
  | AxisOp.hold => a.hold

/-- Effect of a sequence of calls, first call first. -/
def Axis.exec (a : Axis) (ops : List AxisOp) : Axis :=
  ops.foldl Axis.apply a

/-! ## The axis of `src/axis.cpp` -/

namespace Proto

/-- State of an `Axis` object of `src/axis.cpp` (the variant over `ProtoMotor`),
with the commanded state of the borrowed motor and the events logged so far. -/
structure Axis where
  axis : Char
  motor : Stepper
  direction : Nat
  length : Nat
  motor_mapping : Nat
  current_position : Nat
  desired_position : Nat
  log : List LogLevel
  deriving DecidableEq, Repr

namespace Axis

/-- Enumerator `Axis::Positive`. -/
def Positive : Nat := 0

/-- Enumerator `Axis::Negative`. -/
def Negative : Nat := 1

/-- Enumerator `Axis::CW_Positive`. -/
def CW_Positive : Nat := 0

/-- Enumerator `Axis::CW_Negative`. -/
def CW_Negative : Nat := 1

/-- Appends one event to the log. -/
def logger (a : Axis) (l : LogLevel) : Axis :=
  { a with log := a.log ++ [l] }

/-- Constructor `Axis::Axis` of `src/axis.cpp`. -/
def ctor (axis : Char) (motor : Stepper) : Axis :=
  { axis := axis
    motor := motor.set_speed 1000
    direction := Positive
    length := 0
    motor_mapping := CW_Positive
    current_position := 0
    desired_position := 0
    log := [LogLevel.info] }

/-- Method `Axis::hold` of `src/axis.cpp`. -/
def hold (a : Axis) : Axis :=
  { a with desired_position := a.current_position }

/-- Method `Axis::zero` of `src/axis.cpp`. -/
def zero (a : Axis) : Axis :=
  { a with current_position := 0, desired_position := 0 }

/-- Method `Axis::moving` of `src/axis.cpp`. -/
def moving (a : Axis) : Bool :=
  a.current_position == a.desired_position

/-- Method `Axis::set_direction` of `src/axis.cpp`. -/
def set_direction (a : Axis) (direction : Nat) : Axis :=
  if direction = a.direction then a
  else
    let a1 := { a with direction := direction }
    let a2 :=
      if direction = Positive then
        if a1.motor_mapping = CW_Positive then
          { a1 with motor := a1.motor.set_direction Rotation.CW }
        else
          { a1 with motor := a1.motor.set_direction Rotation.CCW }
      else if direction = Negative then
        if a1.motor_mapping = CW_Negative then
          { a1 with motor := a1.motor.set_direction Rotation.CW }
        else
          { a1 with motor := a1.motor.set_direction Rotation.CCW }
      else a1
    a2.logger LogLevel.info

/-- Method `Axis::step` of `src/axis.cpp`; the decrement is unguarded and wraps
like the `uint32_t` counter. -/
def step (a : Axis) (did_step : Bool) : Bool × Axis :=
  let a1 := { a with motor := a.motor.step }
  if did_step then
    let a2 :=
      if a1.direction = Positive then
        { a1 with current_position := (a1.current_position + 1) % U32 }
      else
        { a1 with current_position := (a1.current_position + U32 - 1) % U32 }
    if a2.current_position = a2.desired_position then
      (true, a2.logger LogLevel.info)
    else
      (true, a2)
  else
    (false, a1)

/-- Method `Axis::run` of `src/axis.cpp`. -/
def run (a : Axis) (positive_limit negative_limit did_step : Bool) : Bool × Axis :=
  if a.current_position = a.desired_position then
    (false, a)
  else if (decide (a.current_position < a.desired_position) && positive_limit)
      || (decide (a.current_position > a.desired_position) && negative_limit) then
    (false, (a.logger LogLevel.warn).hold)
  else
    a.step did_step

/-- Method `Axis::move_absolute(uint32_t)` of `src/axis.cpp`. -/
def move_absolute (a : Axis) (position : Nat) : Axis :=
  if position = a.desired_position ∨ position = a.current_position then a
  else
    let a1 := { a with desired_position := arduino_max position 0 }
    let a2 := { a1 with desired_position := arduino_min a1.desired_position 20000 }
    let a3 := a2.logger LogLevel.info
    if a3.desired_position > a3.current_position then
      a3.set_direction Positive
    else
      a3.set_direction Negative

/-- Method `Axis::move_incremental(uint32_t)` of `src/axis.cpp`. -/
def move_incremental (a : Axis) (increment : Nat) : Axis :=
  a.move_absolute ((a.desired_position + increment) % U32)

end Axis

end Proto

/-! ## The calibration engine of `src/calibration.cpp` -/

/-- The two physical motors `aMotor` and `bMotor` (`Motor::A`, `Motor::B`). -/
inductive MotorId where
  | A
  | B
  deriving DecidableEq, Repr

/-- Modelled from the spec: the calls `calibration.cpp` makes on a `Motor` (the
class it uses is not among the sources): `move(steps)`, `set_direction(
Motor::Forward)`, `set_speed(v)`, `set_inverted(b)` and `reset_position()`. -/
inductive MotorCall where
  | move (steps : Int)
  | set_direction_forward
  | set_speed (v : Nat)
  | set_inverted (b : Bool)
  | reset_position
  deriving DecidableEq, Repr

/-- What `calibration.cpp` takes from headers that are not among the sources:
the escape distances, the four masks of the limit register, the limit-switch
queries (pure reads of the hardware state `σ`) and the reaction `actuate` of the
hardware to a call on a motor. -/
structure Rig (σ : Type) where
  a_escape_steps : Int
  b_escape_steps : Int
  X_MASK : Nat
  Y_MASK : Nat
  POS_MASK : Nat
  NEG_MASK : Nat
  actuate : MotorId → MotorCall → σ → σ
  limit_switches : σ → Nat
  any_limit : σ → Bool
  x_limit : σ → Bool
  y_limit : σ → Bool
  x_pos_limit : σ → Bool
  x_neg_limit : σ → Bool
  y_pos_limit : σ → Bool
  y_neg_limit : σ → Bool
  pos_limit : σ → Bool
  neg_limit : σ → Bool

/-- One axis of a `CalibrationData` record. -/
structure AxisCalibration where
  motor : MotorId
  flipped : Bool
  length : Int
  deriving DecidableEq, Repr

/-- The record `CalibrationData` filled in at the end of `calibrate`. -/
structure CalibrationData where
  x_axis : AxisCalibration
  y_axis : AxisCalibration
  deriving DecidableEq, Repr

/-- State of the calibration engine: the hardware state, the globals `xMotor`
and `yMotor`, the inverted flag of each motor, the calls issued to the motors
(most recent first), the text logged (most recent first) and the locals of
`calibrate`. -/
structure Engine (σ : Type) where
  world : σ
  xMotor : MotorId
  yMotor : MotorId
  a_inverted : Bool
  b_inverted : Bool
  calls : List (MotorId × MotorCall)
  log : List String
  x_distance : Int
  y_distance : Int
  x_direction_resolved : Bool
  y_direction_resolved : Bool

/-- Local `expected_x` of `calibrate`. -/
def expected_x : Int := 13791

/-- Local `expected_y` of `calibrate`. -/
def expected_y : Int := 10764

/-- Local `tolerance` of `calibrate`. -/
def tolerance : Int := 50

namespace Engine

variable {σ : Type}

/-- Issues one call to a motor: the hardware reacts and the call is recorded. -/
def command (rig : Rig σ) (s : Engine σ) (m : MotorId) (c : MotorCall) : Engine σ :=
  { s with world := rig.actuate m c s.world, calls := (m, c) :: s.calls }

/-- Call `motor->move(steps)`. -/
def move (rig : Rig σ) (s : Engine σ) (m : MotorId) (steps : Int) : Engine σ :=
  s.command rig m (MotorCall.move steps)

/-- Modelled from the spec: `motor->set_inverted(b)` stores the inverted flag of
the motor (the `Motor` class is not among the sources). -/
def set_inverted (rig : Rig σ) (s : Engine σ) (m : MotorId) (b : Bool) : Engine σ :=
  match m with
  | MotorId.A => { s.command rig m (MotorCall.set_inverted b) with a_inverted := b }
  | MotorId.B => { s.command rig m (MotorCall.set_inverted b) with b_inverted := b }

/-- Modelled from the spec: `motor->is_inverted()` returns the stored flag (the
`Motor` class is not among the sources). -/
def is_inverted (s : Engine σ) (m : MotorId) : Bool :=
  match m with
  | MotorId.A => s.a_inverted
  | MotorId.B => s.b_inverted

/-- Calls `log_info` and `log_info_np`. -/
def log_info (s : Engine σ) (text : String) : Engine σ :=
  { s with log := text :: s.log }

end Engine

/-- A `while` loop: `fuel` bounds the number of evaluations of the condition,
and `none` reports that the bound was reached with the loop still running. -/
def while_loop {S : Type} (cond : S → Bool) (body : S → S) : Nat → S → Option S
  | 0, _ => none
  | fuel + 1, s => if cond s then while_loop cond body fuel (body s) else some s

/-- Result of `resolve`: the returned flag, the two out-parameters and the
engine state. -/
structure Resolved (σ : Type) where
  resolved : Bool
  axis_correct : Bool
  direction_correct : Bool
  state : Engine σ

/-- The `uint8_t` value `a & ~b`. -/
def and_not8 (a b : Nat) : Nat := (a % 256) &&& (255 - b % 256)

/-- Function `resolve`; `axis_correct` and `direction_correct` are the values
the out-parameters hold on entry. -/
def resolve {σ : Type} (rig : Rig σ) (motor : MotorId) (steps : Int) (axis_mask : Nat)
    (axis_correct : Bool) (direction_mask : Nat) (direction_correct : Bool)
    (s : Engine σ) : Resolved σ :=
  let before := rig.limit_switches s.world % 256
  let s1 := s.move rig motor steps
  let after := rig.limit_switches s1.world % 256
  let released := and_not8 before after
  let triggered := and_not8 after before
  let s2 := if triggered ≠ 0 then s1.move rig motor (-steps) else s1
  if released ≠ 0 ∨ triggered ≠ 0 then
    let axis_correct1 := decide (((released ||| triggered) &&& axis_mask) ≠ 0)
    let direction_correct1 := decide (((released ||| triggered) &&& direction_mask) ≠ 0)
    let direction_correct2 := if released ≠ 0 then !direction_correct1 else direction_correct1
    { resolved := true, axis_correct := axis_correct1,
      direction_correct := direction_correct2, state := s2 }
  else
    { resolved := false, axis_correct := axis_correct,
      direction_correct := direction_correct, state := s2 }

/-- Function `freedom`; the two out-parameters are the fields
`x_direction_resolved` and `y_direction_resolved` of the engine state. -/
def freedom {σ : Type} (rig : Rig σ) (s : Engine σ) : Bool × Engine σ :=
  let s0 := { s with x_direction_resolved := false, y_direction_resolved := false }
  if rig.any_limit s0.world then
    let r1 := resolve rig MotorId.A rig.a_escape_steps rig.X_MASK false rig.POS_MASK false s0
    let r2 :=
      if !r1.resolved then
        resolve rig MotorId.A (-rig.a_escape_steps) rig.X_MASK r1.axis_correct rig.NEG_MASK
          r1.direction_correct r1.state
      else r1
    let a_resolved := r2.resolved
    let sa :=
      if a_resolved then
        let t :=
          if r2.axis_correct then
            { r2.state with xMotor := MotorId.A, yMotor := MotorId.B,
                            x_direction_resolved := true }
          else
            { r2.state with xMotor := MotorId.B, yMotor := MotorId.A,
                            y_direction_resolved := true }
        if r2.direction_correct then t else t.set_inverted rig MotorId.A true
      else r2.state
    let r3 := resolve rig MotorId.B rig.b_escape_steps rig.Y_MASK r2.axis_correct rig.POS_MASK
      r2.direction_correct sa
    let r4 :=
      if !r3.resolved then
        resolve rig MotorId.B (-rig.b_escape_steps) rig.Y_MASK r3.axis_correct rig.NEG_MASK
          r3.direction_correct r3.state
      else r3
    let b_resolved := r4.resolved
    let sb :=
      if b_resolved then
        let t :=
          if r4.axis_correct then
            { r4.state with xMotor := MotorId.A, yMotor := MotorId.B,
                            y_direction_resolved := true }
          else
            { r4.state with xMotor := MotorId.B, yMotor := MotorId.A,
                            x_direction_resolved := true }
        if r4.direction_correct then t else t.set_inverted rig MotorId.B true
      else r4.state
    (a_resolved || b_resolved, sb)
  else
    (false, s0)

/-- Outcome of `calibrate`: it returned (with the record it wrote, if the
pointer was not null), it entered the endless loop after logging `JAMMED`, or
the fuel of the model ran out inside one of its loops. -/
inductive Outcome (σ : Type) where
  | completed (s : Engine σ) (calibration : Option CalibrationData)
  | jammed (s : Engine σ)
  | out_of_fuel

/-- Sequencing of the phases of `calibrate`. -/
def Outcome.andThen {σ : Type} (r : Option (Engine σ)) (k : Engine σ → Outcome σ) :
    Outcome σ :=
  match r with
  | none => Outcome.out_of_fuel
  | some s => k s

/-- The test of every jam check of `calibrate`:
`!(x_distance < expected_x + tolerance || y_distance < expected_y + tolerance)`. -/
def jam_test {σ : Type} (s : Engine σ) : Bool :=
  !(decide (s.x_distance < expected_x + tolerance)
    || decide (s.y_distance < expected_y + tolerance))

/-- A jam check of `calibrate`: log `JAMMED` and halt, or go on with `k`. -/
def jam_check {σ : Type} (s : Engine σ) (k : Engine σ → Outcome σ) : Outcome σ :=
  if jam_test s then Outcome.jammed (s.log_info "JAMMED") else k s

/-- Fallback discovery of `calibrate` (lines 168 to 183). -/
def slow_discovery {σ : Type} (rig : Rig σ) (fuel : Nat) (axes_resolved : Bool)
    (s : Engine σ) : Option (Engine σ) :=
  if !axes_resolved then
    match while_loop (fun t => !rig.any_limit t.world) (fun t => t.move rig t.xMotor (-1))
        fuel s with
    | none => none
    | some s1 =>
      if rig.y_limit s1.world then
        some { s1 with xMotor := s1.yMotor, yMotor := s1.xMotor }
      else some s1
  else some s

/-- Body of the direction finalization loop of `calibrate` (lines 186 to 210). -/
def finalize_body {σ : Type} (rig : Rig σ) (s : Engine σ) : Engine σ :=
  let s1 :=
    if !s.x_direction_resolved then
      if !rig.x_limit s.world then
        s.move rig s.xMotor (-1)
      else
        let t := { s with x_direction_resolved := true }
        if rig.x_pos_limit t.world then t.set_inverted rig t.xMotor true else t
    else s
  if !s1.y_direction_resolved then
    if !rig.y_limit s1.world then
      s1.move rig s1.yMotor (-1)
    else
      let t := { s1 with y_direction_resolved := true }
      if rig.y_pos_limit t.world then t.set_inverted rig t.yMotor true else t
  else s1

/-- Direction finalization loop of `calibrate` (lines 185 to 211). -/
def finalize_directions {σ : Type} (rig : Rig σ) (fuel : Nat) (s : Engine σ) :
    Option (Engine σ) :=
  while_loop (fun t => !(t.x_direction_resolved && t.y_direction_resolved))
    (finalize_body rig) fuel s

/-- The two-axis measurement loops of `calibrate` (lines 221 to 227 with
`pos_limit` and steps of 1, lines 265 to 271 with `neg_limit` and steps of -1). -/
def sweep_both {σ : Type} (rig : Rig σ) (limit : σ → Bool) (steps : Int) (fuel : Nat)
    (s : Engine σ) : Option (Engine σ) :=
  while_loop
    (fun t => !limit t.world && decide (t.x_distance < expected_x + tolerance)
      && decide (t.y_distance < expected_y + tolerance))
    (fun t =>
      let t1 := t.move rig t.xMotor steps
      let t2 := t1.move rig t1.yMotor steps
      { t2 with x_distance := t2.x_distance + 1, y_distance := t2.y_distance + 1 })
    fuel s

/-- The X measurement loops of `calibrate` (lines 236 to 240 and 280 to 283). -/
def sweep_x {σ : Type} (rig : Rig σ) (limit : σ → Bool) (steps : Int) (fuel : Nat)
    (s : Engine σ) : Option (Engine σ) :=
  while_loop
    (fun t => !limit t.world && decide (t.x_distance < expected_x + tolerance))
    (fun t =>
      let t1 := t.move rig t.xMotor steps
      { t1 with x_distance := t1.x_distance + 1 })
    fuel s

/-- The Y measurement loops of `calibrate` (lines 249 to 253 and 292 to 295). -/
def sweep_y {σ : Type} (rig : Rig σ) (limit : σ → Bool) (steps : Int) (fuel : Nat)
    (s : Engine σ) : Option (Engine σ) :=
  while_loop
    (fun t => !limit t.world && decide (t.y_distance < expected_y + tolerance))
    (fun t =>
      let t1 := t.move rig t.yMotor steps
      { t1 with y_distance := t1.y_distance + 1 })
    fuel s

/-- End of `calibrate` (lines 302 to 315): reset both motors and fill in the
record when the pointer is not null. -/
def finish {σ : Type} (rig : Rig σ) (calibration : Option CalibrationData)
    (s : Engine σ) : Outcome σ :=
  let s1 := s.command rig s.xMotor MotorCall.reset_position
  let s2 := s1.command rig s1.yMotor MotorCall.reset_position
  let s3 := s2.log_info "\r\n"
  match calibration with
  | some _ =>
    Outcome.completed s3 (some
      { x_axis := { motor := if s3.xMotor = MotorId.A then MotorId.A else MotorId.B,
                    flipped := s3.is_inverted s3.xMotor,
                    length := s3.x_distance },
        y_axis := { motor := if s3.yMotor = MotorId.A then MotorId.A else MotorId.B,
                    flipped := s3.is_inverted s3.yMotor,
                    length := s3.y_distance } })
  | none => Outcome.completed s3 none

/-- Measurement part of `calibrate` (lines 213 to 300), followed by `finish`. -/
def measure {σ : Type} (rig : Rig σ) (fuel : Nat) (calibration : Option CalibrationData)
    (s : Engine σ) : Outcome σ :=
  let s1 := (s.log_info "Homing :").log_info "1"
  Outcome.andThen (sweep_both rig rig.pos_limit 1 fuel s1) fun s2 =>
  jam_check s2 fun s3 =>
  Outcome.andThen (sweep_x rig rig.x_pos_limit 1 fuel (s3.log_info "2")) fun s4 =>
  jam_check s4 fun s5 =>
  Outcome.andThen (sweep_y rig rig.y_pos_limit 1 fuel (s5.log_info "3")) fun s6 =>
  jam_check s6 fun s7 =>
  let s8 := { s7.log_info "4" with x_distance := 0, y_distance := 0 }
  Outcome.andThen (sweep_both rig rig.neg_limit (-1) fuel s8) fun s9 =>
  jam_check s9 fun s10 =>
  Outcome.andThen (sweep_x rig rig.x_neg_limit (-1) fuel (s10.log_info "5")) fun s11 =>
  jam_check s11 fun s12 =>
  Outcome.andThen (sweep_y rig rig.y_neg_limit (-1) fuel s12) fun s13 =>
  jam_check s13 fun s14 =>
  finish rig calibration s14

/-- Function `calibrate`; `calibration` is `none` for a null pointer, and the
globals and the hardware are in the state `s` on entry. -/
def calibrate {σ : Type} (rig : Rig σ) (fuel : Nat) (calibration : Option CalibrationData)
    (s : Engine σ) : Outcome σ :=
  let s1 := s.command rig s.xMotor MotorCall.set_direction_forward
  let s2 := s1.command rig s1.yMotor MotorCall.set_direction_forward
  let s3 := s2.command rig s2.xMotor (MotorCall.set_speed 250)
  let s4 := s3.command rig s3.yMotor (MotorCall.set_speed 250)
  let s5 := { s4 with x_distance := 0, y_distance := 0,
                      x_direction_resolved := false, y_direction_resolved := false }
  let r := freedom rig s5
  let axes_resolved := r.1
  let s6 := r.2.command rig r.2.xMotor (MotorCall.set_speed 2500)
  let s7 := s6.command rig s6.yMotor (MotorCall.set_speed 2500)
  Outcome.andThen (slow_discovery rig fuel axes_resolved s7) fun s8 =>
  Outcome.andThen (finalize_directions rig fuel s8) fun s9 =>
  measure rig fuel calibration s9

/-! ## A simulated bed -/

/-- Hardware state of the simulated bed: the carriage coordinates in steps and
the inverted flag of each motor. -/
structure Bed where
  x : Nat
  y : Nat
  a_inverted : Bool
  b_inverted : Bool
  deriving DecidableEq, Repr

/-- Coordinate reached from `p` by a displacement of `d` steps on an axis whose
travel is `len` steps: the carriage stops at either end. -/
def travel (p : Nat) (d : Int) (len : Nat) : Nat :=
  if (p : Int) + d < 0 then 0
  else if (p : Int) + d > (len : Int) then len
  else ((p : Int) + d).toNat

/-- Reaction of the simulated bed to a call on a motor: motor A drives X and
motor B drives Y, an inverted motor turns the other way. -/
def bed_actuate (x_len y_len : Nat) (m : MotorId) (c : MotorCall) (w : Bed) : Bed :=
  match m, c with
  | MotorId.A, MotorCall.move n =>
    { w with x := travel w.x (if w.a_inverted then -n else n) x_len }
  | MotorId.B, MotorCall.move n =>
    { w with y := travel w.y (if w.b_inverted then -n else n) y_len }
  | MotorId.A, MotorCall.set_inverted b => { w with a_inverted := b }
  | MotorId.B, MotorCall.set_inverted b => { w with b_inverted := b }
  | _, _ => w

/-- Modelled from the spec: a limit-switch simulator (`limit_switch.h` is not
among the sources) of a bed whose X travel is `x_len` steps and whose Y travel
is `y_len` steps.  Each per-axis switch fires exactly when that axis is at the
corresponding end, `pos_limit` and `neg_limit` are the corner queries, true only
with both axes at that end, and the register holds X-negative, X-positive, Y-negative, Y-positive in bits 0 to 3. -/
def bed_rig (x_len y_len : Nat) : Rig Bed :=
  { a_escape_steps := 200
    b_escape_steps := 200
    X_MASK := 3
    Y_MASK := 12
    POS_MASK := 10
    NEG_MASK := 5
    actuate := bed_actuate x_len y_len
    limit_switches := fun w =>
      (if w.x = 0 then 1 else 0) ||| (if w.x = x_len then 2 else 0)
        ||| (if w.y = 0 then 4 else 0) ||| (if w.y = y_len then 8 else 0)
    any_limit := fun w =>
      decide (w.x = 0) || decide (w.x = x_len) || decide (w.y = 0) || decide (w.y = y_len)
    x_limit := fun w => decide (w.x = 0) || decide (w.x = x_len)
    y_limit := fun w => decide (w.y = 0) || decide (w.y = y_len)
    x_pos_limit := fun w => decide (w.x = x_len)
    x_neg_limit := fun w => decide (w.x = 0)
    y_pos_limit := fun w => decide (w.y = y_len)
    y_neg_limit := fun w => decide (w.y = 0)
    pos_limit := fun w => decide (w.x = x_len) && decide (w.y = y_len)
    neg_limit := fun w => decide (w.x = 0) && decide (w.y = 0) }

/-- Engine state on entry to `calibrate` with the carriage at `(x, y)`, `xMotor`
pointing at motor A, `yMotor` at motor B and no motor inverted. -/
def bed_start (x y : Nat) : Engine Bed :=
  { world := { x := x, y := y, a_inverted := false, b_inverted := false }
    xMotor := MotorId.A
    yMotor := MotorId.B
    a_inverted := false
    b_inverted := false
    calls := []
    log := []
    x_distance := 0
    y_distance := 0
    x_direction_resolved := false
    y_direction_resolved := false }

/-- A `CalibrationData` record as handed to `calibrate` before it is filled. -/
def blank_calibration : CalibrationData :=
  { x_axis := { motor := MotorId.A, flipped := false, length := 0 }
    y_axis := { motor := MotorId.A, flipped := false, length := 0 } }

/-- The part of an engine state over the simulated bed that the run leaves
alone: the motor assignment and the inverted flags. -/
def Tame (s : Engine Bed) : Prop :=
  s.xMotor = MotorId.A ∧ s.yMotor = MotorId.B ∧ s.a_inverted = false ∧ s.b_inverted = false
    ∧ s.world.a_inverted = false ∧ s.world.b_inverted = false

/-- The engine over the simulated bed has the carriage at `(x, y)`, the
counters at `xd` and `yd` and the resolved flags at `xr` and `yr`, with the
motor assignment and the inverted flags as on entry. -/
def At (s : Engine Bed) (x y : Nat) (xd yd : Int) (xr yr : Bool) : Prop :=
  Tame s ∧ s.world.x = x ∧ s.world.y = y ∧ s.x_distance = xd ∧ s.y_distance = yd
    ∧ s.x_direction_resolved = xr ∧ s.y_direction_resolved = yr

/-- Engine state over the simulated bed on entry to the measurement: the
carriage homed at `(0, 0)`, both directions resolved, both counters at 0. -/
def bed_homed : Engine Bed :=
  { bed_start 0 0 with x_direction_resolved := true, y_direction_resolved := true }

/-- A motor as handed to the axis constructor in the worked examples. -/
def motor0 : Stepper := { direction := Rotation.CW, speed := 0, step_calls := 0 }

/-- The state reached by sending a fresh axis to 16000 and letting it take
16000 successful steps. -/
def axis_at_bound : Axis :=
  (Axis.ctor 'X' motor0).exec
    (AxisOp.move_absolute 16000 :: List.replicate 16000 (AxisOp.run false false true))

namespace Axis

/-- Consistency of a reachable axis state: both counters are within the travel
bound and a pending move has its direction set toward the target. -/
def Inv (a : Axis) : Prop :=
  a.current_position ≤ 16000 ∧ a.desired_position ≤ 16000 ∧
  (a.current_position < a.desired_position → a.direction = Positive) ∧
  (a.current_position > a.desired_position → a.direction = Negative)

end Axis

/-! ## Further definitions: axis -/

namespace Axis

/-- Member `Axis::steps_per_mm` (80 in `axis.h`). -/
def steps_per_mm : Nat := 80

/-- Method `Axis::move_absolute(double)`.  The `double` is taken as the rational
`position` it denotes, and `pos` is the value the conversion
`uint32_t pos = position * steps_per_mm` produces, an input of the model. -/
def move_absolute_double (a : Axis) (position : ℚ) (pos : Nat) : Axis :=
  let a1 := if position < 0 then a.logger LogLevel.error else a
  a1.move_absolute pos

/-- The two-entry table of `set_motor_direction`: the motor is commanded
clockwise exactly when the direction is Positive under `CW_Positive` or Negative
under `CW_Negative`. -/
def table_says_cw (a : Axis) : Prop :=
  (a.direction = Positive ∧ a.motor_mapping = CW_Positive)
    ∨ (a.direction = Negative ∧ a.motor_mapping = CW_Negative)

/-- The rotation sense commanded on the motor agrees with the two-entry table. -/
def follows_table (a : Axis) : Prop :=
  a.motor.direction = Rotation.CW ↔ a.table_says_cw

end Axis

/-- A motor whose rotation sense is counter-clockwise when the axis is
constructed over it. -/
def motor_ccw : Stepper := { direction := Rotation.CCW, speed := 0, step_calls := 0 }

namespace Proto

/-- One call on an axis of `src/axis.cpp` by its driver, with the hardware
readings the call observes. -/
inductive AxisOp where
  | move_absolute (position : Nat)
  | move_incremental (increment : Nat)
  | run (positive_limit negative_limit did_step : Bool)
  | zero
  | hold
  deriving DecidableEq, Repr

/-- Effect of one call on the axis state of `src/axis.cpp`. -/
def Axis.apply (a : Axis) : AxisOp → Axis
  | AxisOp.move_absolute p => a.move_absolute p
  | AxisOp.move_incremental d => a.move_incremental d
  | AxisOp.run pl nl st => (a.run pl nl st).2
  | AxisOp.zero => a.zero
  | AxisOp.hold => a.hold

/-- Effect of a sequence of calls on the axis of `src/axis.cpp`, first call
first. -/
def Axis.exec (a : Axis) (ops : List AxisOp) : Axis :=
  ops.foldl Axis.apply a

/-- Consistency of a reachable axis state of `src/axis.cpp`: both counters are
within the bound 20000 and a pending move has its direction set toward the
target. -/
def Axis.Inv (a : Axis) : Prop :=
  a.current_position ≤ 20000 ∧ a.desired_position ≤ 20000 ∧
  (a.current_position < a.desired_position → a.direction = Axis.Positive) ∧
  (a.current_position > a.desired_position → a.direction = Axis.Negative)

/-- The call `run()` gets as far as `step()`: the axis is not Idle and the limit
in the direction of travel is not triggered. -/
def Axis.reaches_step (a : Axis) (positive_limit negative_limit : Bool) : Prop :=
  a.current_position ≠ a.desired_position
    ∧ ¬ ((a.current_position < a.desired_position ∧ positive_limit = true)
      ∨ (a.current_position > a.desired_position ∧ negative_limit = true))

/-- The state is reachable from construction by `move_absolute`,
`move_incremental`, `run`, `zero` and `hold`. -/
def Axis.reachable (a : Axis) : Prop :=
  ∃ (axis : Char) (motor : Stepper) (ops : List AxisOp), a = (Axis.ctor axis motor).exec ops

end Proto

/-! ## Further definitions: calibration -/

/-- Sum of the `move` distances commanded on motor `m` in a list of calls. -/
def commanded_displacement (m : MotorId) : List (MotorId × MotorCall) → Int
  | [] => 0
  | (m1, MotorCall.move n) :: rest =>
    (if m1 = m then n else 0) + commanded_displacement m rest
  | _ :: rest => commanded_displacement m rest

/-- First `if` of the body of the finalization loop (lines 186 to 197): the X
axis. -/
def finalize_x {σ : Type} (rig : Rig σ) (s : Engine σ) : Engine σ :=
  if !s.x_direction_resolved then
    if !rig.x_limit s.world then
      s.move rig s.xMotor (-1)
    else
      let t := { s with x_direction_resolved := true }
      if rig.x_pos_limit t.world then t.set_inverted rig t.xMotor true else t
  else s

/-- Second `if` of the body of the finalization loop (lines 199 to 210): the Y
axis. -/
def finalize_y {σ : Type} (rig : Rig σ) (s : Engine σ) : Engine σ :=
  if !s.y_direction_resolved then
    if !rig.y_limit s.world then
      s.move rig s.yMotor (-1)
    else
      let t := { s with y_direction_resolved := true }
      if rig.y_pos_limit t.world then t.set_inverted rig t.yMotor true else t
  else s

/-- The probe of motor A in `freedom` (lines 79 to 84), with its retry in the
opposite direction. -/
def probe_a {σ : Type} (rig : Rig σ) (s : Engine σ) : Resolved σ :=
  let s0 := { s with x_direction_resolved := false, y_direction_resolved := false }
  let r1 := resolve rig MotorId.A rig.a_escape_steps rig.X_MASK false rig.POS_MASK false s0
  if !r1.resolved then
    resolve rig MotorId.A (-rig.a_escape_steps) rig.X_MASK r1.axis_correct rig.NEG_MASK
      r1.direction_correct r1.state
  else r1

/-- The engine state of `freedom` after the block that follows the probe of
motor A (lines 86 to 109). -/
def after_a {σ : Type} (rig : Rig σ) (s : Engine σ) : Engine σ :=
  let r2 := probe_a rig s
  if r2.resolved then
    let t :=
      if r2.axis_correct then
        { r2.state with xMotor := MotorId.A, yMotor := MotorId.B,
                        x_direction_resolved := true }
      else
        { r2.state with xMotor := MotorId.B, yMotor := MotorId.A,
                        y_direction_resolved := true }
    if r2.direction_correct then t else t.set_inverted rig MotorId.A true
  else r2.state

/-- The probe of motor B in `freedom` (lines 111 to 116), with its retry in the
opposite direction. -/
def probe_b {σ : Type} (rig : Rig σ) (s : Engine σ) : Resolved σ :=
  let r2 := probe_a rig s
  let r3 := resolve rig MotorId.B rig.b_escape_steps rig.Y_MASK r2.axis_correct rig.POS_MASK
    r2.direction_correct (after_a rig s)
  if !r3.resolved then
    resolve rig MotorId.B (-rig.b_escape_steps) rig.Y_MASK r3.axis_correct rig.NEG_MASK
      r3.direction_correct r3.state
  else r3

/-- The motor the other pointer is set to when one is set to `m`. -/
def MotorId.other : MotorId → MotorId
  | MotorId.A => MotorId.B
  | MotorId.B => MotorId.A

/-- Modelled from the spec: the simulated bed with the motors wired the other
way round, motor A driving Y and motor B driving X (`limit_switch.h` and the
`Motor` class are not among the sources). -/
def crossed_rig (x_len y_len : Nat) : Rig Bed :=
  { bed_rig x_len y_len with
    actuate := fun m c w => bed_actuate x_len y_len m.other c w }

/-- Modelled from the spec: the simulated bed with the Y-negative switch wired to
bit 1 of the limit register, a bit of the X mask (`limit_switch.h` is not among
the sources). -/
def miswired_rig (x_len y_len : Nat) : Rig Bed :=
  { bed_rig x_len y_len with
    limit_switches := fun w =>
      (if w.x = 0 then 1 else 0) ||| (if w.y = 0 then 2 else 0)
    any_limit := fun w => decide (w.x = 0) || decide (w.y = 0) }

/-- The globals `xMotor` and `yMotor` point at different motors. -/
def Engine.distinct {σ : Type} (s : Engine σ) : Prop :=
  s.xMotor ≠ s.yMotor

/-- An outcome of `calibrate` in which the two pointers are still different, and
in which a record that was written names the motor each pointer is at. -/
def Outcome.keeps_distinct {σ : Type} : Outcome σ → Prop
  | Outcome.completed s c =>
    s.distinct ∧ ∀ d, c = some d → d.x_axis.motor = s.xMotor ∧ d.y_axis.motor = s.yMotor
  | Outcome.jammed s => s.distinct
  | Outcome.out_of_fuel => True

/-! ## Further definitions: loops and pointers -/

/-- The engine state on entry to pass `i` (counted from 0) of the direction
finalization loop entered in state `s`. -/
def finalize_pass {σ : Type} (rig : Rig σ) (s : Engine σ) (i : Nat) : Engine σ :=
  Nat.iterate (finalize_body rig) i s

/-- The calls of a list that were issued on motor `m`, most recent first. -/
def calls_on (m : MotorId) (calls : List (MotorId × MotorCall)) :
    List (MotorId × MotorCall) :=
  calls.filter (fun c => decide (c.1 = m))

/-- The assignment `xMotor = &m;` (and `xMotor = yMotor;` with `m` the motor
`yMotor` points at). -/
def Engine.set_xMotor {σ : Type} (s : Engine σ) (m : MotorId) : Engine σ :=
  { s with xMotor := m }

/-- The assignment `yMotor = &m;` (and `yMotor = temp;` with `m` the motor
`temp` points at). -/
def Engine.set_yMotor {σ : Type} (s : Engine σ) (m : MotorId) : Engine σ :=
  { s with yMotor := m }

/-- The engine states after each of the three statements of the swap of
`calibrate` (lines 178, 180 and 181): `Motor *temp = xMotor;`,
`xMotor = yMotor;`, `yMotor = temp;`. -/
def swap_points {σ : Type} (s : Engine σ) : List (Engine σ) :=
  let temp := s.xMotor
  let s1 := s.set_xMotor s.yMotor
  let s2 := s1.set_yMotor temp
  [s, s1, s2]

/-- The engine states after each of the two statements that assign the pair of
pointers in `freedom` (lines 90 and 91, 121 and 122 with `m` motor A; lines 97
and 98, 127 and 128 with `m` motor B): `xMotor = &m;` and then `yMotor` set to
the other motor. -/
def pair_points {σ : Type} (s : Engine σ) (m : MotorId) : List (Engine σ) :=
  let s1 := s.set_xMotor m
  let s2 := s1.set_yMotor m.other
  [s1, s2]

/-! ## Facts about the axis of `src/util/axis.cpp` -/

namespace Axis

theorem set_direction_current (a : Axis) (d : Nat) :
    (a.set_direction d).current_position = a.current_position := by
  unfold set_direction set_motor_direction logger
  split_ifs <;> rfl

theorem set_direction_desired (a : Axis) (d : Nat) :
    (a.set_direction d).desired_position = a.desired_position := by
  unfold set_direction set_motor_direction logger
  split_ifs <;> rfl

theorem set_direction_direction (a : Axis) (d : Nat) :
    (a.set_direction d).direction = d := by
  unfold set_direction set_motor_direction logger
  split_ifs with h <;> first | rfl | exact h.symm

theorem set_direction_log_error (a : Axis) (d : Nat) :
    (a.set_direction d).log.count LogLevel.error = a.log.count LogLevel.error := by
  unfold set_direction set_motor_direction logger
  split_ifs <;> simp

theorem arduino_max_zero (p : Nat) : arduino_max p 0 = p := by
  unfold arduino_max
  split_ifs <;> omega

theorem move_absolute_noop (a : Axis) (p : Nat)
    (h : p = a.desired_position ∨ p = a.current_position) :
    a.move_absolute p = a := by
  simp only [move_absolute, if_pos h]

theorem move_absolute_current (a : Axis) (p : Nat) :
    (a.move_absolute p).current_position = a.current_position := by
  simp only [move_absolute]
  split_ifs <;> simp only [set_direction_current]

theorem move_absolute_desired (a : Axis) (p : Nat)
    (h : ¬ (p = a.desired_position ∨ p = a.current_position)) :
    (a.move_absolute p).desired_position = arduino_min p 16000 := by
  simp only [move_absolute, if_neg h, arduino_max_zero]
  split_ifs <;> simp only [set_direction_desired]

theorem move_absolute_direction (a : Axis) (p : Nat)
    (h : ¬ (p = a.desired_position ∨ p = a.current_position)) :
    (a.move_absolute p).direction =
      if arduino_min p 16000 > a.current_position then Positive else Negative := by
  simp only [move_absolute, if_neg h, arduino_max_zero]
  split_ifs <;> simp only [set_direction_direction]

theorem move_absolute_log_error (a : Axis) (p : Nat) :
    (a.move_absolute p).log.count LogLevel.error = a.log.count LogLevel.error := by
  simp only [move_absolute]
  split_ifs <;> simp only [set_direction_log_error]

theorem run_idle (a : Axis) (pl nl st : Bool)
    (h : a.current_position = a.desired_position) :
    a.run pl nl st = (false, a) := by
  simp only [run, if_pos h]

theorem run_limited (a : Axis) (pl nl st : Bool)
    (h : (a.current_position < a.desired_position ∧ pl = true)
      ∨ (a.current_position > a.desired_position ∧ nl = true)) :
    a.run pl nl st = (false, ((a.logger LogLevel.info).logger LogLevel.warn).hold) := by
  have hne : ¬ a.current_position = a.desired_position := by omega
  have hc : (decide (a.current_position < a.desired_position) && pl
      || decide (a.current_position > a.desired_position) && nl) = true := by
    rcases h with ⟨h1, h2⟩ | ⟨h1, h2⟩
    · simp [h1, h2]
    · simp [h1, h2]
  simp only [run, if_neg hne, logger]
  rw [if_pos hc]

theorem run_free (a : Axis) (pl nl st : Bool)
    (hne : a.current_position ≠ a.desired_position)
    (h : ¬ ((a.current_position < a.desired_position ∧ pl = true)
      ∨ (a.current_position > a.desired_position ∧ nl = true))) :
    a.run pl nl st = (a.logger LogLevel.info).step st := by
  have hc : ¬ (decide (a.current_position < a.desired_position) && pl
      || decide (a.current_position > a.desired_position) && nl) = true := by
    intro hc
    apply h
    simp only [Bool.or_eq_true, Bool.and_eq_true, decide_eq_true_eq] at hc
    exact hc
  simp only [run, if_neg hne, logger]
  rw [if_neg hc]

theorem arduino_min_le (p : Nat) : arduino_min p 16000 ≤ 16000 := by
  unfold arduino_min
  split_ifs <;> omega

theorem inv_ctor (axis : Char) (motor : Stepper) : (ctor axis motor).Inv := by
  simp [Inv, ctor]

theorem inv_move_absolute (a : Axis) (p : Nat) (h : a.Inv) : (a.move_absolute p).Inv := by
  by_cases hp : p = a.desired_position ∨ p = a.current_position
  · unfold move_absolute
    rw [if_pos hp]
    exact h
  · obtain ⟨h1, -, -, -⟩ := h
    have hd := move_absolute_desired a p hp
    have hdir := move_absolute_direction a p hp
    have hc := move_absolute_current a p
    have hle := arduino_min_le p
    refine ⟨by omega, by omega, ?_, ?_⟩
    · intro hlt
      rw [hdir, if_pos (by omega)]
    · intro hgt
      rw [hdir, if_neg (by omega)]

theorem inv_move_incremental (a : Axis) (d : Int) (h : a.Inv) :
    (a.move_incremental d).Inv := by
  unfold move_incremental
  split_ifs
  · exact inv_move_absolute _ 0 h
  · exact inv_move_absolute _ _ h

theorem inv_hold (a : Axis) (h : a.Inv) : a.hold.Inv := by
  obtain ⟨h1, -, -, -⟩ := h
  simp only [Inv, hold]
  omega

theorem inv_zero (a : Axis) : a.zero.Inv := by
  simp [Inv, zero]

theorem inv_run (a : Axis) (pl nl st : Bool) (h : a.Inv) : (a.run pl nl st).2.Inv := by
  by_cases hidle : a.current_position = a.desired_position
  · rw [run_idle a pl nl st hidle]
    exact h
  · by_cases hlim : (a.current_position < a.desired_position ∧ pl = true)
        ∨ (a.current_position > a.desired_position ∧ nl = true)
    · rw [run_limited a pl nl st hlim]
      obtain ⟨h1, -, -, -⟩ := h
      simp only [Inv, hold, logger]
      omega
    · rw [run_free a pl nl st hidle hlim]
      obtain ⟨h1, h2, h3, h4⟩ := h
      simp only [Positive, Negative] at h3 h4
      simp only [step, logger, Positive, Negative, U32]
      split_ifs with hst hpos hgt
      · have hlt : a.current_position < a.desired_position := by
          by_contra hge
          have := h4 (by omega)
          omega
        simp only [Inv, Positive, Negative]
        omega
      · have hgt2 : a.current_position > a.desired_position := by
          by_contra hle
          have := h3 (by omega)
          omega
        simp only [Inv, Positive, Negative]
        omega
      · simp only [Inv, Positive, Negative]
        omega
      · simp only [Inv, Positive, Negative]
        omega

theorem inv_apply (a : Axis) (op : AxisOp) (h : a.Inv) : (a.apply op).Inv := by
  cases op with
  | move_absolute p => exact inv_move_absolute a p h
  | move_incremental d => exact inv_move_incremental a d h
  | run pl nl st => exact inv_run a pl nl st h
  | zero => exact inv_zero a
  | hold => exact inv_hold a h

theorem inv_exec (ops : List AxisOp) (a : Axis) (h : a.Inv) : (a.exec ops).Inv := by
  induction ops generalizing a with
  | nil => exact h
  | cons op rest ih => exact ih (a.apply op) (inv_apply a op h)

end Axis

/-! ## Properties of the axis state machine -/

theorem run_true_moves (a : Axis) (pl nl st : Bool) (h : a.Inv)
    (hr : (a.run pl nl st).1 = true) :
    (a.run pl nl st).2.current_position = a.current_position + 1
      ∨ (a.run pl nl st).2.current_position + 1 = a.current_position := by
  by_cases hidle : a.current_position = a.desired_position
  · rw [Axis.run_idle a pl nl st hidle] at hr
    simp at hr
  · by_cases hlim : (a.current_position < a.desired_position ∧ pl = true)
        ∨ (a.current_position > a.desired_position ∧ nl = true)
    · rw [Axis.run_limited a pl nl st hlim] at hr
      simp at hr
    · rw [Axis.run_free a pl nl st hidle hlim] at hr ⊢
      obtain ⟨h1, h2, h3, h4⟩ := h
      simp only [Axis.Positive, Axis.Negative] at h3 h4
      simp only [Axis.step, Axis.logger, Axis.Positive, Axis.Negative, U32] at hr ⊢
      split_ifs at hr ⊢ with hst hpos hgt
      · left
        simp only
        omega
      · right
        simp only
        omega
      · exfalso
        have hlt : a.current_position < a.desired_position := by omega
        have := h3 hlt
        omega
      · exact absurd hr hst

theorem exec_append (a : Axis) (xs ys : List AxisOp) :
    a.exec (xs ++ ys) = (a.exec xs).exec ys := by
  simp [Axis.exec, List.foldl_append]

theorem exec_climb (n : Nat) (a : Axis) (hdir : a.direction = Axis.Positive)
    (hdes : a.desired_position = 16000) (hcur : a.current_position + n ≤ 16000) :
    (a.exec (List.replicate n (AxisOp.run false false true))).direction = Axis.Positive
      ∧ (a.exec (List.replicate n (AxisOp.run false false true))).desired_position = 16000
      ∧ (a.exec (List.replicate n (AxisOp.run false false true))).current_position
          = a.current_position + n := by
  induction n generalizing a with
  | zero => exact ⟨hdir, hdes, rfl⟩
  | succ k ih =>
    have hne : a.current_position ≠ a.desired_position := by omega
    have hfree : ¬ ((a.current_position < a.desired_position ∧ false = true)
        ∨ (a.current_position > a.desired_position ∧ false = true)) := by simp
    have hstep : (a.apply (AxisOp.run false false true)).direction = Axis.Positive
        ∧ (a.apply (AxisOp.run false false true)).desired_position = 16000
        ∧ (a.apply (AxisOp.run false false true)).current_position
            = a.current_position + 1 := by
      simp only [Axis.apply]
      rw [Axis.run_free a false false true hne hfree]
      simp only [Axis.step, Axis.logger, hdir, U32]
      rw [if_pos trivial, if_pos trivial]
      refine ⟨rfl, hdes, ?_⟩
      simp only
      omega
    obtain ⟨s1, s2, s3⟩ := hstep
    have := ih (a.apply (AxisOp.run false false true)) s1 s2 (by omega)
    simp only [List.replicate_succ, Axis.exec, List.foldl_cons] at this ⊢
    obtain ⟨t1, t2, t3⟩ := this
    exact ⟨t1, t2, by omega⟩

/-- C1 (bounds, P1): starting from a freshly constructed axis, after every finite
sequence of `move_absolute`, `move_incremental` and `run` calls (and `zero`,
`hold`), whatever the limit readings and `step()` results, `current_position`
and `desired_position` both lie in `[0, 16000]`. -/
theorem C1_axis_bounds (axis : Char) (motor : Stepper) (ops : List AxisOp) :
    0 ≤ ((Axis.ctor axis motor).exec ops).current_position
      ∧ ((Axis.ctor axis motor).exec ops).current_position ≤ Axis.MAX_TRAVEL
      ∧ 0 ≤ ((Axis.ctor axis motor).exec ops).desired_position
      ∧ ((Axis.ctor axis motor).exec ops).desired_position ≤ Axis.MAX_TRAVEL := by
  obtain ⟨h1, h2, -, -⟩ := Axis.inv_exec ops _ (Axis.inv_ctor axis motor)
  exact ⟨Nat.zero_le _, h1, Nat.zero_le _, h2⟩

/-- C2 (hold-on-limit, P3): when `run()` is called while the limit in the
direction of travel is triggered, it returns false, `desired_position` becomes
`current_position`, `current_position` is unchanged and the motor is not
touched (in particular `step()` is not invoked). -/
theorem C2_hold_on_limit (a : Axis) (positive_limit negative_limit did_step : Bool)
    (h : (a.current_position < a.desired_position ∧ positive_limit = true)
      ∨ (a.current_position > a.desired_position ∧ negative_limit = true)) :
    (a.run positive_limit negative_limit did_step).1 = false
      ∧ (a.run positive_limit negative_limit did_step).2.desired_position
          = a.current_position
      ∧ (a.run positive_limit negative_limit did_step).2.current_position
          = a.current_position
      ∧ (a.run positive_limit negative_limit did_step).2.motor = a.motor
      ∧ (a.run positive_limit negative_limit did_step).2.motor.step_calls
          = a.motor.step_calls := by
  rw [Axis.run_limited a positive_limit negative_limit did_step h]
  simp [Axis.hold, Axis.logger]

/-- C2 at a concrete state: a fresh axis sent to position 5 and run against a
triggered positive limit. -/
theorem C2_hold_on_limit_witness :
    (((Axis.ctor 'X' motor0).move_absolute 5).run true false true).1 = false
      ∧ (((Axis.ctor 'X' motor0).move_absolute 5).run true false true).2.desired_position
          = ((Axis.ctor 'X' motor0).move_absolute 5).current_position
      ∧ (((Axis.ctor 'X' motor0).move_absolute 5).run true false true).2.current_position
          = ((Axis.ctor 'X' motor0).move_absolute 5).current_position
      ∧ (((Axis.ctor 'X' motor0).move_absolute 5).run true false true).2.motor
          = ((Axis.ctor 'X' motor0).move_absolute 5).motor
      ∧ (((Axis.ctor 'X' motor0).move_absolute 5).run true false true).2.motor.step_calls
          = ((Axis.ctor 'X' motor0).move_absolute 5).motor.step_calls :=
  C2_hold_on_limit ((Axis.ctor 'X' motor0).move_absolute 5) true false true
    (Or.inl ⟨by decide, rfl⟩)

/-- C3 (monotonic single step, P4): in every state reachable from construction
by `move_absolute`, `move_incremental`, `run`, `zero` and `hold`, a `run()` that
returns true changes `current_position` by exactly +1 or exactly -1, and a
`run()` made while Idle returns false and leaves both counters unchanged. -/
theorem C3_single_step (axis : Char) (motor : Stepper) (ops : List AxisOp)
    (positive_limit negative_limit did_step : Bool) :
    ((((Axis.ctor axis motor).exec ops).run positive_limit negative_limit did_step).1 = true →
        (((Axis.ctor axis motor).exec ops).run positive_limit negative_limit
            did_step).2.current_position
          = ((Axis.ctor axis motor).exec ops).current_position + 1
        ∨ (((Axis.ctor axis motor).exec ops).run positive_limit negative_limit
            did_step).2.current_position + 1
          = ((Axis.ctor axis motor).exec ops).current_position)
      ∧ (((Axis.ctor axis motor).exec ops).current_position
          = ((Axis.ctor axis motor).exec ops).desired_position →
        (((Axis.ctor axis motor).exec ops).run positive_limit negative_limit did_step).1 = false
        ∧ (((Axis.ctor axis motor).exec ops).run positive_limit negative_limit
            did_step).2.current_position
          = ((Axis.ctor axis motor).exec ops).current_position
        ∧ (((Axis.ctor axis motor).exec ops).run positive_limit negative_limit
            did_step).2.desired_position
          = ((Axis.ctor axis motor).exec ops).desired_position) := by
  refine ⟨fun hr => run_true_moves _ _ _ _ (Axis.inv_exec ops _ (Axis.inv_ctor axis motor)) hr,
    fun hidle => ?_⟩
  rw [Axis.run_idle _ _ _ _ hidle]
  exact ⟨rfl, rfl, rfl⟩

/-- C3 at a concrete run: a fresh axis sent to position 5 takes one step from 0
to 1 on a successful `run()`. -/
theorem C3_single_step_witness :
    (((Axis.ctor 'X' motor0).exec [AxisOp.move_absolute 5]).run false false true).1 = true
      ∧ ((((Axis.ctor 'X' motor0).exec [AxisOp.move_absolute 5]).run false false
            true).2.current_position
          = ((Axis.ctor 'X' motor0).exec [AxisOp.move_absolute 5]).current_position + 1
        ∨ (((Axis.ctor 'X' motor0).exec [AxisOp.move_absolute 5]).run false false
            true).2.current_position + 1
          = ((Axis.ctor 'X' motor0).exec [AxisOp.move_absolute 5]).current_position) :=
  ⟨by decide,
    (C3_single_step 'X' motor0 [AxisOp.move_absolute 5] false false true).1 (by decide)⟩

theorem axis_at_bound_state :
    axis_at_bound.direction = Axis.Positive ∧ axis_at_bound.desired_position = 16000
      ∧ axis_at_bound.current_position = 16000 := by
  have h := exec_climb 16000 ((Axis.ctor 'X' motor0).move_absolute 16000)
    (by decide) (by decide) (by decide)
  have hc : ((Axis.ctor 'X' motor0).move_absolute 16000).current_position = 0 := by decide
  rw [hc] at h
  have e : ∀ (a : Axis) (op : AxisOp) (l : List AxisOp),
      a.exec (op :: l) = (a.apply op).exec l := fun _ _ _ => rfl
  unfold axis_at_bound
  rw [e]
  simp only [Axis.apply]
  obtain ⟨h1, h2, h3⟩ := h
  exact ⟨h1, h2, h3.trans (Nat.zero_add 16000)⟩

/-- C4, as stated, fails: on the axis that has climbed to 16000 (reachable from
construction), `move_absolute(20000)` takes effect and 20000 exceeds
`current_position`, yet the direction afterwards is Negative. -/
theorem C4_direction_counterexample :
    (20000 ≠ axis_at_bound.desired_position ∧ 20000 ≠ axis_at_bound.current_position)
      ∧ 20000 > axis_at_bound.current_position
      ∧ (axis_at_bound.move_absolute 20000).direction = Axis.Negative
      ∧ ¬ ((axis_at_bound.move_absolute 20000).direction = Axis.Positive
            ↔ 20000 > axis_at_bound.current_position) := by
  obtain ⟨-, hd, hc⟩ := axis_at_bound_state
  have hne : ¬ (20000 = axis_at_bound.desired_position
      ∨ 20000 = axis_at_bound.current_position) := by
    rw [hd, hc]
    decide
  have hdir := Axis.move_absolute_direction axis_at_bound 20000 hne
  rw [hc] at hdir
  have hneg : (axis_at_bound.move_absolute 20000).direction = Axis.Negative := by
    rw [hdir]
    decide
  refine ⟨⟨by rw [hd]; decide, by rw [hc]; decide⟩, by rw [hc]; decide, hneg, ?_⟩
  rw [hneg, hc]
  decide

/-- C4 (direction consistency, P2), amended: in every reachable state, when
`move_absolute(p)` takes effect the direction afterwards is Positive if and only
if the clamped target `min(p, 16000)` exceeds `current_position`; this is the
same as `p > current_position` unless `current_position` is 16000 and `p`
exceeds 16000. -/
theorem C4_direction_clamped (axis : Char) (motor : Stepper) (ops : List AxisOp) (p : Nat)
    (hd : p ≠ ((Axis.ctor axis motor).exec ops).desired_position)
    (hc : p ≠ ((Axis.ctor axis motor).exec ops).current_position) :
    ((((Axis.ctor axis motor).exec ops).move_absolute p).direction = Axis.Positive
        ↔ min p Axis.MAX_TRAVEL > ((Axis.ctor axis motor).exec ops).current_position)
      ∧ (¬ (((Axis.ctor axis motor).exec ops).current_position = Axis.MAX_TRAVEL
            ∧ p > Axis.MAX_TRAVEL) →
          ((((Axis.ctor axis motor).exec ops).move_absolute p).direction = Axis.Positive
            ↔ p > ((Axis.ctor axis motor).exec ops).current_position)) := by
  obtain ⟨h1, -, -, -⟩ := Axis.inv_exec ops _ (Axis.inv_ctor axis motor)
  have hne : ¬ (p = ((Axis.ctor axis motor).exec ops).desired_position
      ∨ p = ((Axis.ctor axis motor).exec ops).current_position) := by
    rintro (h | h)
    · exact hd h
    · exact hc h
  rw [Axis.move_absolute_direction _ p hne]
  simp only [arduino_min, Axis.MAX_TRAVEL, Axis.Positive, Axis.Negative]
  constructor
  · split_ifs <;> simp <;> omega
  · intro hex
    split_ifs <;> simp <;> omega

/-- C4 amended, at a concrete call: `move_absolute(7)` on a fresh axis sets the
direction to Positive. -/
theorem C4_direction_clamped_witness :
    ((((Axis.ctor 'X' motor0).exec []).move_absolute 7).direction = Axis.Positive
        ↔ min 7 Axis.MAX_TRAVEL > ((Axis.ctor 'X' motor0).exec []).current_position)
      ∧ (¬ (((Axis.ctor 'X' motor0).exec []).current_position = Axis.MAX_TRAVEL
            ∧ 7 > Axis.MAX_TRAVEL) →
          ((((Axis.ctor 'X' motor0).exec []).move_absolute 7).direction = Axis.Positive
            ↔ 7 > ((Axis.ctor 'X' motor0).exec []).current_position)) :=
  C4_direction_clamped 'X' motor0 [] 7 (by decide) (by decide)

/-- C5 (clamping to the travel bound): for every axis state and every target
above 16000 that differs from `current_position` and `desired_position`,
`move_absolute(target)` leaves `desired_position == 16000`. -/
theorem C5_clamp_to_bound (a : Axis) (target : Nat) (hgt : target > 16000)
    (hc : target ≠ a.current_position) (hd : target ≠ a.desired_position) :
    (a.move_absolute target).desired_position = 16000 := by
  have hne : ¬ (target = a.desired_position ∨ target = a.current_position) := by
    rintro (h | h)
    · exact hd h
    · exact hc h
  rw [Axis.move_absolute_desired a target hne]
  simp only [arduino_min]
  split_ifs <;> omega

/-- C5 at the scenario of the specification: `move_absolute(20500)` on a freshly
constructed axis yields `desired_position == 16000`. -/
theorem C5_clamp_to_bound_witness :
    ((Axis.ctor 'X' motor0).move_absolute 20500).desired_position = 16000 :=
  C5_clamp_to_bound (Axis.ctor 'X' motor0) 20500 (by decide) (by decide) (by decide)

theorem signed_sum_exact (a : Axis) (delta : Int)
    (hlo : -2147483648 ≤ (a.desired_position : Int) + delta)
    (hhi : (a.desired_position : Int) + delta < 2147483648) :
    a.signed_sum delta = (a.desired_position : Int) + delta := by
  unfold Axis.signed_sum toInt32
  omega

/-- C6 (negative incremental move), evaluated where the code departs from it:
on a fresh axis sent to position 5 (so that `current_position` is 0 and
`desired_position` is 5), `move_incremental(-10)` has a negative signed sum,
reports one error and assigns `new_desired_position = 0` (line 140), yet
`desired_position` is still 5 afterwards, not 0: the clamp is handed to
`move_absolute(0)`, which returns early (line 101) because the target equals
`current_position`. -/
theorem C6_negative_increment_not_clamped :
    ((Axis.ctor 'X' motor0).move_absolute 5).current_position = 0
      ∧ ((Axis.ctor 'X' motor0).move_absolute 5).desired_position = 5
      ∧ ((Axis.ctor 'X' motor0).move_absolute 5).signed_sum (-10) < 0
      ∧ (((Axis.ctor 'X' motor0).move_absolute 5).move_incremental (-10)).log.count
          LogLevel.error = 1
      ∧ (((Axis.ctor 'X' motor0).move_absolute 5).move_incremental (-10)).desired_position = 5
      ∧ (((Axis.ctor 'X' motor0).move_absolute 5).move_incremental (-10)).desired_position ≠ 0 := by
  decide

/-- What `move_incremental(delta)` does on a negative signed sum, for every
axis state: it reports exactly one error event and leaves `current_position`
alone; `desired_position` becomes 0 when `current_position` is not 0 (or
`desired_position` already was 0), and is left as it was when
`current_position == 0`, where `move_absolute(0)` returns early. -/
theorem negative_increment_effect (a : Axis) (delta : Int) (h : a.signed_sum delta < 0) :
    (a.move_incremental delta).log.count LogLevel.error = a.log.count LogLevel.error + 1
      ∧ (a.current_position ≠ 0 ∨ a.desired_position = 0 →
          (a.move_incremental delta).desired_position = 0)
      ∧ (a.current_position = 0 →
          (a.move_incremental delta).desired_position = a.desired_position)
      ∧ (a.move_incremental delta).current_position = a.current_position := by
  simp only [Axis.move_incremental, if_pos h]
  refine ⟨?_, ?_, ?_, ?_⟩
  · rw [Axis.move_absolute_log_error]
    simp [Axis.logger]
  · intro hcase
    by_cases hz : a.desired_position = 0
    · rw [Axis.move_absolute_noop _ 0 (Or.inl (by simp [Axis.logger, hz]))]
      simp [Axis.logger, hz]
    · have hcz : a.current_position ≠ 0 := by
        rcases hcase with h1 | h1
        · exact h1
        · exact absurd h1 hz
      have hne : ¬ (0 = (a.logger LogLevel.error).desired_position
          ∨ 0 = (a.logger LogLevel.error).current_position) := by
        simp only [Axis.logger]
        omega
      rw [Axis.move_absolute_desired _ 0 hne]
      decide
  · intro hcz
    rw [Axis.move_absolute_noop _ 0 (Or.inr (by simp [Axis.logger, hcz]))]
    simp [Axis.logger]
  · rw [Axis.move_absolute_current]
    simp [Axis.logger]

/-- C7: `moving()` of `src/util/axis.cpp` is true exactly when
`current_position != desired_position`, whereas `moving()` of `src/axis.cpp`
is true exactly when the two counters are equal (the axis is Idle); on a
freshly constructed axis of `src/axis.cpp` it returns true. -/
theorem C7_moving_both_variants :
    (∀ a : Axis, a.moving = true ↔ a.current_position ≠ a.desired_position)
      ∧ (∀ a : Proto.Axis, a.moving = true ↔ a.current_position = a.desired_position)
      ∧ (Proto.Axis.ctor 'X' motor0).current_position
          = (Proto.Axis.ctor 'X' motor0).desired_position
      ∧ (Proto.Axis.ctor 'X' motor0).moving = true := by
  refine ⟨fun a => ?_, fun a => ?_, rfl, rfl⟩
  · simp [Axis.moving]
  · simp [Proto.Axis.moving]

/-! ## Loops of the calibration engine -/

theorem while_loop_count {S : Type} (cond : S → Bool) (body : S → S) (P : Nat → S → Prop)
    (n : Nat) (hstep : ∀ i s, i < n → P i s → cond s = true ∧ P (i + 1) (body s))
    (hstop : ∀ s, P n s → cond s = false) :
    ∀ (fuel i : Nat) (s : S), i ≤ n → P i s → n - i < fuel →
      ∃ s', while_loop cond body fuel s = some s' ∧ P n s' := by
  intro fuel
  induction fuel with
  | zero =>
    intro i s _ _ hf
    omega
  | succ k ih =>
    intro i s hi hP hf
    by_cases hin : i = n
    · subst hin
      refine ⟨s, ?_, hP⟩
      simp only [while_loop, hstop s hP]
      rfl
    · have hlt : i < n := by omega
      obtain ⟨hc, hP1⟩ := hstep i s hlt hP
      obtain ⟨s', hs', hP'⟩ := ih (i + 1) (body s) (by omega) hP1 (by omega)
      refine ⟨s', ?_, hP'⟩
      simp only [while_loop, hc, if_true]
      exact hs'

theorem travel_up (p len : Nat) (h : p < len) : travel p 1 len = p + 1 := by
  unfold travel
  split_ifs <;> omega

theorem travel_up_end (len : Nat) : travel len 1 len = len := by
  unfold travel
  split_ifs <;> omega

theorem travel_down (p len : Nat) (h : p ≤ len) : travel p (-1) len = p - 1 := by
  unfold travel
  split_ifs <;> omega

theorem tame_move_x (x_len y_len : Nat) (s : Engine Bed) (n : Int) (h : Tame s) :
    Tame (s.move (bed_rig x_len y_len) s.xMotor n)
      ∧ (s.move (bed_rig x_len y_len) s.xMotor n).world.x = travel s.world.x n x_len
      ∧ (s.move (bed_rig x_len y_len) s.xMotor n).world.y = s.world.y
      ∧ (s.move (bed_rig x_len y_len) s.xMotor n).x_distance = s.x_distance
      ∧ (s.move (bed_rig x_len y_len) s.xMotor n).y_distance = s.y_distance
      ∧ (s.move (bed_rig x_len y_len) s.xMotor n).x_direction_resolved = s.x_direction_resolved
      ∧ (s.move (bed_rig x_len y_len) s.xMotor n).y_direction_resolved
          = s.y_direction_resolved := by
  obtain ⟨h1, h2, h3, h4, h5, h6⟩ := h
  simp [Tame, Engine.move, Engine.command, bed_rig, bed_actuate, h1, h2, h3, h4, h5, h6]

theorem tame_move_y (x_len y_len : Nat) (s : Engine Bed) (n : Int) (h : Tame s) :
    Tame (s.move (bed_rig x_len y_len) s.yMotor n)
      ∧ (s.move (bed_rig x_len y_len) s.yMotor n).world.x = s.world.x
      ∧ (s.move (bed_rig x_len y_len) s.yMotor n).world.y = travel s.world.y n y_len
      ∧ (s.move (bed_rig x_len y_len) s.yMotor n).x_distance = s.x_distance
      ∧ (s.move (bed_rig x_len y_len) s.yMotor n).y_distance = s.y_distance
      ∧ (s.move (bed_rig x_len y_len) s.yMotor n).x_direction_resolved = s.x_direction_resolved
      ∧ (s.move (bed_rig x_len y_len) s.yMotor n).y_direction_resolved
          = s.y_direction_resolved := by
  obtain ⟨h1, h2, h3, h4, h5, h6⟩ := h
  simp [Tame, Engine.move, Engine.command, bed_rig, bed_actuate, h1, h2, h3, h4, h5, h6]

theorem while_loop_skip {S : Type} (cond : S → Bool) (body : S → S) (fuel : Nat) (s : S)
    (h : cond s = false) : while_loop cond body (fuel + 1) s = some s := by
  simp only [while_loop, h]
  rfl

theorem at_log_info (s : Engine Bed) (text : String) (x y : Nat) (xd yd : Int)
    (xr yr : Bool) (h : At s x y xd yd xr yr) : At (s.log_info text) x y xd yd xr yr := by
  simpa [At, Tame, Engine.log_info] using h

theorem bed_slow_discovery (x_len y_len x0 y0 fuel : Nat) (s : Engine Bed)
    (hx : 0 < x0 ∧ x0 < x_len) (hy : 0 < y0 ∧ y0 < y_len) (hf : x0 < fuel)
    (h : At s x0 y0 0 0 false false) :
    ∃ s', slow_discovery (bed_rig x_len y_len) fuel false s = some s'
      ∧ At s' 0 y0 0 0 false false := by
  obtain ⟨s1, hs1, hP⟩ := while_loop_count
    (fun t : Engine Bed => !(bed_rig x_len y_len).any_limit t.world)
    (fun t => t.move (bed_rig x_len y_len) t.xMotor (-1))
    (fun i t => At t (x0 - i) y0 0 0 false false) x0
    (by
      intro i t hi hP
      obtain ⟨ht, h1, h2, h3, h4, h5, h6⟩ := hP
      obtain ⟨mt, m1, m2, m3, m4, m5, m6⟩ := tame_move_x x_len y_len t (-1) ht
      refine ⟨?_, mt, ?_, ?_, ?_, ?_, ?_, ?_⟩
      · simp only [bed_rig, h1, h2]
        simp
        omega
      · rw [m1, h1, travel_down _ _ (by omega)]
        omega
      · rw [m2, h2]
      · rw [m3, h3]
      · rw [m4, h4]
      · rw [m5, h5]
      · rw [m6, h6])
    (by
      intro t hP
      obtain ⟨ht, h1, h2, h3, h4, h5, h6⟩ := hP
      simp only [bed_rig, h1, h2]
      simp)
    fuel 0 s (by omega) (by simpa using h) (by omega)
  have hP0 : At s1 0 y0 0 0 false false := by simpa using hP
  refine ⟨s1, ?_, hP0⟩
  obtain ⟨ht, h1, h2, h3, h4, h5, h6⟩ := hP0
  have hyl : (bed_rig x_len y_len).y_limit s1.world = false := by
    simp only [bed_rig, h2]
    simp
    omega
  simp only [slow_discovery, hs1, hyl]
  rfl

theorem bed_finalize_body (x_len y_len y0 i : Nat) (t : Engine Bed)
    (hxl : 0 < x_len) (hy : y0 < y_len) (hi : i < y0 + 1)
    (hP : At t 0 (y0 - i) 0 0 (decide (1 ≤ i)) (decide (i = y0 + 1))) :
    At (finalize_body (bed_rig x_len y_len) t) 0 (y0 - (i + 1)) 0 0
      (decide (1 ≤ i + 1)) (decide (i + 1 = y0 + 1)) := by
  obtain ⟨ht, h1, h2, h3, h4, h5, h6⟩ := hP
  have hyr : t.y_direction_resolved = false := by
    rw [h6]
    simp
    omega
  have hxlim : (bed_rig x_len y_len).x_limit t.world = true := by
    simp [bed_rig, h1]
  have hxpos : (bed_rig x_len y_len).x_pos_limit t.world = false := by
    simp only [bed_rig, h1]
    simp
    omega
  -- the X half of the body only sets the resolved flag
  have hX : ∃ u : Engine Bed, (if (!t.x_direction_resolved) = true then
        if (!(bed_rig x_len y_len).x_limit t.world) = true then
          t.move (bed_rig x_len y_len) t.xMotor (-1)
        else
          if (bed_rig x_len y_len).x_pos_limit
              ({ t with x_direction_resolved := true } : Engine Bed).world = true then
            ({ t with x_direction_resolved := true } : Engine Bed).set_inverted
              (bed_rig x_len y_len) ({ t with x_direction_resolved := true } : Engine Bed).xMotor
              true
          else { t with x_direction_resolved := true }
      else t) = u ∧ At u 0 (y0 - i) 0 0 true false := by
    refine ⟨_, rfl, ?_⟩
    by_cases hxr : t.x_direction_resolved = true
    · simp only [hxr]
      exact ⟨ht, h1, h2, h3, h4, hxr, hyr⟩
    · have hxr2 : t.x_direction_resolved = false := by simpa using hxr
      simp only [hxr2, hxlim, hxpos]
      exact ⟨ht, h1, h2, h3, h4, rfl, hyr⟩
  obtain ⟨u, hu, hAu⟩ := hX
  unfold finalize_body
  simp only [hu]
  obtain ⟨ut, u1, u2, u3, u4, u5, u6⟩ := hAu
  by_cases hiy : i = y0
  · have hylim : (bed_rig x_len y_len).y_limit u.world = true := by
      simp only [bed_rig, u2]
      simp
      omega
    have hypos : (bed_rig x_len y_len).y_pos_limit u.world = false := by
      simp only [bed_rig, u2]
      simp
      omega
    simp only [u6, hylim, hypos, Bool.not_false, Bool.not_true, ↓reduceIte, Bool.false_eq_true]
    refine ⟨ut, u1, ?_, u3, u4, ?_, ?_⟩
    · rw [u2]
      omega
    · simp [u5]
    · simp [hiy]
  · have hylim : (bed_rig x_len y_len).y_limit u.world = false := by
      simp only [bed_rig, u2]
      simp
      omega
    obtain ⟨mt, m1, m2, m3, m4, m5, m6⟩ := tame_move_y x_len y_len u (-1) ut
    simp only [u6, hylim, Bool.not_false, ↓reduceIte]
    refine ⟨mt, ?_, ?_, ?_, ?_, ?_, ?_⟩
    · rw [m1, u1]
    · rw [m2, u2, travel_down _ _ (by omega)]
      omega
    · rw [m3, u3]
    · rw [m4, u4]
    · rw [m5, u5]
      simp
    · rw [m6, u6]
      simp
      omega

theorem bed_finalize (x_len y_len y0 fuel : Nat) (s : Engine Bed)
    (hxl : 0 < x_len) (hy : y0 < y_len) (hf : y0 + 1 < fuel)
    (h : At s 0 y0 0 0 false false) :
    ∃ s', finalize_directions (bed_rig x_len y_len) fuel s = some s'
      ∧ At s' 0 0 0 0 true true := by
  obtain ⟨s1, hs1, hP⟩ := while_loop_count
    (fun t : Engine Bed => !(t.x_direction_resolved && t.y_direction_resolved))
    (finalize_body (bed_rig x_len y_len))
    (fun i t => At t 0 (y0 - i) 0 0 (decide (1 ≤ i)) (decide (i = y0 + 1))) (y0 + 1)
    (by
      intro i t hi hP
      refine ⟨?_, bed_finalize_body x_len y_len y0 i t hxl hy hi hP⟩
      obtain ⟨ht, h1, h2, h3, h4, h5, h6⟩ := hP
      have hyr : t.y_direction_resolved = false := by
        rw [h6]
        simp
        omega
      simp [hyr])
    (by
      intro t hP
      obtain ⟨ht, h1, h2, h3, h4, h5, h6⟩ := hP
      simp [h5, h6])
    fuel 0 s (by omega) (by simpa using h) (by omega)
  refine ⟨s1, hs1, ?_⟩
  simpa using hP

theorem bed_sweep_both_pos (x_len y_len fuel : Nat) (s : Engine Bed)
    (hxl : 10814 ≤ x_len) (hf : 10814 < fuel) (h : At s 0 0 0 0 true true) :
    ∃ s', sweep_both (bed_rig x_len y_len) (bed_rig x_len y_len).pos_limit 1 fuel s = some s'
      ∧ At s' 10814 (min 10814 y_len) 10814 10814 true true := by
  obtain ⟨s1, hs1, hP⟩ := while_loop_count
    (fun t : Engine Bed => !(bed_rig x_len y_len).pos_limit t.world
      && decide (t.x_distance < expected_x + tolerance)
      && decide (t.y_distance < expected_y + tolerance))
    (fun t : Engine Bed =>
      let t1 := t.move (bed_rig x_len y_len) t.xMotor 1
      let t2 := t1.move (bed_rig x_len y_len) t1.yMotor 1
      { t2 with x_distance := t2.x_distance + 1, y_distance := t2.y_distance + 1 })
    (fun i t => At t i (min i y_len) i i true true) 10814
    (by
      intro i t hi hP
      obtain ⟨ht, h1, h2, h3, h4, h5, h6⟩ := hP
      obtain ⟨mt, m1, m2, m3, m4, m5, m6⟩ := tame_move_x x_len y_len t 1 ht
      obtain ⟨nt, n1, n2, n3, n4, n5, n6⟩ := tame_move_y x_len y_len _ 1 mt
      refine ⟨?_, nt, ?_, ?_, ?_, ?_, ?_, ?_⟩
      · simp only [bed_rig, h1, h2, h3, h4, expected_x, expected_y, tolerance]
        simp
        omega
      · dsimp only
        rw [n1, m1, h1, travel_up _ _ (by omega)]
      · dsimp only
        rw [n2, m2, h2]
        by_cases hiy : i < y_len
        · rw [min_eq_left (by omega), travel_up _ _ hiy, min_eq_left (by omega)]
        · rw [min_eq_right (by omega), travel_up_end, min_eq_right (by omega)]
      · dsimp only
        rw [n3, m3, h3]
        omega
      · dsimp only
        rw [n4, m4, h4]
        omega
      · dsimp only
        rw [n5, m5, h5]
      · dsimp only
        rw [n6, m6, h6])
    (by
      intro t hP
      obtain ⟨ht, h1, h2, h3, h4, h5, h6⟩ := hP
      simp only [h3, h4, expected_x, expected_y, tolerance]
      simp)
    fuel 0 s (by omega) (by simpa using h) (by omega)
  exact ⟨s1, hs1, by simpa using hP⟩

theorem bed_sweep_x_pos (x_len y_len fuel y : Nat) (s : Engine Bed)
    (hxl : 10814 ≤ x_len ∧ x_len < 13841) (hf : x_len < fuel)
    (h : At s 10814 y 10814 10814 true true) :
    ∃ s', sweep_x (bed_rig x_len y_len) (bed_rig x_len y_len).x_pos_limit 1 fuel s = some s'
      ∧ At s' x_len y x_len 10814 true true := by
  obtain ⟨s1, hs1, hP⟩ := while_loop_count
    (fun t : Engine Bed => !(bed_rig x_len y_len).x_pos_limit t.world
      && decide (t.x_distance < expected_x + tolerance))
    (fun t : Engine Bed =>
      let t1 := t.move (bed_rig x_len y_len) t.xMotor 1
      { t1 with x_distance := t1.x_distance + 1 })
    (fun i t => At t (10814 + i) y (10814 + i : Nat) 10814 true true) (x_len - 10814)
    (by
      intro i t hi hP
      obtain ⟨ht, h1, h2, h3, h4, h5, h6⟩ := hP
      obtain ⟨mt, m1, m2, m3, m4, m5, m6⟩ := tame_move_x x_len y_len t 1 ht
      refine ⟨?_, mt, ?_, ?_, ?_, ?_, ?_, ?_⟩
      · simp only [bed_rig, h1, h3, expected_x, tolerance]
        simp
        omega
      · dsimp only
        rw [m1, h1, travel_up _ _ (by omega)]
        omega
      · dsimp only
        rw [m2, h2]
      · dsimp only
        rw [m3, h3]
        omega
      · dsimp only
        rw [m4, h4]
      · dsimp only
        rw [m5, h5]
      · dsimp only
        rw [m6, h6])
    (by
      intro t hP
      obtain ⟨ht, h1, h2, h3, h4, h5, h6⟩ := hP
      have hx : t.world.x = x_len := by omega
      simp [bed_rig, hx])
    fuel 0 s (by omega) (by simpa using h) (by omega)
  refine ⟨s1, hs1, ?_⟩
  obtain ⟨ht, h1, h2, h3, h4, h5, h6⟩ := hP
  exact ⟨ht, by omega, h2, by omega, h4, h5, h6⟩

theorem bed_sweep_both_neg (x_len y_len fuel y : Nat) (s : Engine Bed)
    (hxl : 10814 ≤ x_len) (hyl : y ≤ y_len ∧ y ≤ 10814) (hf : 10814 < fuel)
    (h : At s x_len y 0 0 true true) :
    ∃ s', sweep_both (bed_rig x_len y_len) (bed_rig x_len y_len).neg_limit (-1) fuel s = some s'
      ∧ At s' (x_len - 10814) 0 10814 10814 true true := by
  obtain ⟨s1, hs1, hP⟩ := while_loop_count
    (fun t : Engine Bed => !(bed_rig x_len y_len).neg_limit t.world
      && decide (t.x_distance < expected_x + tolerance)
      && decide (t.y_distance < expected_y + tolerance))
    (fun t : Engine Bed =>
      let t1 := t.move (bed_rig x_len y_len) t.xMotor (-1)
      let t2 := t1.move (bed_rig x_len y_len) t1.yMotor (-1)
      { t2 with x_distance := t2.x_distance + 1, y_distance := t2.y_distance + 1 })
    (fun i t => At t (x_len - i) (y - i) i i true true) 10814
    (by
      intro i t hi hP
      obtain ⟨ht, h1, h2, h3, h4, h5, h6⟩ := hP
      obtain ⟨mt, m1, m2, m3, m4, m5, m6⟩ := tame_move_x x_len y_len t (-1) ht
      obtain ⟨nt, n1, n2, n3, n4, n5, n6⟩ := tame_move_y x_len y_len _ (-1) mt
      refine ⟨?_, nt, ?_, ?_, ?_, ?_, ?_, ?_⟩
      · simp only [bed_rig, h1, h2, h3, h4, expected_x, expected_y, tolerance]
        simp
        omega
      · dsimp only
        rw [n1, m1, h1, travel_down _ _ (by omega)]
        omega
      · dsimp only
        rw [n2, m2, h2, travel_down _ _ (by omega)]
        omega
      · dsimp only
        rw [n3, m3, h3]
        omega
      · dsimp only
        rw [n4, m4, h4]
        omega
      · dsimp only
        rw [n5, m5, h5]
      · dsimp only
        rw [n6, m6, h6])
    (by
      intro t hP
      obtain ⟨ht, h1, h2, h3, h4, h5, h6⟩ := hP
      simp only [h3, h4, expected_x, expected_y, tolerance]
      simp)
    fuel 0 s (by omega) (by simpa using h) (by omega)
  refine ⟨s1, hs1, ?_⟩
  obtain ⟨ht, h1, h2, h3, h4, h5, h6⟩ := hP
  exact ⟨ht, h1, by omega, h3, h4, h5, h6⟩

theorem bed_sweep_x_neg (x_len y_len fuel : Nat) (s : Engine Bed)
    (hxl : 10814 ≤ x_len ∧ x_len < 13841) (hf : x_len < fuel)
    (h : At s (x_len - 10814) 0 10814 10814 true true) :
    ∃ s', sweep_x (bed_rig x_len y_len) (bed_rig x_len y_len).x_neg_limit (-1) fuel s = some s'
      ∧ At s' 0 0 x_len 10814 true true := by
  obtain ⟨s1, hs1, hP⟩ := while_loop_count
    (fun t : Engine Bed => !(bed_rig x_len y_len).x_neg_limit t.world
      && decide (t.x_distance < expected_x + tolerance))
    (fun t : Engine Bed =>
      let t1 := t.move (bed_rig x_len y_len) t.xMotor (-1)
      { t1 with x_distance := t1.x_distance + 1 })
    (fun i t => At t (x_len - 10814 - i) 0 (10814 + i : Nat) 10814 true true) (x_len - 10814)
    (by
      intro i t hi hP
      obtain ⟨ht, h1, h2, h3, h4, h5, h6⟩ := hP
      obtain ⟨mt, m1, m2, m3, m4, m5, m6⟩ := tame_move_x x_len y_len t (-1) ht
      refine ⟨?_, mt, ?_, ?_, ?_, ?_, ?_, ?_⟩
      · simp only [bed_rig, h1, h3, expected_x, tolerance]
        simp
        omega
      · dsimp only
        rw [m1, h1, travel_down _ _ (by omega)]
        omega
      · dsimp only
        rw [m2, h2]
      · dsimp only
        rw [m3, h3]
        omega
      · dsimp only
        rw [m4, h4]
      · dsimp only
        rw [m5, h5]
      · dsimp only
        rw [m6, h6])
    (by
      intro t hP
      obtain ⟨ht, h1, h2, h3, h4, h5, h6⟩ := hP
      have hx : t.world.x = 0 := by omega
      simp [bed_rig, hx])
    fuel 0 s (by omega) (by simpa using h) (by omega)
  refine ⟨s1, hs1, ?_⟩
  obtain ⟨ht, h1, h2, h3, h4, h5, h6⟩ := hP
  exact ⟨ht, by omega, h2, by omega, h4, h5, h6⟩

theorem bed_sweep_y_skip (x_len y_len fuel x y : Nat) (xd : Int) (limit : Bed → Bool)
    (steps : Int) (s : Engine Bed) (hf : 0 < fuel) (h : At s x y xd 10814 true true) :
    sweep_y (bed_rig x_len y_len) limit steps fuel s = some s := by
  obtain ⟨k, rfl⟩ : ∃ k, fuel = k + 1 := ⟨fuel - 1, by omega⟩
  obtain ⟨ht, h1, h2, h3, h4, h5, h6⟩ := h
  unfold sweep_y
  apply while_loop_skip
  simp [h4, expected_y, tolerance]

theorem jam_check_pass {σ : Type} (s : Engine σ) (k : Engine σ → Outcome σ)
    (h : s.x_distance < 13841) : jam_check s k = k s := by
  have ht : jam_test s = false := by
    simp [jam_test, expected_x, tolerance, h]
  simp [jam_check, ht]

theorem at_x_distance (s : Engine Bed) (x y : Nat) (xd yd : Int) (xr yr : Bool)
    (h : At s x y xd yd xr yr) : s.x_distance = xd := h.2.2.2.1

theorem bed_measure (x_len y_len fuel : Nat) (d : CalibrationData) (s : Engine Bed)
    (hxl : 10814 ≤ x_len ∧ x_len < 13841) (hf : 13841 < fuel)
    (h : At s 0 0 0 0 true true) :
    ∃ s', measure (bed_rig x_len y_len) fuel (some d) s = Outcome.completed s'
      (some { x_axis := { motor := MotorId.A, flipped := false, length := x_len },
              y_axis := { motor := MotorId.B, flipped := false, length := 10814 } }) := by
  have h1 := at_log_info _ "1" _ _ _ _ _ _ (at_log_info s "Homing :" _ _ _ _ _ _ h)
  obtain ⟨s2, e2, a2⟩ := bed_sweep_both_pos x_len y_len fuel _ hxl.1 (by omega) h1
  have j2 : s2.x_distance < 13841 := by
    rw [at_x_distance _ _ _ _ _ _ _ a2]
    decide
  have h3 := at_log_info s2 "2" _ _ _ _ _ _ a2
  obtain ⟨s4, e4, a4⟩ := bed_sweep_x_pos x_len y_len fuel _ _ hxl (by omega) h3
  have j4 : s4.x_distance < 13841 := by
    rw [at_x_distance _ _ _ _ _ _ _ a4]
    omega
  have h5 := at_log_info s4 "3" _ _ _ _ _ _ a4
  have e6 := bed_sweep_y_skip x_len y_len fuel _ _ _ (bed_rig x_len y_len).y_pos_limit 1 _
    (by omega) h5
  have j6 : (s4.log_info "3").x_distance < 13841 := j4
  have h8 : At ({ (s4.log_info "3").log_info "4" with x_distance := 0, y_distance := 0 })
      x_len (min 10814 y_len) 0 0 true true := by
    obtain ⟨⟨t1, t2, t3, t4, t5, t6⟩, c1, c2, c3, c4, c5, c6⟩ := a4
    exact ⟨⟨t1, t2, t3, t4, t5, t6⟩, c1, c2, rfl, rfl, c5, c6⟩
  obtain ⟨s9, e9, a9⟩ := bed_sweep_both_neg x_len y_len fuel _ _ hxl.1
    ⟨min_le_right _ _, min_le_left _ _⟩ (by omega) h8
  have j9 : s9.x_distance < 13841 := by
    rw [at_x_distance _ _ _ _ _ _ _ a9]
    decide
  have h10 := at_log_info s9 "5" _ _ _ _ _ _ a9
  obtain ⟨s11, e11, a11⟩ := bed_sweep_x_neg x_len y_len fuel _ hxl (by omega) h10
  have j11 : s11.x_distance < 13841 := by
    rw [at_x_distance _ _ _ _ _ _ _ a11]
    omega
  have e13 := bed_sweep_y_skip x_len y_len fuel _ _ _ (bed_rig x_len y_len).y_neg_limit (-1) _
    (by omega) a11
  obtain ⟨⟨t1, t2, t3, t4, t5, t6⟩, c1, c2, c3, c4, c5, c6⟩ := a11
  dsimp only at e9
  have run : measure (bed_rig x_len y_len) fuel (some d) s
      = finish (bed_rig x_len y_len) (some d) s11 := by
    unfold measure
    dsimp only
    rw [e2]
    dsimp only [Outcome.andThen]
    rw [jam_check_pass s2 _ j2, e4]
    dsimp only [Outcome.andThen]
    rw [jam_check_pass s4 _ j4, e6]
    dsimp only [Outcome.andThen]
    rw [jam_check_pass _ _ j6, e9]
    dsimp only [Outcome.andThen]
    rw [jam_check_pass s9 _ j9, e11]
    dsimp only [Outcome.andThen]
    rw [jam_check_pass s11 _ j11, e13]
    dsimp only [Outcome.andThen]
    rw [jam_check_pass s11 _ j11]
  rw [run]
  refine ⟨((s11.command (bed_rig x_len y_len) s11.xMotor MotorCall.reset_position).command
    (bed_rig x_len y_len) s11.yMotor MotorCall.reset_position).log_info "\r\n", ?_⟩
  simp only [finish, Engine.command, Engine.log_info, Engine.is_inverted, t1, t2, t3, t4, c3, c4,
    ↓reduceIte, reduceCtorEq]

theorem freedom_idle {σ : Type} (rig : Rig σ) (s : Engine σ)
    (h : rig.any_limit s.world = false) :
    freedom rig s
      = (false, { s with x_direction_resolved := false, y_direction_resolved := false }) := by
  simp [freedom, h]

theorem bed_calibrate (x_len y_len x0 y0 fuel : Nat) (d : CalibrationData)
    (hxl : 10814 ≤ x_len ∧ x_len < 13841) (hx : 0 < x0 ∧ x0 < x_len)
    (hy : 0 < y0 ∧ y0 < y_len) (hf : 13841 < fuel ∧ y0 + 1 < fuel) :
    ∃ s', calibrate (bed_rig x_len y_len) fuel (some d) (bed_start x0 y0) = Outcome.completed s'
      (some { x_axis := { motor := MotorId.A, flipped := false, length := x_len },
              y_axis := { motor := MotorId.B, flipped := false, length := 10814 } }) := by
  have key : ∀ s7 : Engine Bed, At s7 x0 y0 0 0 false false →
      ∃ s', Outcome.andThen (slow_discovery (bed_rig x_len y_len) fuel false s7)
          (fun s8 => Outcome.andThen (finalize_directions (bed_rig x_len y_len) fuel s8)
            (fun s9 => measure (bed_rig x_len y_len) fuel (some d) s9))
        = Outcome.completed s'
          (some { x_axis := { motor := MotorId.A, flipped := false, length := x_len },
                  y_axis := { motor := MotorId.B, flipped := false, length := 10814 } }) := by
    intro s7 a7
    obtain ⟨s8, e8, a8⟩ := bed_slow_discovery x_len y_len x0 y0 fuel s7 hx hy (by omega) a7
    obtain ⟨s9, e9, a9⟩ := bed_finalize x_len y_len y0 fuel s8 (by omega) hy.2 hf.2 a8
    obtain ⟨s', e'⟩ := bed_measure x_len y_len fuel d s9 hxl hf.1 a9
    refine ⟨s', ?_⟩
    rw [e8]
    dsimp only [Outcome.andThen]
    rw [e9]
    dsimp only [Outcome.andThen]
    exact e'
  have hidle : (bed_rig x_len y_len).any_limit (bed_start x0 y0).world = false := by
    simp only [bed_rig, bed_start]
    simp
    omega
  unfold calibrate
  dsimp only
  rw [freedom_idle]
  · dsimp only
    apply key
    simp [At, Tame, bed_start, Engine.command, bed_rig, bed_actuate]
  · simpa [Engine.command, bed_rig, bed_actuate] using hidle

theorem sweep_both_total {σ : Type} (rig : Rig σ) (limit : σ → Bool) (steps : Int) :
    ∀ (fuel : Nat) (s : Engine σ), s.x_distance = s.y_distance → s.y_distance ≤ 10814 →
      10814 - s.y_distance < (fuel : Int) →
      ∃ s2, sweep_both rig limit steps fuel s = some s2 ∧ s2.x_distance = s2.y_distance
        ∧ s2.y_distance ≤ 10814 ∧ jam_test s2 = false := by
  intro fuel
  induction fuel with
  | zero =>
    intro s _ hb hf
    simp only [Nat.cast_zero] at hf
    omega
  | succ k ih =>
    intro s he hb hf
    by_cases hc : (!limit s.world && decide (s.x_distance < expected_x + tolerance)
        && decide (s.y_distance < expected_y + tolerance)) = true
    · have hy : s.y_distance < 10814 := by
        simp only [Bool.and_eq_true, decide_eq_true_eq, expected_y, tolerance] at hc
        omega
      obtain ⟨s2, e2, p2⟩ := ih
        ({ (s.move rig s.xMotor steps).move rig (s.move rig s.xMotor steps).yMotor steps with
            x_distance := s.x_distance + 1, y_distance := s.y_distance + 1 })
        (by dsimp only; omega) (by dsimp only; omega)
        (by dsimp only; push_cast at hf; omega)
      refine ⟨s2, ?_, p2⟩
      unfold sweep_both at e2 ⊢
      simp only [while_loop, hc, if_true]
      exact e2
    · have hc2 : (!limit s.world && decide (s.x_distance < expected_x + tolerance)
          && decide (s.y_distance < expected_y + tolerance)) = false := by
        simpa using hc
      refine ⟨s, ?_, he, hb, ?_⟩
      · unfold sweep_both
        simp only [while_loop, hc2]
        rfl
      · have hx : s.x_distance < 13841 := by omega
        simp [jam_test, expected_x, tolerance, hx]

/-- C8 (resolve inversion rule, P5): with `before` and `after` the two 8-bit
snapshots `resolve` takes around the probe, if some bit is released
(`before & ~after` is not 0) then `resolve` returns true and sets
`direction_correct` to the negation of the test
`((before & ~after) | (after & ~before)) & direction_mask != 0`; if bits changed
but none was released, `direction_correct` is that test itself. -/
theorem C8_resolve_inversion {σ : Type} (rig : Rig σ) (motor : MotorId) (steps : Int)
    (axis_mask : Nat) (axis_correct : Bool) (direction_mask : Nat) (direction_correct : Bool)
    (s : Engine σ) (before after : Nat)
    (hb : rig.limit_switches s.world % 256 = before)
    (ha : rig.limit_switches (s.move rig motor steps).world % 256 = after) :
    (and_not8 before after ≠ 0 →
        (resolve rig motor steps axis_mask axis_correct direction_mask direction_correct
            s).resolved = true
        ∧ (resolve rig motor steps axis_mask axis_correct direction_mask direction_correct
            s).direction_correct
          = !decide (((and_not8 before after ||| and_not8 after before) &&& direction_mask) ≠ 0))
      ∧ (and_not8 before after = 0 → and_not8 after before ≠ 0 →
        (resolve rig motor steps axis_mask axis_correct direction_mask direction_correct
            s).resolved = true
        ∧ (resolve rig motor steps axis_mask axis_correct direction_mask direction_correct
            s).direction_correct
          = decide (((and_not8 before after ||| and_not8 after before) &&& direction_mask) ≠ 0)) := by
  subst hb ha
  constructor
  · intro hrel
    simp only [resolve]
    rw [if_pos (Or.inl hrel)]
    simp only [if_pos hrel, and_self]
  · intro hrel htrig
    simp only [resolve]
    rw [if_pos (Or.inr htrig)]
    simp only [hrel, ne_eq, not_true_eq_false, if_false, and_self]

/-- C8 at a concrete probe: on a bed resting on its X-negative switch, moving
motor A by 5 steps releases bit 0; the raw intersection with the positive mask
is empty, so `direction_correct` is reported true. -/
theorem C8_resolve_inversion_witness :
    (resolve (bed_rig 100 100) MotorId.A 5 3 false 10 false (bed_start 0 50)).resolved = true
      ∧ (resolve (bed_rig 100 100) MotorId.A 5 3 false 10 false
          (bed_start 0 50)).direction_correct
        = !decide (((and_not8 1 0 ||| and_not8 0 1) &&& 10) ≠ 0) :=
  (C8_resolve_inversion (bed_rig 100 100) MotorId.A 5 3 false 10 false (bed_start 0 50) 1 0
    (by decide) (by decide)).1 (by decide)

/-- C9 (jam halts, P6) does not hold of the code.  For every hardware and every
state in which both counters are 0, the first measurement loop ends with the
jam test false, so the `JAMMED` halt that follows it is never entered.  On a
bed whose Y-positive switch is out of reach (X travel 13791, Y switch at
20000), the first loop ends on the exhausted Y budget with `pos_limit` still
false, and `calibrate` nevertheless runs to completion and writes a
`CalibrationData` whose Y length is the budget 10814. -/
theorem C9_jam_not_detected :
    (∀ (σ : Type) (rig : Rig σ) (fuel : Nat) (s : Engine σ),
        ∃ s2, sweep_both rig rig.pos_limit 1 (fuel + 10815)
            { s with x_distance := 0, y_distance := 0 } = some s2
          ∧ jam_test s2 = false)
      ∧ (∀ fuel : Nat,
        ∃ s2, sweep_both (bed_rig 13791 20000) (bed_rig 13791 20000).pos_limit 1
            (fuel + 10815) bed_homed = some s2
          ∧ (bed_rig 13791 20000).pos_limit s2.world = false
          ∧ s2.y_distance = expected_y + tolerance
          ∧ jam_test s2 = false)
      ∧ (∀ fuel : Nat,
        ∃ s', calibrate (bed_rig 13791 20000) (fuel + 20000) (some blank_calibration)
            (bed_start 5 7)
          = Outcome.completed s'
            (some { x_axis := { motor := MotorId.A, flipped := false, length := 13791 },
                    y_axis := { motor := MotorId.B, flipped := false, length := 10814 } })) := by
  refine ⟨?_, ?_, ?_⟩
  · intro σ rig fuel s
    obtain ⟨s2, e2, -, -, j2⟩ := sweep_both_total rig rig.pos_limit 1 (fuel + 10815)
      { s with x_distance := 0, y_distance := 0 } rfl (by dsimp only; omega)
      (by dsimp only; push_cast; omega)
    exact ⟨s2, e2, j2⟩
  · intro fuel
    have h0 : At bed_homed 0 0 0 0 true true := by
      simp [At, Tame, bed_homed, bed_start]
    obtain ⟨s2, e2, a2⟩ := bed_sweep_both_pos 13791 20000 (fuel + 10815) bed_homed
      (by decide) (by omega) h0
    obtain ⟨-, c1, c2, c3, c4, -, -⟩ := a2
    refine ⟨s2, e2, ?_, ?_, ?_⟩
    · simp [bed_rig, c1]
    · rw [c4]
      decide
    · simp [jam_test, expected_x, tolerance, c3]
  · intro fuel
    exact bed_calibrate 13791 20000 5 7 (fuel + 20000) blank_calibration
      (by decide) (by decide) (by decide) (by omega)

/-- The run of E2E scenario C on `bed_rig`, whose `pos_limit` and `neg_limit`
fire only with both axes at their ends: `calibrate` returns without the `JAMMED`
halt and records the X length 13791 and, for Y, the exhausted budget 10814, the
two-axis loops counting Y steps after the Y switch has fired. -/
theorem corner_reading_y_budget :
    ∀ fuel : Nat,
      ∃ s', calibrate (bed_rig 13791 10764) (fuel + 20000) (some blank_calibration)
          (bed_start 5 7)
        = Outcome.completed s'
          (some { x_axis := { motor := MotorId.A, flipped := false, length := 13791 },
                  y_axis := { motor := MotorId.B, flipped := false,
                              length := expected_y + tolerance } }) := by
  intro fuel
  exact bed_calibrate 13791 10764 5 7 (fuel + 20000) blank_calibration
    (by decide) (by decide) (by decide) (by omega)

/-! ## Further properties of the axis of `src/util/axis.cpp` -/

/-- C12 (`move_absolute` no-op): when the target equals `desired_position` or
`current_position`, `move_absolute(target)` returns the axis state unchanged:
both counters, the direction, the log and the motor record (so no command is
issued to the motor, and a pending move is not cancelled). -/
theorem C12_move_absolute_noop (a : Axis) (target : Nat)
    (h : target = a.desired_position ∨ target = a.current_position) :
    a.move_absolute target = a
      ∧ (a.move_absolute target).current_position = a.current_position
      ∧ (a.move_absolute target).desired_position = a.desired_position
      ∧ (a.move_absolute target).direction = a.direction
      ∧ (a.move_absolute target).motor = a.motor := by
  rw [Axis.move_absolute_noop a target h]
  exact ⟨rfl, rfl, rfl, rfl, rfl⟩

/-- C12 at a concrete state: an axis at position 1 on its way to 5 is given
`move_absolute(1)`, its current position; the move toward 5 stays pending. -/
theorem C12_move_absolute_noop_witness :
    (((Axis.ctor 'X' motor0).exec
        [AxisOp.move_absolute 5, AxisOp.run false false true]).move_absolute 1)
      = (Axis.ctor 'X' motor0).exec [AxisOp.move_absolute 5, AxisOp.run false false true]
      ∧ (((Axis.ctor 'X' motor0).exec
        [AxisOp.move_absolute 5, AxisOp.run false false true]).move_absolute
          1).desired_position = 5 :=
  ⟨(C12_move_absolute_noop ((Axis.ctor 'X' motor0).exec
      [AxisOp.move_absolute 5, AxisOp.run false false true]) 1 (Or.inr (by decide))).1,
    by decide⟩

/-- C15, as stated, fails: `move_absolute(20500)` on a freshly constructed axis
clamps `desired_position` to 16000 and logs no error-level event. -/
theorem C15_range_error_counterexample :
    ((Axis.ctor 'X' motor0).move_absolute 20500).desired_position = 16000
      ∧ ((Axis.ctor 'X' motor0).move_absolute 20500).log.count LogLevel.error = 0
      ∧ ((Axis.ctor 'X' motor0).move_absolute 20500).log.count LogLevel.error ≠ 1 := by
  decide

/-- C15 (out-of-range targets), amended: `move_absolute(uint32_t)` never emits an
error-level event, whatever the target, and `move_absolute(double)` emits none
for a position that is not negative; a target above 16000 is clamped (when the
call takes effect) without being reported. -/
theorem C15_no_range_error (a : Axis) (target : Nat) (position : ℚ) (pos : Nat)
    (hp : 0 ≤ position) :
    (a.move_absolute target).log.count LogLevel.error = a.log.count LogLevel.error
      ∧ (a.move_absolute_double position pos).log.count LogLevel.error
          = a.log.count LogLevel.error
      ∧ (target > 16000 → target ≠ a.current_position → target ≠ a.desired_position →
          (a.move_absolute target).desired_position = 16000) := by
  refine ⟨Axis.move_absolute_log_error a target, ?_, ?_⟩
  · have hneg : ¬ position < 0 := not_lt.mpr hp
    simp only [Axis.move_absolute_double, if_neg hneg]
    exact Axis.move_absolute_log_error a pos
  · intro hgt hc hd
    have hne : ¬ (target = a.desired_position ∨ target = a.current_position) := by
      rintro (h | h)
      · exact hd h
      · exact hc h
    rw [Axis.move_absolute_desired a target hne]
    simp only [arduino_min]
    split_ifs <;> omega

/-- C15 amended, at the scenario of the specification: a fresh axis given 20500,
through either overload, logs no error. -/
theorem C15_no_range_error_witness :
    ((Axis.ctor 'X' motor0).move_absolute 20500).log.count LogLevel.error
        = (Axis.ctor 'X' motor0).log.count LogLevel.error
      ∧ ((Axis.ctor 'X' motor0).move_absolute_double 20500 1640000).log.count LogLevel.error
          = (Axis.ctor 'X' motor0).log.count LogLevel.error :=
  ⟨(C15_no_range_error (Axis.ctor 'X' motor0) 20500 20500 1640000 (by norm_num)).1,
    (C15_no_range_error (Axis.ctor 'X' motor0) 20500 20500 1640000 (by norm_num)).2.1⟩

/-- C16 (direction invariant): in every state reachable from construction by
`move_absolute`, `move_incremental`, `run`, `zero` and `hold`, whenever the axis
is Moving, the direction is Positive if and only if `desired_position` exceeds
`current_position`. -/
theorem C16_direction_invariant (axis : Char) (motor : Stepper) (ops : List AxisOp)
    (hm : ((Axis.ctor axis motor).exec ops).current_position
      ≠ ((Axis.ctor axis motor).exec ops).desired_position) :
    ((Axis.ctor axis motor).exec ops).direction = Axis.Positive
      ↔ ((Axis.ctor axis motor).exec ops).desired_position
          > ((Axis.ctor axis motor).exec ops).current_position := by
  obtain ⟨-, -, h3, h4⟩ := Axis.inv_exec ops _ (Axis.inv_ctor axis motor)
  constructor
  · intro hd
    by_contra hle
    have hgt : ((Axis.ctor axis motor).exec ops).current_position
        > ((Axis.ctor axis motor).exec ops).desired_position := by omega
    have hn := h4 hgt
    rw [hd] at hn
    exact absurd hn (by decide)
  · intro hgt
    exact h3 hgt

/-- C16 at a concrete state: an axis sent to 5 and then, after one step, back to
0 is Moving with the direction Negative, and 0 does not exceed 1. -/
theorem C16_direction_invariant_witness :
    ((Axis.ctor 'X' motor0).exec [AxisOp.move_absolute 5, AxisOp.run false false true,
        AxisOp.move_absolute 0]).direction = Axis.Positive
      ↔ ((Axis.ctor 'X' motor0).exec [AxisOp.move_absolute 5, AxisOp.run false false true,
          AxisOp.move_absolute 0]).desired_position
        > ((Axis.ctor 'X' motor0).exec [AxisOp.move_absolute 5, AxisOp.run false false true,
          AxisOp.move_absolute 0]).current_position :=
  C16_direction_invariant 'X' motor0
    [AxisOp.move_absolute 5, AxisOp.run false false true, AxisOp.move_absolute 0] (by decide)

theorem set_direction_motor_mapping (a : Axis) (d : Nat) :
    (a.set_direction d).motor_mapping = a.motor_mapping := by
  unfold Axis.set_direction Axis.set_motor_direction Axis.logger
  split_ifs <;> rfl

theorem set_direction_same (a : Axis) (d : Nat) (h : d = a.direction) :
    a.set_direction d = a := by
  simp only [Axis.set_direction, if_pos h]

theorem set_direction_changed (a : Axis) (d : Nat) (h : d ≠ a.direction)
    (hd : d = Axis.Positive ∨ d = Axis.Negative) : (a.set_direction d).follows_table := by
  rcases hd with hd | hd
  · subst hd
    have h0 : ¬ ((0 : Nat) = a.direction) := h
    by_cases hm : a.motor_mapping = 0
    · simp [Axis.follows_table, Axis.table_says_cw, Axis.set_direction, h0,
        Axis.set_motor_direction, Axis.logger, Axis.Positive, Axis.Negative, Axis.CW_Positive,
        Axis.CW_Negative, Stepper.set_direction, hm]
    · simp [Axis.follows_table, Axis.table_says_cw, Axis.set_direction, h0,
        Axis.set_motor_direction, Axis.logger, Axis.Positive, Axis.Negative, Axis.CW_Positive,
        Axis.CW_Negative, Stepper.set_direction, hm]
  · subst hd
    have h0 : ¬ ((1 : Nat) = a.direction) := h
    by_cases hm : a.motor_mapping = 1
    · simp [Axis.follows_table, Axis.table_says_cw, Axis.set_direction, h0,
        Axis.set_motor_direction, Axis.logger, Axis.Positive, Axis.Negative, Axis.CW_Positive,
        Axis.CW_Negative, Stepper.set_direction, hm]
    · simp [Axis.follows_table, Axis.table_says_cw, Axis.set_direction, h0,
        Axis.set_motor_direction, Axis.logger, Axis.Positive, Axis.Negative, Axis.CW_Positive,
        Axis.CW_Negative, Stepper.set_direction, hm]

theorem move_absolute_motor_mapping (a : Axis) (p : Nat) :
    (a.move_absolute p).motor_mapping = a.motor_mapping := by
  simp only [Axis.move_absolute]
  split_ifs <;> simp only [set_direction_motor_mapping]

/-- C18, as stated, fails: an axis constructed over a motor whose rotation sense
is counter-clockwise and given `move_absolute(5)` (which takes effect) has
direction Positive and mapping `CW_Positive`, for which the table says
clockwise, yet the motor is still commanded counter-clockwise, because
`set_direction` returns early when the direction does not change. -/
theorem C18_rotation_counterexample :
    (5 ≠ (Axis.ctor 'X' motor_ccw).current_position
        ∧ 5 ≠ (Axis.ctor 'X' motor_ccw).desired_position)
      ∧ ((Axis.ctor 'X' motor_ccw).move_absolute 5).direction = Axis.Positive
      ∧ ((Axis.ctor 'X' motor_ccw).move_absolute 5).motor_mapping = Axis.CW_Positive
      ∧ ((Axis.ctor 'X' motor_ccw).move_absolute 5).motor.direction = Rotation.CCW
      ∧ ¬ ((Axis.ctor 'X' motor_ccw).move_absolute 5).follows_table := by
  refine ⟨by decide, by decide, by decide, by decide, ?_⟩
  intro h
  have hcw : ((Axis.ctor 'X' motor_ccw).move_absolute 5).motor.direction = Rotation.CW :=
    h.mpr (Or.inl ⟨by decide, by decide⟩)
  exact absurd hcw (by decide)

/-- C18 (motor rotation follows the two-entry table), amended: for every axis
state and every `move_absolute(target)` that takes effect, if the call changes
the direction then afterwards the motor is commanded clockwise exactly when the
table says so; if the direction is unchanged no command is issued and the motor
record is as before; hence the motor follows the table afterwards whenever it
did before the call.  The mapping is never changed by the call. -/
theorem C18_rotation_table (a : Axis) (target : Nat)
    (hc : target ≠ a.current_position) (hd : target ≠ a.desired_position) :
    ((a.move_absolute target).direction ≠ a.direction →
        (a.move_absolute target).follows_table)
      ∧ ((a.move_absolute target).direction = a.direction →
        (a.move_absolute target).motor = a.motor)
      ∧ (a.follows_table → (a.move_absolute target).follows_table)
      ∧ (a.move_absolute target).motor_mapping = a.motor_mapping := by
  have hne : ¬ (target = a.desired_position ∨ target = a.current_position) := by
    rintro (h | h)
    · exact hd h
    · exact hc h
  have key : ∀ (b : Axis) (d : Nat), (d = Axis.Positive ∨ d = Axis.Negative) →
      b.direction = a.direction → b.motor = a.motor → b.motor_mapping = a.motor_mapping →
      ((b.set_direction d).direction ≠ a.direction → (b.set_direction d).follows_table)
        ∧ ((b.set_direction d).direction = a.direction → (b.set_direction d).motor = a.motor)
        ∧ (a.follows_table → (b.set_direction d).follows_table) := by
    intro b d hdv hbd hbm hbp
    by_cases hsame : d = b.direction
    · rw [set_direction_same b d hsame]
      refine ⟨fun h => absurd hbd h, fun _ => hbm, fun hf => ?_⟩
      simpa only [Axis.follows_table, Axis.table_says_cw, hbd, hbm, hbp] using hf
    · have hft := set_direction_changed b d hsame hdv
      refine ⟨fun _ => hft, fun h => ?_, fun _ => hft⟩
      rw [Axis.set_direction_direction] at h
      exact absurd (h.trans hbd.symm) hsame
  have hall : ((a.move_absolute target).direction ≠ a.direction →
        (a.move_absolute target).follows_table)
      ∧ ((a.move_absolute target).direction = a.direction →
        (a.move_absolute target).motor = a.motor)
      ∧ (a.follows_table → (a.move_absolute target).follows_table) := by
    simp only [Axis.move_absolute, if_neg hne]
    split_ifs
    · exact key _ Axis.Positive (Or.inl rfl) rfl rfl rfl
    · exact key _ Axis.Negative (Or.inr rfl) rfl rfl rfl
  exact ⟨hall.1, hall.2.1, hall.2.2, move_absolute_motor_mapping a target⟩

/-- C18 amended, at a concrete call: an axis at position 1 heading to 5 (direction
Positive) is sent back to 0; the direction changes to Negative and the motor is
then commanded per the table (counter-clockwise under `CW_Positive`). -/
theorem C18_rotation_table_witness :
    (((Axis.ctor 'X' motor0).exec
        [AxisOp.move_absolute 5, AxisOp.run false false true]).move_absolute 0).follows_table
      ∧ (((Axis.ctor 'X' motor0).exec
        [AxisOp.move_absolute 5, AxisOp.run false false true]).move_absolute
          0).motor.direction = Rotation.CCW :=
  ⟨(C18_rotation_table ((Axis.ctor 'X' motor0).exec
      [AxisOp.move_absolute 5, AxisOp.run false false true]) 0 (by decide) (by decide)).1
      (by decide),
    by decide⟩

/-! ## Properties of the axis of `src/axis.cpp` -/

namespace Proto

theorem set_direction_fields (a : Axis) (d : Nat) :
    (a.set_direction d).current_position = a.current_position
      ∧ (a.set_direction d).desired_position = a.desired_position
      ∧ (a.set_direction d).direction = d := by
  simp only [Axis.set_direction, Axis.logger]
  split_ifs with h <;> first | exact ⟨rfl, rfl, rfl⟩ | exact ⟨rfl, rfl, h.symm⟩

theorem proto_move_absolute_noop (a : Axis) (p : Nat)
    (h : p = a.desired_position ∨ p = a.current_position) : a.move_absolute p = a := by
  simp only [Axis.move_absolute, if_pos h]

theorem move_absolute_fields (a : Axis) (p : Nat)
    (h : ¬ (p = a.desired_position ∨ p = a.current_position)) :
    (a.move_absolute p).current_position = a.current_position
      ∧ (a.move_absolute p).desired_position = arduino_min p 20000
      ∧ (a.move_absolute p).direction
          = if arduino_min p 20000 > a.current_position then Axis.Positive
            else Axis.Negative := by
  simp only [Axis.move_absolute, if_neg h, Argentum.Axis.arduino_max_zero, Axis.logger]
  split_ifs with h1
  · obtain ⟨e1, e2, e3⟩ := set_direction_fields
      ({ a with desired_position := arduino_min p 20000, log := a.log ++ [LogLevel.info] })
      Axis.Positive
    exact ⟨e1, e2, e3⟩
  · obtain ⟨e1, e2, e3⟩ := set_direction_fields
      ({ a with desired_position := arduino_min p 20000, log := a.log ++ [LogLevel.info] })
      Axis.Negative
    exact ⟨e1, e2, e3⟩

theorem proto_run_idle (a : Axis) (pl nl st : Bool)
    (h : a.current_position = a.desired_position) : a.run pl nl st = (false, a) := by
  simp only [Axis.run, if_pos h]

theorem proto_run_limited (a : Axis) (pl nl st : Bool)
    (h : (a.current_position < a.desired_position ∧ pl = true)
      ∨ (a.current_position > a.desired_position ∧ nl = true)) :
    a.run pl nl st = (false, (a.logger LogLevel.warn).hold) := by
  have hne : ¬ a.current_position = a.desired_position := by omega
  have hc : (decide (a.current_position < a.desired_position) && pl
      || decide (a.current_position > a.desired_position) && nl) = true := by
    rcases h with ⟨h1, h2⟩ | ⟨h1, h2⟩
    · simp [h1, h2]
    · simp [h1, h2]
  simp only [Axis.run, if_neg hne]
  rw [if_pos hc]

theorem run_reaches_step (a : Axis) (pl nl st : Bool) (h : a.reaches_step pl nl) :
    a.run pl nl st = a.step st := by
  obtain ⟨hne, hfree⟩ := h
  have hc : ¬ (decide (a.current_position < a.desired_position) && pl
      || decide (a.current_position > a.desired_position) && nl) = true := by
    intro hc
    apply hfree
    simp only [Bool.or_eq_true, Bool.and_eq_true, decide_eq_true_eq] at hc
    exact hc
  simp only [Axis.run, if_neg hne]
  rw [if_neg hc]

theorem arduino_min_le_20000 (p : Nat) : arduino_min p 20000 ≤ 20000 := by
  unfold arduino_min
  split_ifs <;> omega

theorem proto_inv_ctor (axis : Char) (motor : Stepper) : (Axis.ctor axis motor).Inv := by
  simp [Axis.Inv, Axis.ctor]

theorem proto_inv_move_absolute (a : Axis) (p : Nat) (h : a.Inv) : (a.move_absolute p).Inv := by
  by_cases hp : p = a.desired_position ∨ p = a.current_position
  · rw [proto_move_absolute_noop a p hp]
    exact h
  · obtain ⟨h1, -, -, -⟩ := h
    obtain ⟨hc, hd, hdir⟩ := move_absolute_fields a p hp
    have hle := arduino_min_le_20000 p
    refine ⟨by omega, by omega, ?_, ?_⟩
    · intro hlt
      rw [hdir, if_pos (by omega)]
    · intro hgt
      rw [hdir, if_neg (by omega)]

theorem step_fields (a : Axis) (st : Bool) :
    (a.step st).2.desired_position = a.desired_position
      ∧ (a.step st).2.direction = a.direction
      ∧ (a.step st).2.current_position
          = if st = true then
              (if a.direction = Axis.Positive then (a.current_position + 1) % U32
               else (a.current_position + U32 - 1) % U32)
            else a.current_position := by
  simp only [Axis.step, Axis.logger]
  split_ifs <;> exact ⟨rfl, rfl, rfl⟩

theorem step_in_range (a : Axis) (pl nl : Bool) (h : a.Inv) (hr : a.reaches_step pl nl) :
    (a.direction = Axis.Positive ∧ a.current_position < a.desired_position)
      ∨ (a.direction = Axis.Negative ∧ a.current_position > a.desired_position) := by
  obtain ⟨-, -, h3, h4⟩ := h
  obtain ⟨hne, -⟩ := hr
  by_cases hlt : a.current_position < a.desired_position
  · exact Or.inl ⟨h3 hlt, hlt⟩
  · exact Or.inr ⟨h4 (by omega), by omega⟩

theorem step_moves_one (a : Axis) (pl nl st : Bool) (h : a.Inv) (hr : a.reaches_step pl nl) :
    (a.direction = Axis.Positive ∧ a.current_position < a.desired_position
        ∧ ((a.step st).2.current_position = a.current_position
          ∨ (a.step st).2.current_position = a.current_position + 1))
      ∨ (a.direction = Axis.Negative ∧ a.current_position > a.desired_position
        ∧ ((a.step st).2.current_position = a.current_position
          ∨ (a.step st).2.current_position + 1 = a.current_position)) := by
  obtain ⟨-, -, e3⟩ := step_fields a st
  have hdir := step_in_range a pl nl h hr
  obtain ⟨h1, h2, -, -⟩ := h
  rcases hdir with ⟨hd, hlt⟩ | ⟨hd, hgt⟩
  · refine Or.inl ⟨hd, hlt, ?_⟩
    rw [e3, if_pos hd]
    simp only [U32]
    split_ifs <;> omega
  · refine Or.inr ⟨hd, hgt, ?_⟩
    have hnp : ¬ a.direction = Axis.Positive := by
      rw [hd]
      decide
    rw [e3, if_neg hnp]
    simp only [U32]
    split_ifs <;> omega

theorem proto_inv_run (a : Axis) (pl nl st : Bool) (h : a.Inv) : (a.run pl nl st).2.Inv := by
  by_cases hr : a.reaches_step pl nl
  · rw [run_reaches_step a pl nl st hr]
    obtain ⟨e1, e2, -⟩ := step_fields a st
    have hm := step_moves_one a pl nl st h hr
    obtain ⟨h1, h2, -, -⟩ := h
    simp only [Axis.Inv, e1, e2]
    rcases hm with ⟨hd, hlt, hp⟩ | ⟨hd, hgt, hp⟩
    · refine ⟨by omega, h2, fun _ => hd, fun hg => ?_⟩
      exfalso
      omega
    · refine ⟨by omega, h2, fun hl => ?_, fun _ => hd⟩
      exfalso
      omega
  · by_cases hidle : a.current_position = a.desired_position
    · rw [proto_run_idle a pl nl st hidle]
      exact h
    · have hlim : (a.current_position < a.desired_position ∧ pl = true)
          ∨ (a.current_position > a.desired_position ∧ nl = true) := by
        by_contra hn
        exact hr ⟨hidle, hn⟩
      rw [proto_run_limited a pl nl st hlim]
      obtain ⟨h1, -, -, -⟩ := h
      simp only [Axis.Inv, Axis.hold, Axis.logger]
      omega

theorem proto_inv_apply (a : Axis) (op : AxisOp) (h : a.Inv) : (a.apply op).Inv := by
  cases op with
  | move_absolute p => exact proto_inv_move_absolute a p h
  | move_incremental d => exact proto_inv_move_absolute a _ h
  | run pl nl st => exact proto_inv_run a pl nl st h
  | zero => simp [Axis.apply, Axis.Inv, Axis.zero]
  | hold =>
    obtain ⟨h1, -, -, -⟩ := h
    simp only [Axis.apply, Axis.Inv, Axis.hold]
    omega

theorem proto_inv_exec (ops : List AxisOp) (a : Axis) (h : a.Inv) : (a.exec ops).Inv := by
  induction ops generalizing a with
  | nil => exact h
  | cons op rest ih => exact ih (a.apply op) (proto_inv_apply a op h)

end Proto

/-- C17 (no underflow without the guard, `src/axis.cpp`): in every state
reachable from construction by `move_absolute`, `move_incremental`, `run`,
`zero` and `hold`, a `run()` that gets as far as `step()` never does so with
the direction Negative (or anything but Positive) and `current_position == 0`,
and the counter after `run()` is the old one, one more, or exactly one less;
it stays within `[0, 20000]`, so it never wraps below 0.  A `run()` that does
not reach `step()` leaves the motor and the counter untouched. -/
theorem C17_no_underflow (a : Proto.Axis) (positive_limit negative_limit did_step : Bool)
    (ha : a.reachable) :
    (a.reaches_step positive_limit negative_limit →
        a.run positive_limit negative_limit did_step = a.step did_step
        ∧ ¬ (a.direction = Proto.Axis.Negative ∧ a.current_position = 0)
        ∧ ¬ (a.direction ≠ Proto.Axis.Positive ∧ a.current_position = 0))
      ∧ (¬ a.reaches_step positive_limit negative_limit →
        (a.run positive_limit negative_limit did_step).2.motor = a.motor
        ∧ (a.run positive_limit negative_limit did_step).2.current_position
            = a.current_position)
      ∧ ((a.run positive_limit negative_limit did_step).2.current_position
            = a.current_position
        ∨ (a.run positive_limit negative_limit did_step).2.current_position
            = a.current_position + 1
        ∨ (a.run positive_limit negative_limit did_step).2.current_position + 1
            = a.current_position)
      ∧ a.current_position ≤ 20000
      ∧ (a.run positive_limit negative_limit did_step).2.current_position ≤ 20000 := by
  obtain ⟨axis, motor, ops, rfl⟩ := ha
  have hinv := Proto.proto_inv_exec ops _ (Proto.proto_inv_ctor axis motor)
  have hinv2 := Proto.proto_inv_run _ positive_limit negative_limit did_step hinv
  have hstay : ¬ ((Proto.Axis.ctor axis motor).exec ops).reaches_step positive_limit
        negative_limit →
      (((Proto.Axis.ctor axis motor).exec ops).run positive_limit negative_limit
          did_step).2.motor = ((Proto.Axis.ctor axis motor).exec ops).motor
      ∧ (((Proto.Axis.ctor axis motor).exec ops).run positive_limit negative_limit
          did_step).2.current_position
        = ((Proto.Axis.ctor axis motor).exec ops).current_position := by
    intro hr
    by_cases hidle : ((Proto.Axis.ctor axis motor).exec ops).current_position
        = ((Proto.Axis.ctor axis motor).exec ops).desired_position
    · rw [Proto.proto_run_idle _ _ _ _ hidle]
      exact ⟨rfl, rfl⟩
    · have hlim : (((Proto.Axis.ctor axis motor).exec ops).current_position
            < ((Proto.Axis.ctor axis motor).exec ops).desired_position
            ∧ positive_limit = true)
          ∨ (((Proto.Axis.ctor axis motor).exec ops).current_position
            > ((Proto.Axis.ctor axis motor).exec ops).desired_position
            ∧ negative_limit = true) := by
        by_contra hn
        exact hr ⟨hidle, hn⟩
      rw [Proto.proto_run_limited _ _ _ _ hlim]
      exact ⟨rfl, rfl⟩
  refine ⟨fun hr => ?_, hstay, ?_, hinv.1, hinv2.1⟩
  · refine ⟨Proto.run_reaches_step _ _ _ _ hr, ?_, ?_⟩
    · rintro ⟨hd, hz⟩
      rcases Proto.step_in_range _ _ _ hinv hr with ⟨hp, -⟩ | ⟨-, hgt⟩
      · rw [hp] at hd
        exact absurd hd (by decide)
      · omega
    · rintro ⟨hd, hz⟩
      rcases Proto.step_in_range _ _ _ hinv hr with ⟨hp, -⟩ | ⟨-, hgt⟩
      · exact hd hp
      · omega
  · by_cases hr : ((Proto.Axis.ctor axis motor).exec ops).reaches_step positive_limit
        negative_limit
    · rw [Proto.run_reaches_step _ _ _ _ hr]
      rcases Proto.step_moves_one _ _ _ did_step hinv hr with ⟨-, -, hp⟩ | ⟨-, -, hp⟩
      · rcases hp with hp | hp
        · exact Or.inl hp
        · exact Or.inr (Or.inl hp)
      · rcases hp with hp | hp
        · exact Or.inl hp
        · exact Or.inr (Or.inr hp)
    · exact Or.inl (hstay hr).2

/-- C17 at a concrete state: an axis of `src/axis.cpp` sent to 5, stepped once
and sent back to 0 reaches `step()` with the direction Negative at position 1,
and the step takes it to 0 without wrapping. -/
theorem C17_no_underflow_witness :
    ((Proto.Axis.ctor 'X' motor0).exec [Proto.AxisOp.move_absolute 5,
        Proto.AxisOp.run false false true, Proto.AxisOp.move_absolute 0]).reaches_step
        false false
      ∧ (((Proto.Axis.ctor 'X' motor0).exec [Proto.AxisOp.move_absolute 5,
        Proto.AxisOp.run false false true, Proto.AxisOp.move_absolute 0]).run false false
          true).2.current_position = 0
      ∧ (((Proto.Axis.ctor 'X' motor0).exec [Proto.AxisOp.move_absolute 5,
        Proto.AxisOp.run false false true, Proto.AxisOp.move_absolute 0]).run false false
          true).2.current_position ≤ 20000 :=
  ⟨⟨by decide, by decide⟩, by decide,
    (C17_no_underflow ((Proto.Axis.ctor 'X' motor0).exec [Proto.AxisOp.move_absolute 5,
        Proto.AxisOp.run false false true, Proto.AxisOp.move_absolute 0]) false false true
      ⟨'X', motor0, _, rfl⟩).2.2.2.2⟩

/-! ## Properties of `resolve` -/

theorem and_not8_testBit (a b i : Nat) (ha : a < 256) (hb : b < 256) :
    (and_not8 a b).testBit i = (a.testBit i && !b.testBit i) := by
  unfold and_not8
  rw [Nat.mod_eq_of_lt ha, Nat.mod_eq_of_lt hb]
  have e : 255 - b = 2 ^ 8 - (b + 1) := by
    norm_num
    omega
  have hb8 : b < 2 ^ 8 := by
    norm_num
    exact hb
  rw [e, Nat.testBit_and, Nat.testBit_two_pow_sub_succ hb8]
  by_cases hi : i < 8
  · simp [hi]
  · have hpow : 2 ^ 8 ≤ 2 ^ i := Nat.pow_le_pow_right (by decide) (by omega)
    have hai : a.testBit i = false := Nat.testBit_lt_two_pow (by
      have h256 : (2 : Nat) ^ 8 = 256 := by norm_num
      omega)
    simp [hai]

theorem changed_bits_xor (a b : Nat) (ha : a < 256) (hb : b < 256) :
    and_not8 a b ||| and_not8 b a = a ^^^ b := by
  apply Nat.eq_of_testBit_eq
  intro i
  rw [Nat.testBit_or, Nat.testBit_xor, and_not8_testBit a b i ha hb,
    and_not8_testBit b a i hb ha]
  cases a.testBit i <;> cases b.testBit i <;> rfl

theorem lor_eq_zero (a b : Nat) : a ||| b = 0 ↔ a = 0 ∧ b = 0 := by
  constructor
  · intro h
    have hbits : ∀ i, (a.testBit i || b.testBit i) = false := by
      intro i
      rw [← Nat.testBit_or, h]
      simp
    constructor
    · apply Nat.zero_of_testBit_eq_false
      intro i
      have := hbits i
      simp only [Bool.or_eq_false_iff] at this
      exact this.1
    · apply Nat.zero_of_testBit_eq_false
      intro i
      have := hbits i
      simp only [Bool.or_eq_false_iff] at this
      exact this.2
  · rintro ⟨rfl, rfl⟩
    rfl

theorem changed_iff_ne (a b : Nat) (ha : a < 256) (hb : b < 256) :
    (and_not8 a b ≠ 0 ∨ and_not8 b a ≠ 0) ↔ a ≠ b := by
  rw [← not_iff_not]
  push_neg
  rw [← lor_eq_zero, changed_bits_xor a b ha hb, Nat.xor_eq_zero]

theorem resolve_state_calls {σ : Type} (rig : Rig σ) (motor : MotorId) (steps : Int)
    (axis_mask : Nat) (axis_correct : Bool) (direction_mask : Nat) (direction_correct : Bool)
    (s : Engine σ) :
    (resolve rig motor steps axis_mask axis_correct direction_mask direction_correct
        s).state.calls
      = (if and_not8 (rig.limit_switches (s.move rig motor steps).world % 256)
            (rig.limit_switches s.world % 256) ≠ 0
          then [(motor, MotorCall.move (-steps))] else [])
        ++ (motor, MotorCall.move steps) :: s.calls := by
  simp only [resolve]
  split_ifs <;> simp [Engine.move, Engine.command]

/-- C13 (probe undo in `resolve`): with `before` and `after` the two snapshots,
the calls `resolve` issues are `motor.move(steps)` once, followed by
`motor.move(-steps)` exactly when a switch was newly triggered
(`after & ~before` is not 0), and nothing else; the displacement commanded by
the probe is 0 in that case and `steps` otherwise. -/
theorem C13_probe_undo {σ : Type} (rig : Rig σ) (motor : MotorId) (steps : Int)
    (axis_mask : Nat) (axis_correct : Bool) (direction_mask : Nat) (direction_correct : Bool)
    (s : Engine σ) (before after : Nat)
    (hb : rig.limit_switches s.world % 256 = before)
    (ha : rig.limit_switches (s.move rig motor steps).world % 256 = after) :
    (resolve rig motor steps axis_mask axis_correct direction_mask direction_correct
        s).state.calls
      = (if and_not8 after before ≠ 0 then [(motor, MotorCall.move (-steps))] else [])
        ++ (motor, MotorCall.move steps) :: s.calls
      ∧ commanded_displacement motor
          ((if and_not8 after before ≠ 0 then [(motor, MotorCall.move (-steps))] else [])
            ++ [(motor, MotorCall.move steps)])
        = if and_not8 after before ≠ 0 then 0 else steps := by
  subst hb ha
  refine ⟨resolve_state_calls rig motor steps axis_mask axis_correct direction_mask
    direction_correct s, ?_⟩
  split_ifs <;> simp [commanded_displacement]

/-- C13 at a concrete probe: on a bed of 100 by 100 steps with the carriage 5
steps short of the X-positive end, probing motor A by 5 steps triggers that
switch; the move is undone and the commanded displacement is 0. -/
theorem C13_probe_undo_witness :
    (resolve (bed_rig 100 100) MotorId.A 5 3 false 10 false (bed_start 95 50)).state.calls
      = (if and_not8 2 0 ≠ 0 then [(MotorId.A, MotorCall.move (-5))] else [])
        ++ (MotorId.A, MotorCall.move 5) :: (bed_start 95 50).calls
      ∧ commanded_displacement MotorId.A
          ((if and_not8 2 0 ≠ 0 then [(MotorId.A, MotorCall.move (-5))] else [])
            ++ [(MotorId.A, MotorCall.move 5)])
        = if and_not8 2 0 ≠ 0 then 0 else 5 :=
  C13_probe_undo (bed_rig 100 100) MotorId.A 5 3 false 10 false (bed_start 95 50) 0 2
    (by decide) (by decide)

/-- C14 (unresolved probe in `resolve`): with `before` and `after` the two 8-bit
snapshots, `resolve` returns true if and only if `before != after`; when it
returns true, `axis_correct` is `((before XOR after) & axis_mask) != 0`; when it
returns false, `axis_correct` and `direction_correct` keep the values the
caller passed. -/
theorem C14_unresolved_probe {σ : Type} (rig : Rig σ) (motor : MotorId) (steps : Int)
    (axis_mask : Nat) (axis_correct : Bool) (direction_mask : Nat) (direction_correct : Bool)
    (s : Engine σ) (before after : Nat)
    (hb : rig.limit_switches s.world % 256 = before)
    (ha : rig.limit_switches (s.move rig motor steps).world % 256 = after) :
    ((resolve rig motor steps axis_mask axis_correct direction_mask direction_correct
        s).resolved = true ↔ before ≠ after)
      ∧ ((resolve rig motor steps axis_mask axis_correct direction_mask direction_correct
          s).resolved = true →
        (resolve rig motor steps axis_mask axis_correct direction_mask direction_correct
          s).axis_correct = decide (((before ^^^ after) &&& axis_mask) ≠ 0))
      ∧ ((resolve rig motor steps axis_mask axis_correct direction_mask direction_correct
          s).resolved = false →
        (resolve rig motor steps axis_mask axis_correct direction_mask direction_correct
          s).axis_correct = axis_correct
        ∧ (resolve rig motor steps axis_mask axis_correct direction_mask direction_correct
          s).direction_correct = direction_correct) := by
  have hb8 : before < 256 := by
    rw [← hb]
    exact Nat.mod_lt _ (by decide)
  have ha8 : after < 256 := by
    rw [← ha]
    exact Nat.mod_lt _ (by decide)
  have hx := changed_bits_xor before after hb8 ha8
  have hne := changed_iff_ne before after hb8 ha8
  subst hb ha
  by_cases hch : and_not8 (rig.limit_switches s.world % 256)
        (rig.limit_switches (s.move rig motor steps).world % 256) ≠ 0
      ∨ and_not8 (rig.limit_switches (s.move rig motor steps).world % 256)
        (rig.limit_switches s.world % 256) ≠ 0
  · have hr : resolve rig motor steps axis_mask axis_correct direction_mask direction_correct s
        = { resolved := true,
            axis_correct := decide (((and_not8 (rig.limit_switches s.world % 256)
                (rig.limit_switches (s.move rig motor steps).world % 256)
              ||| and_not8 (rig.limit_switches (s.move rig motor steps).world % 256)
                (rig.limit_switches s.world % 256)) &&& axis_mask) ≠ 0),
            direction_correct := (resolve rig motor steps axis_mask axis_correct
              direction_mask direction_correct s).direction_correct,
            state := (resolve rig motor steps axis_mask axis_correct direction_mask
              direction_correct s).state } := by
      simp only [resolve]
      rw [if_pos hch]
    rw [hr]
    refine ⟨⟨fun _ => hne.mp hch, fun _ => rfl⟩, fun _ => ?_, fun h => ?_⟩
    · simp only [hx]
    · exact Bool.noConfusion h
  · have hr : resolve rig motor steps axis_mask axis_correct direction_mask direction_correct s
        = { resolved := false, axis_correct := axis_correct,
            direction_correct := direction_correct,
            state := (resolve rig motor steps axis_mask axis_correct direction_mask
              direction_correct s).state } := by
      simp only [resolve]
      rw [if_neg hch]
    rw [hr]
    refine ⟨⟨fun h => Bool.noConfusion h, fun h => absurd (hne.mpr h) hch⟩,
      fun h => Bool.noConfusion h, fun _ => ⟨rfl, rfl⟩⟩

/-- C14 at a concrete probe: on a bed of 100 by 100 steps with the carriage in
the middle, probing motor A by 5 steps changes no switch; `resolve` returns
false and leaves both out-parameters as passed. -/
theorem C14_unresolved_probe_witness :
    (resolve (bed_rig 100 100) MotorId.A 5 3 true 10 true (bed_start 50 50)).resolved = false
      ∧ (resolve (bed_rig 100 100) MotorId.A 5 3 true 10 true (bed_start 50 50)).axis_correct
          = true
      ∧ (resolve (bed_rig 100 100) MotorId.A 5 3 true 10 true
          (bed_start 50 50)).direction_correct = true :=
  ⟨by decide,
    (C14_unresolved_probe (bed_rig 100 100) MotorId.A 5 3 true 10 true (bed_start 50 50) 0 0
      (by decide) (by decide)).2.2 (by decide)⟩

/-! ## Discovery and finalization -/

/-- C11 (slow-discovery axis assignment, E2E scenario A): entering the fallback
path with `xMotor` at motor A and `yMotor` at motor B, if no limit is triggered
during the first `n` steps of motor A by -1 and some limit fires after the
`n`-th, the loop issues exactly those `n` calls `move(-1)` on motor A and
stops; afterwards `xMotor` is motor A (and `yMotor` motor B) when the switch
that fired is not a Y switch, and `xMotor` is motor B (and `yMotor` motor A)
when it belongs to Y.  With no switch triggered on entry `freedom` resolves
nothing and leaves the assignment alone, so this path is the one taken. -/
theorem C11_slow_discovery {σ : Type} (rig : Rig σ) (fuel n : Nat) (s : Engine σ)
    (hx : s.xMotor = MotorId.A) (hy : s.yMotor = MotorId.B)
    (hquiet : ∀ i, i < n →
      rig.any_limit (Nat.iterate (rig.actuate MotorId.A (MotorCall.move (-1))) i s.world)
        = false)
    (hfire : rig.any_limit
      (Nat.iterate (rig.actuate MotorId.A (MotorCall.move (-1))) n s.world) = true)
    (hf : n < fuel) :
    (rig.any_limit s.world = false →
        (freedom rig s).1 = false ∧ (freedom rig s).2.xMotor = MotorId.A
        ∧ (freedom rig s).2.yMotor = MotorId.B)
      ∧ ∃ s', slow_discovery rig fuel false s = some s'
        ∧ s'.world = Nat.iterate (rig.actuate MotorId.A (MotorCall.move (-1))) n s.world
        ∧ s'.calls = List.replicate n (MotorId.A, MotorCall.move (-1)) ++ s.calls
        ∧ s'.xMotor = (if rig.y_limit s'.world = true then MotorId.B else MotorId.A)
        ∧ s'.yMotor = (if rig.y_limit s'.world = true then MotorId.A else MotorId.B) := by
  constructor
  · intro hidle
    rw [freedom_idle rig s hidle]
    exact ⟨rfl, hx, hy⟩
  · obtain ⟨s1, hs1, hw, hxm, hym, hcalls⟩ := while_loop_count
      (fun t : Engine σ => !rig.any_limit t.world)
      (fun t => t.move rig t.xMotor (-1))
      (fun i t => t.world = Nat.iterate (rig.actuate MotorId.A (MotorCall.move (-1))) i s.world
        ∧ t.xMotor = MotorId.A ∧ t.yMotor = MotorId.B
        ∧ t.calls = List.replicate i (MotorId.A, MotorCall.move (-1)) ++ s.calls) n
      (by
        intro i t hi hP
        obtain ⟨h1, h2, h3, h4⟩ := hP
        refine ⟨?_, ?_, h2, h3, ?_⟩
        · simp only [h1, hquiet i hi]
          rfl
        · simp only [Engine.move, Engine.command, h1, h2]
          exact (Function.iterate_succ_apply' _ _ _).symm
        · simp only [Engine.move, Engine.command, h2, h4]
          rfl)
      (by
        intro t hP
        obtain ⟨h1, -, -, -⟩ := hP
        simp only [h1, hfire]
        rfl)
      fuel 0 s (by omega) ⟨rfl, hx, hy, rfl⟩ (by omega)
    by_cases hyl : rig.y_limit s1.world = true
    · refine ⟨{ s1 with xMotor := s1.yMotor, yMotor := s1.xMotor }, ?_, hw, hcalls, ?_, ?_⟩
      · simp only [slow_discovery, hs1, hyl]
        rfl
      · simp only [hyl, if_true]
        exact hym
      · simp only [hyl, if_true]
        exact hxm
    · refine ⟨s1, ?_, hw, hcalls, ?_, ?_⟩
      · have hyl2 : rig.y_limit s1.world = false := by simpa using hyl
        simp only [slow_discovery, hs1, hyl2]
        rfl
      · rw [if_neg hyl]
        exact hxm
      · rw [if_neg hyl]
        exact hym

/-- C11 at the scenario of the specification: on a bed where motor A in fact
drives Y, with the carriage 3 steps from the Y-negative end, the first switch to
fire is Y-negative and the assignment is swapped: `xMotor` is motor B. -/
theorem C11_slow_discovery_witness :
    ∃ s', slow_discovery (crossed_rig 100 100) 10 false (bed_start 50 3) = some s'
      ∧ (crossed_rig 100 100).y_neg_limit s'.world = true
      ∧ s'.xMotor = MotorId.B ∧ s'.yMotor = MotorId.A := by
  obtain ⟨s', h1, hw, -, hxm, hym⟩ :=
    (C11_slow_discovery (crossed_rig 100 100) 10 3 (bed_start 50 3) rfl rfl
      (by decide) (by decide) (by decide)).2
  have hyneg : (crossed_rig 100 100).y_neg_limit s'.world = true := by
    rw [hw]
    decide
  have hyl : (crossed_rig 100 100).y_limit s'.world = true := by
    rw [hw]
    decide
  rw [if_pos hyl] at hxm hym
  exact ⟨s', h1, hyneg, hxm, hym⟩

/-- One pass of the body of the finalization loop is the X half followed by
the Y half.  For an axis not yet resolved, the half commands `move(-1)` on that
axis's motor (and nothing else) when the axis's own limit is not triggered; when
the limit is triggered it issues no move, marks the axis resolved, and calls
`set_inverted(true)` on that motor exactly when the axis's positive-side switch
is triggered, leaving both inverted flags alone otherwise.  For an axis already
resolved the half does nothing. -/
theorem finalize_half_cases {σ : Type} (rig : Rig σ) (s : Engine σ) :
    finalize_body rig s = finalize_y rig (finalize_x rig s)
      ∧ (s.x_direction_resolved = true → finalize_x rig s = s)
      ∧ (s.x_direction_resolved = false → rig.x_limit s.world = false →
          finalize_x rig s = s.move rig s.xMotor (-1)
          ∧ (finalize_x rig s).x_direction_resolved = false
          ∧ (finalize_x rig s).calls = (s.xMotor, MotorCall.move (-1)) :: s.calls)
      ∧ (s.x_direction_resolved = false → rig.x_limit s.world = true →
          (finalize_x rig s).x_direction_resolved = true
          ∧ (finalize_x rig s).calls
              = (if rig.x_pos_limit s.world = true
                  then [(s.xMotor, MotorCall.set_inverted true)] else []) ++ s.calls
          ∧ (rig.x_pos_limit s.world = true →
              (finalize_x rig s).is_inverted s.xMotor = true)
          ∧ (rig.x_pos_limit s.world = false →
              (finalize_x rig s).a_inverted = s.a_inverted
              ∧ (finalize_x rig s).b_inverted = s.b_inverted))
      ∧ (s.y_direction_resolved = true → finalize_y rig s = s)
      ∧ (s.y_direction_resolved = false → rig.y_limit s.world = false →
          finalize_y rig s = s.move rig s.yMotor (-1)
          ∧ (finalize_y rig s).y_direction_resolved = false
          ∧ (finalize_y rig s).calls = (s.yMotor, MotorCall.move (-1)) :: s.calls)
      ∧ (s.y_direction_resolved = false → rig.y_limit s.world = true →
          (finalize_y rig s).y_direction_resolved = true
          ∧ (finalize_y rig s).calls
              = (if rig.y_pos_limit s.world = true
                  then [(s.yMotor, MotorCall.set_inverted true)] else []) ++ s.calls
          ∧ (rig.y_pos_limit s.world = true →
              (finalize_y rig s).is_inverted s.yMotor = true)
          ∧ (rig.y_pos_limit s.world = false →
              (finalize_y rig s).a_inverted = s.a_inverted
              ∧ (finalize_y rig s).b_inverted = s.b_inverted)) := by
  refine ⟨rfl, ?_, ?_, ?_, ?_, ?_, ?_⟩
  · intro hr
    simp [finalize_x, hr]
  · intro hr hl
    simp [finalize_x, hr, hl, Engine.move, Engine.command]
  · intro hr hl
    by_cases hp : rig.x_pos_limit s.world = true
    · refine ⟨?_, ?_, ?_, ?_⟩
      · cases hm : s.xMotor <;>
          simp [finalize_x, hr, hl, hp, hm, Engine.set_inverted, Engine.command]
      · cases hm : s.xMotor <;>
          simp [finalize_x, hr, hl, hp, hm, Engine.set_inverted, Engine.command]
      · intro _
        cases hm : s.xMotor <;>
          simp [finalize_x, hr, hl, hp, hm, Engine.set_inverted, Engine.command,
            Engine.is_inverted]
      · intro hn
        rw [hp] at hn
        exact Bool.noConfusion hn
    · have hp2 : rig.x_pos_limit s.world = false := by simpa using hp
      simp [finalize_x, hr, hl, hp2]
  · intro hr
    simp [finalize_y, hr]
  · intro hr hl
    simp [finalize_y, hr, hl, Engine.move, Engine.command]
  · intro hr hl
    by_cases hp : rig.y_pos_limit s.world = true
    · refine ⟨?_, ?_, ?_, ?_⟩
      · cases hm : s.yMotor <;>
          simp [finalize_y, hr, hl, hp, hm, Engine.set_inverted, Engine.command]
      · cases hm : s.yMotor <;>
          simp [finalize_y, hr, hl, hp, hm, Engine.set_inverted, Engine.command]
      · intro _
        cases hm : s.yMotor <;>
          simp [finalize_y, hr, hl, hp, hm, Engine.set_inverted, Engine.command,
            Engine.is_inverted]
      · intro hn
        rw [hp] at hn
        exact Bool.noConfusion hn
    · have hp2 : rig.y_pos_limit s.world = false := by simpa using hp
      simp [finalize_y, hr, hl, hp2]

/-! ## The probes of `freedom` -/

theorem resolve_state_motors {σ : Type} (rig : Rig σ) (motor : MotorId) (steps : Int)
    (axis_mask : Nat) (axis_correct : Bool) (direction_mask : Nat) (direction_correct : Bool)
    (s : Engine σ) :
    (resolve rig motor steps axis_mask axis_correct direction_mask direction_correct
        s).state.xMotor = s.xMotor
      ∧ (resolve rig motor steps axis_mask axis_correct direction_mask direction_correct
        s).state.yMotor = s.yMotor := by
  simp only [resolve]
  split_ifs <;> exact ⟨rfl, rfl⟩

theorem set_inverted_motors {σ : Type} (rig : Rig σ) (s : Engine σ) (m : MotorId) (b : Bool) :
    (s.set_inverted rig m b).xMotor = s.xMotor ∧ (s.set_inverted rig m b).yMotor = s.yMotor := by
  cases m <;> exact ⟨rfl, rfl⟩

theorem probe_b_state_motors {σ : Type} (rig : Rig σ) (s : Engine σ) :
    (probe_b rig s).state.xMotor = (after_a rig s).xMotor
      ∧ (probe_b rig s).state.yMotor = (after_a rig s).yMotor := by
  simp only [probe_b]
  split_ifs
  · obtain ⟨e1, e2⟩ := resolve_state_motors rig MotorId.B (-rig.b_escape_steps) rig.Y_MASK
      (resolve rig MotorId.B rig.b_escape_steps rig.Y_MASK (probe_a rig s).axis_correct
        rig.POS_MASK (probe_a rig s).direction_correct (after_a rig s)).axis_correct
      rig.NEG_MASK
      (resolve rig MotorId.B rig.b_escape_steps rig.Y_MASK (probe_a rig s).axis_correct
        rig.POS_MASK (probe_a rig s).direction_correct (after_a rig s)).direction_correct
      (resolve rig MotorId.B rig.b_escape_steps rig.Y_MASK (probe_a rig s).axis_correct
        rig.POS_MASK (probe_a rig s).direction_correct (after_a rig s)).state
    obtain ⟨f1, f2⟩ := resolve_state_motors rig MotorId.B rig.b_escape_steps rig.Y_MASK
      (probe_a rig s).axis_correct rig.POS_MASK (probe_a rig s).direction_correct
      (after_a rig s)
    exact ⟨e1.trans f1, e2.trans f2⟩
  · exact resolve_state_motors rig MotorId.B rig.b_escape_steps rig.Y_MASK
      (probe_a rig s).axis_correct rig.POS_MASK (probe_a rig s).direction_correct
      (after_a rig s)

theorem after_a_motors {σ : Type} (rig : Rig σ) (s : Engine σ)
    (ha : (probe_a rig s).resolved = true) :
    (after_a rig s).xMotor
        = (if (probe_a rig s).axis_correct = true then MotorId.A else MotorId.B)
      ∧ (after_a rig s).yMotor
        = (if (probe_a rig s).axis_correct = true then MotorId.B else MotorId.A) := by
  cases h1 : (probe_a rig s).axis_correct <;> cases h2 : (probe_a rig s).direction_correct <;>
    simp [after_a, ha, h1, h2, Engine.set_inverted, Engine.command]

theorem freedom_probes {σ : Type} (rig : Rig σ) (s : Engine σ)
    (hlim : rig.any_limit s.world = true) :
    freedom rig s
      = ((probe_a rig s).resolved || (probe_b rig s).resolved,
          if (probe_b rig s).resolved = true then
            if (probe_b rig s).direction_correct = true then
              (if (probe_b rig s).axis_correct = true then
                { (probe_b rig s).state with xMotor := MotorId.A, yMotor := MotorId.B,
                                              y_direction_resolved := true }
              else
                { (probe_b rig s).state with xMotor := MotorId.B, yMotor := MotorId.A,
                                              x_direction_resolved := true })
            else
              (if (probe_b rig s).axis_correct = true then
                { (probe_b rig s).state with xMotor := MotorId.A, yMotor := MotorId.B,
                                              y_direction_resolved := true }
              else
                { (probe_b rig s).state with xMotor := MotorId.B, yMotor := MotorId.A,
                                              x_direction_resolved := true }).set_inverted
                rig MotorId.B true
          else (probe_b rig s).state) := by
  have h0 : rig.any_limit
      ({ s with x_direction_resolved := false, y_direction_resolved := false } :
        Engine σ).world = true := hlim
  simp only [freedom, h0, if_true]
  rfl

theorem freedom_motors {σ : Type} (rig : Rig σ) (s : Engine σ)
    (hlim : rig.any_limit s.world = true) :
    ((probe_b rig s).resolved = false →
        (freedom rig s).2.xMotor = (after_a rig s).xMotor
        ∧ (freedom rig s).2.yMotor = (after_a rig s).yMotor)
      ∧ ((probe_b rig s).resolved = true →
        (freedom rig s).2.xMotor
            = (if (probe_b rig s).axis_correct = true then MotorId.A else MotorId.B)
        ∧ (freedom rig s).2.yMotor
            = (if (probe_b rig s).axis_correct = true then MotorId.B else MotorId.A)) := by
  rw [freedom_probes rig s hlim]
  constructor
  · intro hb
    simp only [hb, Bool.false_eq_true, if_false]
    exact probe_b_state_motors rig s
  · intro hb
    cases h1 : (probe_b rig s).axis_correct <;> cases h2 : (probe_b rig s).direction_correct <;>
      simp [hb, Engine.set_inverted, Engine.command]

/-- C20, as stated, fails: on a bed whose Y-negative switch reports in a bit of
the X mask, with the carriage in the corner where both negative switches are
triggered, motor A's probe resolves and assigns `xMotor` to A and `yMotor` to B;
motor B's probe then resolves too, finds its changed bit outside the Y mask,
and when `freedom` returns `xMotor` is B and `yMotor` is A. -/
theorem C20_assignment_counterexample :
    (miswired_rig 1000 1000).any_limit (bed_start 0 0).world = true
      ∧ (probe_a (miswired_rig 1000 1000) (bed_start 0 0)).resolved = true
      ∧ (after_a (miswired_rig 1000 1000) (bed_start 0 0)).xMotor = MotorId.A
      ∧ (after_a (miswired_rig 1000 1000) (bed_start 0 0)).yMotor = MotorId.B
      ∧ (probe_b (miswired_rig 1000 1000) (bed_start 0 0)).resolved = true
      ∧ (freedom (miswired_rig 1000 1000) (bed_start 0 0)).2.xMotor = MotorId.B
      ∧ (freedom (miswired_rig 1000 1000) (bed_start 0 0)).2.yMotor = MotorId.A := by
  refine ⟨by decide, by decide, by decide, by decide, by decide, by decide, by decide⟩

/-- C20 (assignment settled by the first resolving probe), amended: when a limit
is triggered on entry and motor A's probe resolves, A's probe sets `xMotor` to A
and `yMotor` to B if its changed bits meet the X mask, and the other way round
if not.  That assignment is the one held when `freedom` returns whenever motor
B's probe does not resolve, or resolves with its changed bits meeting the Y
mask exactly when A's met the X mask; when B's probe resolves it is B's finding
that fixes the assignment at return. -/
theorem C20_assignment_settled {σ : Type} (rig : Rig σ) (s : Engine σ)
    (hlim : rig.any_limit s.world = true) (ha : (probe_a rig s).resolved = true) :
    ((after_a rig s).xMotor
          = (if (probe_a rig s).axis_correct = true then MotorId.A else MotorId.B)
        ∧ (after_a rig s).yMotor
          = (if (probe_a rig s).axis_correct = true then MotorId.B else MotorId.A))
      ∧ ((probe_b rig s).resolved = false
            ∨ (probe_b rig s).axis_correct = (probe_a rig s).axis_correct →
          (freedom rig s).2.xMotor = (after_a rig s).xMotor
          ∧ (freedom rig s).2.yMotor = (after_a rig s).yMotor)
      ∧ ((probe_b rig s).resolved = true →
          (freedom rig s).2.xMotor
              = (if (probe_b rig s).axis_correct = true then MotorId.A else MotorId.B)
          ∧ (freedom rig s).2.yMotor
              = (if (probe_b rig s).axis_correct = true then MotorId.B else MotorId.A)) := by
  obtain ⟨hno, hyes⟩ := freedom_motors rig s hlim
  obtain ⟨ax, ay⟩ := after_a_motors rig s ha
  refine ⟨⟨ax, ay⟩, ?_, hyes⟩
  intro hcase
  by_cases hb : (probe_b rig s).resolved = true
  · rcases hcase with hf | hsame
    · rw [hb] at hf
      exact Bool.noConfusion hf
    · obtain ⟨fx, fy⟩ := hyes hb
      rw [fx, fy, ax, ay, hsame]
      exact ⟨rfl, rfl⟩
  · have hb2 : (probe_b rig s).resolved = false := by simpa using hb
    exact hno hb2

/-- C20 amended, at a concrete run: on the bed of 1000 by 1000 steps with the
carriage in the negative corner, both probes resolve and agree, and `freedom`
returns with `xMotor` at A and `yMotor` at B, as motor A's probe determined. -/
theorem C20_assignment_settled_witness :
    (probe_b (bed_rig 1000 1000) (bed_start 0 0)).resolved = true
      ∧ (after_a (bed_rig 1000 1000) (bed_start 0 0)).xMotor = MotorId.A
      ∧ (freedom (bed_rig 1000 1000) (bed_start 0 0)).2.xMotor
          = (after_a (bed_rig 1000 1000) (bed_start 0 0)).xMotor
      ∧ (freedom (bed_rig 1000 1000) (bed_start 0 0)).2.yMotor
          = (after_a (bed_rig 1000 1000) (bed_start 0 0)).yMotor :=
  ⟨by decide, by decide,
    ((C20_assignment_settled (bed_rig 1000 1000) (bed_start 0 0) (by decide)
      (by decide)).2.1 (Or.inr (by decide))).1,
    ((C20_assignment_settled (bed_rig 1000 1000) (bed_start 0 0) (by decide)
      (by decide)).2.1 (Or.inr (by decide))).2⟩

/-! ## Single-axis jam checks -/

theorem sweep_y_total {σ : Type} (rig : Rig σ) (limit : σ → Bool) (steps : Int) :
    ∀ (fuel : Nat) (s : Engine σ), 0 < fuel → 10814 - s.y_distance < (fuel : Int) →
      ∃ s', sweep_y rig limit steps fuel s = some s' ∧ s'.x_distance = s.x_distance := by
  intro fuel
  induction fuel with
  | zero =>
    intro s h0 _
    omega
  | succ k ih =>
    intro s _ hf
    by_cases hc : (!limit s.world && decide (s.y_distance < expected_y + tolerance)) = true
    · have hy : s.y_distance < 10814 := by
        simp only [Bool.and_eq_true, decide_eq_true_eq, expected_y, tolerance] at hc
        omega
      obtain ⟨s2, e2, p2⟩ := ih
        ({ s.move rig s.yMotor steps with y_distance := s.y_distance + 1 })
        (by push_cast at hf; omega)
        (by dsimp only; push_cast at hf; omega)
      refine ⟨s2, ?_, p2⟩
      unfold sweep_y at e2 ⊢
      simp only [while_loop, hc, if_true]
      exact e2
    · have hc2 : (!limit s.world && decide (s.y_distance < expected_y + tolerance)) = false := by
        simpa using hc
      refine ⟨s, ?_, rfl⟩
      unfold sweep_y
      simp only [while_loop, hc2]
      rfl

theorem sweep_x_total {σ : Type} (rig : Rig σ) (limit : σ → Bool) (steps : Int) :
    ∀ (fuel : Nat) (s : Engine σ), 0 < fuel → 13841 - s.x_distance < (fuel : Int) →
      ∃ s', sweep_x rig limit steps fuel s = some s' ∧ s'.y_distance = s.y_distance := by
  intro fuel
  induction fuel with
  | zero =>
    intro s h0 _
    omega
  | succ k ih =>
    intro s _ hf
    by_cases hc : (!limit s.world && decide (s.x_distance < expected_x + tolerance)) = true
    · have hx : s.x_distance < 13841 := by
        simp only [Bool.and_eq_true, decide_eq_true_eq, expected_x, tolerance] at hc
        omega
      obtain ⟨s2, e2, p2⟩ := ih
        ({ s.move rig s.xMotor steps with x_distance := s.x_distance + 1 })
        (by push_cast at hf; omega)
        (by dsimp only; push_cast at hf; omega)
      refine ⟨s2, ?_, p2⟩
      unfold sweep_x at e2 ⊢
      simp only [while_loop, hc, if_true]
      exact e2
    · have hc2 : (!limit s.world && decide (s.x_distance < expected_x + tolerance)) = false := by
        simpa using hc
      refine ⟨s, ?_, rfl⟩
      unfold sweep_x
      simp only [while_loop, hc2]
      rfl

/-- C21 (per-axis jam detection) does not hold of the code.  For every hardware,
the Y loop always ends with the jam test false when the X counter is below its
budget, whatever the Y counter and the Y switch did, and the X loop always ends
with the jam test false when the Y counter is below its budget: a jam of one
axis alone is never detected.  On a bed whose X travel is 13000 and whose
Y-positive switch is out of reach (30000 steps away), X reaches its switch
within budget, Y never does, and `calibrate` runs to completion and records the
exhausted Y budget 10814 as the Y length. -/
theorem C21_single_axis_jam_not_detected :
    (∀ (σ : Type) (rig : Rig σ) (limit : σ → Bool) (steps : Int) (fuel : Nat) (s : Engine σ)
        (k yd : Nat),
        ∃ s', sweep_y rig limit steps (fuel + 10815)
            { s with x_distance := 13840 - (k : Int), y_distance := (yd : Int) } = some s'
          ∧ s'.x_distance = 13840 - (k : Int)
          ∧ jam_test s' = false)
      ∧ (∀ (σ : Type) (rig : Rig σ) (limit : σ → Bool) (steps : Int) (fuel : Nat)
          (s : Engine σ) (xd k : Nat),
        ∃ s', sweep_x rig limit steps (fuel + 13842)
            { s with x_distance := (xd : Int), y_distance := 10813 - (k : Int) } = some s'
          ∧ s'.y_distance = 10813 - (k : Int)
          ∧ jam_test s' = false)
      ∧ (∀ fuel : Nat,
        ∃ s', calibrate (bed_rig 13000 30000) (fuel + 40000) (some blank_calibration)
            (bed_start 3 4)
          = Outcome.completed s'
            (some { x_axis := { motor := MotorId.A, flipped := false, length := 13000 },
                    y_axis := { motor := MotorId.B, flipped := false,
                                length := expected_y + tolerance } })) := by
  refine ⟨?_, ?_, ?_⟩
  · intro σ rig limit steps fuel s k yd
    obtain ⟨s', e, hx⟩ := sweep_y_total rig limit steps (fuel + 10815)
      { s with x_distance := 13840 - (k : Int), y_distance := (yd : Int) }
      (by omega) (by dsimp only; push_cast; omega)
    refine ⟨s', e, hx, ?_⟩
    have hlt : s'.x_distance < 13841 := by
      rw [hx]
      dsimp only
      omega
    simp [jam_test, expected_x, tolerance, hlt]
  · intro σ rig limit steps fuel s xd k
    obtain ⟨s', e, hy⟩ := sweep_x_total rig limit steps (fuel + 13842)
      { s with x_distance := (xd : Int), y_distance := 10813 - (k : Int) }
      (by omega) (by dsimp only; push_cast; omega)
    refine ⟨s', e, hy, ?_⟩
    have hlt : s'.y_distance < 10814 := by
      rw [hy]
      dsimp only
      omega
    simp [jam_test, expected_y, tolerance, hlt]
  · intro fuel
    exact bed_calibrate 13000 30000 3 4 (fuel + 40000) blank_calibration
      (by decide) (by decide) (by decide) (by omega)

/-! ## The motor assignment stays distinct -/

theorem while_loop_preserves {S : Type} (good : S → Prop) (cond : S → Bool) (body : S → S)
    (hbody : ∀ t, good t → good (body t)) :
    ∀ (fuel : Nat) (s s' : S), good s → while_loop cond body fuel s = some s' → good s' := by
  intro fuel
  induction fuel with
  | zero =>
    intro s s' _ h
    simp [while_loop] at h
  | succ k ih =>
    intro s s' hs h
    by_cases hc : cond s = true
    · simp only [while_loop, hc, if_true] at h
      exact ih (body s) s' (hbody s hs) h
    · have hc2 : cond s = false := by simpa using hc
      simp only [while_loop, hc2] at h
      have e : s = s' := by simpa using h
      rw [← e]
      exact hs

theorem probe_a_state_motors {σ : Type} (rig : Rig σ) (s : Engine σ) :
    (probe_a rig s).state.xMotor = s.xMotor ∧ (probe_a rig s).state.yMotor = s.yMotor := by
  simp only [probe_a]
  split_ifs
  · obtain ⟨e1, e2⟩ := resolve_state_motors rig MotorId.A (-rig.a_escape_steps) rig.X_MASK
      (resolve rig MotorId.A rig.a_escape_steps rig.X_MASK false rig.POS_MASK false
        { s with x_direction_resolved := false, y_direction_resolved := false }).axis_correct
      rig.NEG_MASK
      (resolve rig MotorId.A rig.a_escape_steps rig.X_MASK false rig.POS_MASK false
        { s with x_direction_resolved := false,
                 y_direction_resolved := false }).direction_correct
      (resolve rig MotorId.A rig.a_escape_steps rig.X_MASK false rig.POS_MASK false
        { s with x_direction_resolved := false, y_direction_resolved := false }).state
    obtain ⟨f1, f2⟩ := resolve_state_motors rig MotorId.A rig.a_escape_steps rig.X_MASK false
      rig.POS_MASK false
      { s with x_direction_resolved := false, y_direction_resolved := false }
    exact ⟨e1.trans f1, e2.trans f2⟩
  · exact resolve_state_motors rig MotorId.A rig.a_escape_steps rig.X_MASK false
      rig.POS_MASK false
      { s with x_direction_resolved := false, y_direction_resolved := false }

theorem pair_distinct (c : Bool) :
    (if c = true then MotorId.A else MotorId.B) ≠ (if c = true then MotorId.B else MotorId.A) := by
  cases c <;> decide

theorem after_a_distinct {σ : Type} (rig : Rig σ) (s : Engine σ) (h : s.distinct) :
    (after_a rig s).distinct := by
  by_cases ha : (probe_a rig s).resolved = true
  · obtain ⟨ex, ey⟩ := after_a_motors rig s ha
    unfold Engine.distinct
    rw [ex, ey]
    exact pair_distinct _
  · have ha2 : (probe_a rig s).resolved = false := by simpa using ha
    obtain ⟨ex, ey⟩ := probe_a_state_motors rig s
    have e : after_a rig s = (probe_a rig s).state := by
      simp [after_a, ha2]
    unfold Engine.distinct
    rw [e, ex, ey]
    exact h

theorem freedom_distinct {σ : Type} (rig : Rig σ) (s : Engine σ) (h : s.distinct) :
    (freedom rig s).2.distinct := by
  by_cases hlim : rig.any_limit s.world = true
  · obtain ⟨hno, hyes⟩ := freedom_motors rig s hlim
    by_cases hb : (probe_b rig s).resolved = true
    · obtain ⟨ex, ey⟩ := hyes hb
      unfold Engine.distinct
      rw [ex, ey]
      exact pair_distinct _
    · have hb2 : (probe_b rig s).resolved = false := by simpa using hb
      obtain ⟨ex, ey⟩ := hno hb2
      unfold Engine.distinct
      rw [ex, ey]
      exact after_a_distinct rig s h
  · have hlim2 : rig.any_limit s.world = false := by simpa using hlim
    rw [freedom_idle rig s hlim2]
    exact h

theorem finalize_x_motors {σ : Type} (rig : Rig σ) (s : Engine σ) :
    (finalize_x rig s).xMotor = s.xMotor ∧ (finalize_x rig s).yMotor = s.yMotor := by
  simp only [finalize_x]
  split_ifs
  · exact ⟨rfl, rfl⟩
  · exact set_inverted_motors rig { s with x_direction_resolved := true } s.xMotor true
  · exact ⟨rfl, rfl⟩
  · exact ⟨rfl, rfl⟩

theorem finalize_y_motors {σ : Type} (rig : Rig σ) (s : Engine σ) :
    (finalize_y rig s).xMotor = s.xMotor ∧ (finalize_y rig s).yMotor = s.yMotor := by
  simp only [finalize_y]
  split_ifs
  · exact ⟨rfl, rfl⟩
  · exact set_inverted_motors rig { s with y_direction_resolved := true } s.yMotor true
  · exact ⟨rfl, rfl⟩
  · exact ⟨rfl, rfl⟩

theorem finalize_body_distinct {σ : Type} (rig : Rig σ) (s : Engine σ) (h : s.distinct) :
    (finalize_body rig s).distinct := by
  have e : finalize_body rig s = finalize_y rig (finalize_x rig s) := rfl
  obtain ⟨x1, x2⟩ := finalize_x_motors rig s
  obtain ⟨y1, y2⟩ := finalize_y_motors rig (finalize_x rig s)
  unfold Engine.distinct
  rw [e, y1, y2, x1, x2]
  exact h

theorem slow_discovery_distinct {σ : Type} (rig : Rig σ) (fuel : Nat) (axes_resolved : Bool)
    (s s' : Engine σ) (h : s.distinct) (hr : slow_discovery rig fuel axes_resolved s = some s') :
    s'.distinct := by
  cases axes_resolved with
  | true =>
    have e : s = s' := by simpa [slow_discovery] using hr
    rw [← e]
    exact h
  | false =>
    simp only [slow_discovery, Bool.not_false, if_true] at hr
    cases hw : while_loop (fun t : Engine σ => !rig.any_limit t.world)
        (fun t => t.move rig t.xMotor (-1)) fuel s with
    | none =>
      rw [hw] at hr
      simp at hr
    | some s1 =>
      rw [hw] at hr
      have h1 : s1.distinct := by
        refine while_loop_preserves Engine.distinct _ _ ?_ fuel s s1 h hw
        intro t ht
        exact ht
      by_cases hy : rig.y_limit s1.world = true
      · simp only [hy, if_true] at hr
        have e : ({ s1 with xMotor := s1.yMotor, yMotor := s1.xMotor } : Engine σ) = s' := by
          simpa using hr
        rw [← e]
        exact fun hh => h1 hh.symm
      · have hy2 : rig.y_limit s1.world = false := by simpa using hy
        simp only [hy2] at hr
        have e : s1 = s' := by simpa using hr
        rw [← e]
        exact h1

theorem finalize_directions_distinct {σ : Type} (rig : Rig σ) (fuel : Nat) (s s' : Engine σ)
    (h : s.distinct) (hr : finalize_directions rig fuel s = some s') : s'.distinct := by
  unfold finalize_directions at hr
  refine while_loop_preserves Engine.distinct _ _ ?_ fuel s s' h hr
  intro t ht
  exact finalize_body_distinct rig t ht

theorem sweep_both_distinct {σ : Type} (rig : Rig σ) (limit : σ → Bool) (steps : Int)
    (fuel : Nat) (s s' : Engine σ) (h : s.distinct)
    (hr : sweep_both rig limit steps fuel s = some s') : s'.distinct := by
  unfold sweep_both at hr
  refine while_loop_preserves Engine.distinct _ _ ?_ fuel s s' h hr
  intro t ht
  exact ht

theorem sweep_x_distinct {σ : Type} (rig : Rig σ) (limit : σ → Bool) (steps : Int)
    (fuel : Nat) (s s' : Engine σ) (h : s.distinct)
    (hr : sweep_x rig limit steps fuel s = some s') : s'.distinct := by
  unfold sweep_x at hr
  refine while_loop_preserves Engine.distinct _ _ ?_ fuel s s' h hr
  intro t ht
  exact ht

theorem sweep_y_distinct {σ : Type} (rig : Rig σ) (limit : σ → Bool) (steps : Int)
    (fuel : Nat) (s s' : Engine σ) (h : s.distinct)
    (hr : sweep_y rig limit steps fuel s = some s') : s'.distinct := by
  unfold sweep_y at hr
  refine while_loop_preserves Engine.distinct _ _ ?_ fuel s s' h hr
  intro t ht
  exact ht

theorem andThen_keeps {σ : Type} (r : Option (Engine σ)) (k : Engine σ → Outcome σ)
    (hr : ∀ s', r = some s' → s'.distinct)
    (hk : ∀ s', s'.distinct → (k s').keeps_distinct) :
    (Outcome.andThen r k).keeps_distinct := by
  cases r with
  | none => exact trivial
  | some s1 => exact hk s1 (hr s1 rfl)

theorem jam_check_keeps {σ : Type} (s : Engine σ) (k : Engine σ → Outcome σ)
    (h : s.distinct) (hk : (k s).keeps_distinct) : (jam_check s k).keeps_distinct := by
  unfold jam_check
  split_ifs
  · exact h
  · exact hk

theorem finish_keeps {σ : Type} (rig : Rig σ) (calibration : Option CalibrationData)
    (s : Engine σ) (h : s.distinct) : (finish rig calibration s).keeps_distinct := by
  cases calibration with
  | none =>
    refine ⟨h, ?_⟩
    intro d hd
    exact Option.noConfusion hd
  | some c =>
    refine ⟨h, ?_⟩
    intro d hd
    have e := Option.some.inj hd
    rw [← e]
    constructor
    · show (if s.xMotor = MotorId.A then MotorId.A else MotorId.B) = s.xMotor
      cases s.xMotor <;> rfl
    · show (if s.yMotor = MotorId.A then MotorId.A else MotorId.B) = s.yMotor
      cases s.yMotor <;> rfl

theorem measure_keeps {σ : Type} (rig : Rig σ) (fuel : Nat)
    (calibration : Option CalibrationData) (s : Engine σ) (h : s.distinct) :
    (measure rig fuel calibration s).keeps_distinct := by
  unfold measure
  dsimp only
  refine andThen_keeps _ _ (fun s2 e => sweep_both_distinct rig _ _ fuel _ s2 (by exact h) e) ?_
  intro s2 h2
  refine jam_check_keeps s2 _ h2 ?_
  refine andThen_keeps _ _ (fun s4 e => sweep_x_distinct rig _ _ fuel _ s4 (by exact h2) e) ?_
  intro s4 h4
  refine jam_check_keeps s4 _ h4 ?_
  refine andThen_keeps _ _ (fun s6 e => sweep_y_distinct rig _ _ fuel _ s6 (by exact h4) e) ?_
  intro s6 h6
  refine jam_check_keeps s6 _ h6 ?_
  refine andThen_keeps _ _ (fun s9 e => sweep_both_distinct rig _ _ fuel _ s9 (by exact h6) e) ?_
  intro s9 h9
  refine jam_check_keeps s9 _ h9 ?_
  refine andThen_keeps _ _ (fun s11 e => sweep_x_distinct rig _ _ fuel _ s11 (by exact h9) e) ?_
  intro s11 h11
  refine jam_check_keeps s11 _ h11 ?_
  refine andThen_keeps _ _ (fun s13 e => sweep_y_distinct rig _ _ fuel _ s13 (by exact h11) e) ?_
  intro s13 h13
  refine jam_check_keeps s13 _ h13 ?_
  exact finish_keeps rig calibration s13 h13

theorem calibrate_keeps {σ : Type} (rig : Rig σ) (fuel : Nat)
    (calibration : Option CalibrationData) (s : Engine σ) (h : s.distinct) :
    (calibrate rig fuel calibration s).keeps_distinct := by
  unfold calibrate
  dsimp only
  refine andThen_keeps _ _ ?_ ?_
  · intro s8 e
    refine slow_discovery_distinct rig fuel _ _ s8 ?_ e
    show Engine.distinct (freedom rig _).2
    exact freedom_distinct rig _ h
  · intro s8 h8
    refine andThen_keeps _ _ (fun s9 e => finalize_directions_distinct rig fuel s8 s9 h8 e) ?_
    intro s9 h9
    exact measure_keeps rig fuel calibration s9 h9

theorem swap_points_coincide {σ : Type} (s : Engine σ) (h : s.xMotor ≠ s.yMotor) :
    (swap_points s).map (fun t => decide (t.xMotor = t.yMotor)) = [false, true, false] := by
  have h2 : s.yMotor ≠ s.xMotor := fun e => h e.symm
  simp [swap_points, Engine.set_xMotor, Engine.set_yMotor, h, h2]

theorem pair_points_coincide {σ : Type} (s : Engine σ) (m : MotorId) :
    (pair_points s m).map (fun t => decide (t.xMotor = t.yMotor))
      = [decide (m = s.yMotor), false] := by
  cases m <;> simp [pair_points, Engine.set_xMotor, Engine.set_yMotor, MotorId.other]

/-- C22, as stated, fails between two statements of the swap.  On a bed where
motor A in fact drives Y, with the carriage 3 steps from the Y-negative end and
the pointers at different motors, the fallback discovery stops on a Y switch
and runs the swap of lines 178 to 181; the state it continues with is the last
of the three points of the swap, and at the point after `xMotor = yMotor;` both
pointers hold the same motor. -/
theorem C22_swap_counterexample :
    (bed_start 50 3).xMotor ≠ (bed_start 50 3).yMotor
      ∧ ∃ s1 : Engine Bed,
        while_loop (fun t : Engine Bed => !(crossed_rig 100 100).any_limit t.world)
            (fun t => t.move (crossed_rig 100 100) t.xMotor (-1)) 10 (bed_start 50 3) = some s1
          ∧ (crossed_rig 100 100).y_limit s1.world = true
          ∧ slow_discovery (crossed_rig 100 100) 10 false (bed_start 50 3)
              = (swap_points s1).getLast?
          ∧ (swap_points s1).map (fun t => (t.xMotor, t.yMotor))
              = [(MotorId.A, MotorId.B), (MotorId.B, MotorId.B), (MotorId.B, MotorId.A)]
          ∧ ¬ ∀ t ∈ swap_points s1, t.xMotor ≠ t.yMotor := by
  refine ⟨by decide, Nat.iterate (fun t : Engine Bed => t.move (crossed_rig 100 100) t.xMotor (-1))
    3 (bed_start 50 3), rfl, by decide, rfl, rfl, ?_⟩
  intro hall
  exact hall _ (List.mem_cons_of_mem _ (List.mem_cons_self _ _)) rfl

/-- C22 (distinct motor assignment), amended: if `xMotor` and `yMotor` point at
different motors on entry, they point at different motors after every step of
`freedom` (after each probe, after the block that follows motor A's probe, and
on return), after a pass of the finalization loop body, at the end of the
fallback discovery, of the finalization loop and of every measurement loop, and
in the state `calibrate` ends in, whether it returns or halts on `JAMMED`;
hence a `CalibrationData` it records names motor A for one axis and motor B for
the other.  The pointers coincide only inside the swap, after `xMotor = yMotor;`
and before `yMotor = temp;`, and between the two assignments of a pair in
`freedom` when the first one gives `xMotor` the motor `yMotor` still holds;
after the last statement of the swap and of a pair they differ again. -/
theorem C22_distinct_motors {σ : Type} (rig : Rig σ) (fuel : Nat)
    (calibration : Option CalibrationData) (s : Engine σ) (h : s.xMotor ≠ s.yMotor) :
    ((swap_points s).map (fun t => decide (t.xMotor = t.yMotor)) = [false, true, false]
        ∧ (swap_points s).getLast?
            = some { s with xMotor := s.yMotor, yMotor := s.xMotor }
        ∧ ∀ m : MotorId,
            (pair_points s m).map (fun t => decide (t.xMotor = t.yMotor))
                = [decide (m = s.yMotor), false]
            ∧ (pair_points s m).getLast?
                = some { s with xMotor := m, yMotor := m.other })
      ∧ ((probe_a rig s).state.xMotor ≠ (probe_a rig s).state.yMotor
        ∧ (after_a rig s).xMotor ≠ (after_a rig s).yMotor
        ∧ (probe_b rig s).state.xMotor ≠ (probe_b rig s).state.yMotor
        ∧ (freedom rig s).2.xMotor ≠ (freedom rig s).2.yMotor)
      ∧ (finalize_body rig s).xMotor ≠ (finalize_body rig s).yMotor
      ∧ (∀ (axes_resolved : Bool) (s' : Engine σ),
          slow_discovery rig fuel axes_resolved s = some s' → s'.xMotor ≠ s'.yMotor)
      ∧ (∀ s' : Engine σ, finalize_directions rig fuel s = some s' → s'.xMotor ≠ s'.yMotor)
      ∧ (∀ (limit : σ → Bool) (steps : Int) (s' : Engine σ),
          (sweep_both rig limit steps fuel s = some s' → s'.xMotor ≠ s'.yMotor)
          ∧ (sweep_x rig limit steps fuel s = some s' → s'.xMotor ≠ s'.yMotor)
          ∧ (sweep_y rig limit steps fuel s = some s' → s'.xMotor ≠ s'.yMotor))
      ∧ (∀ s' : Engine σ,
          calibrate rig fuel calibration s = Outcome.jammed s' → s'.xMotor ≠ s'.yMotor)
      ∧ (∀ (s' : Engine σ) (c : Option CalibrationData),
          calibrate rig fuel calibration s = Outcome.completed s' c →
          s'.xMotor ≠ s'.yMotor
          ∧ ∀ d, c = some d →
              d.x_axis.motor ≠ d.y_axis.motor
              ∧ ((d.x_axis.motor = MotorId.A ∧ d.y_axis.motor = MotorId.B)
                ∨ (d.x_axis.motor = MotorId.B ∧ d.y_axis.motor = MotorId.A))) := by
  have hd : s.distinct := h
  have hkeep := calibrate_keeps rig fuel calibration s hd
  refine ⟨⟨swap_points_coincide s h, rfl, fun m => ⟨pair_points_coincide s m, rfl⟩⟩,
    ⟨?_, after_a_distinct rig s hd, ?_, freedom_distinct rig s hd⟩,
    finalize_body_distinct rig s hd,
    fun ar s' e => slow_discovery_distinct rig fuel ar s s' hd e,
    fun s' e => finalize_directions_distinct rig fuel s s' hd e,
    fun limit steps s' => ⟨fun e => sweep_both_distinct rig limit steps fuel s s' hd e,
      fun e => sweep_x_distinct rig limit steps fuel s s' hd e,
      fun e => sweep_y_distinct rig limit steps fuel s s' hd e⟩,
    ?_, ?_⟩
  · obtain ⟨ex, ey⟩ := probe_a_state_motors rig s
    rw [ex, ey]
    exact h
  · obtain ⟨ex, ey⟩ := probe_b_state_motors rig s
    rw [ex, ey]
    exact after_a_distinct rig s hd
  · intro s' e
    rw [e] at hkeep
    exact hkeep
  · intro s' c e
    rw [e] at hkeep
    obtain ⟨hs', hdata⟩ := hkeep
    refine ⟨hs', ?_⟩
    intro d hc
    obtain ⟨dx, dy⟩ := hdata d hc
    have hne : d.x_axis.motor ≠ d.y_axis.motor := by
      rw [dx, dy]
      exact hs'
    refine ⟨hne, ?_⟩
    cases hx : d.x_axis.motor <;> cases hy : d.y_axis.motor
    · rw [hx, hy] at hne
      exact absurd rfl hne
    · exact Or.inl ⟨rfl, rfl⟩
    · exact Or.inr ⟨rfl, rfl⟩
    · rw [hx, hy] at hne
      exact absurd rfl hne

/-- C22 amended, at a concrete run: on the simulated bed of 13791 by 10764
steps, `calibrate` entered with `xMotor` at motor A and `yMotor` at motor B
returns, and the record it writes names different motors for the two axes. -/
theorem C22_distinct_motors_witness :
    (bed_start 5 7).xMotor ≠ (bed_start 5 7).yMotor
      ∧ ∃ s' d, calibrate (bed_rig 13791 10764) 20000 (some blank_calibration) (bed_start 5 7)
          = Outcome.completed s' (some d)
        ∧ d.x_axis.motor ≠ d.y_axis.motor := by
  refine ⟨by decide, ?_⟩
  obtain ⟨s', e⟩ := bed_calibrate 13791 10764 5 7 20000 blank_calibration
    (by decide) (by decide) (by decide) (by decide)
  exact ⟨s', _, e,
    ((C22_distinct_motors (bed_rig 13791 10764) 20000 (some blank_calibration) (bed_start 5 7)
      (by decide)).2.2.2.2.2.2.2 s' _ e).2 _ rfl |>.1⟩

/-! ## The measurement on the bed with either-axis extreme queries -/

theorem while_loop_first_exit {S : Type} (cond : S → Bool) (body : S → S) :
    ∀ (K fuel : Nat) (s : S), cond (Nat.iterate body K s) = false → K < fuel →
      ∃ N, N ≤ K ∧ while_loop cond body fuel s = some (Nat.iterate body N s)
        ∧ cond (Nat.iterate body N s) = false
        ∧ ∀ i, i < N → cond (Nat.iterate body i s) = true := by
  intro K
  induction K with
  | zero =>
    intro fuel s hc hf
    obtain ⟨k, rfl⟩ : ∃ k, fuel = k + 1 := ⟨fuel - 1, by omega⟩
    refine ⟨0, le_refl 0, ?_, hc, ?_⟩
    · exact while_loop_skip cond body k s hc
    · intro i hi
      omega
  | succ K ih =>
    intro fuel s hc hf
    obtain ⟨k, rfl⟩ : ∃ k, fuel = k + 1 := ⟨fuel - 1, by omega⟩
    by_cases h0 : cond s = true
    · obtain ⟨N, hN, hw, hcN, hall⟩ := ih k (body s) hc (by omega)
      refine ⟨N + 1, by omega, ?_, hcN, ?_⟩
      · simp only [while_loop, h0, if_true]
        exact hw
      · intro i hi
        cases i with
        | zero => exact h0
        | succ j => exact hall j (by omega)
    · have h1 : cond s = false := by simpa using h0
      refine ⟨0, Nat.zero_le _, ?_, h1, ?_⟩
      · exact while_loop_skip cond body k s h1
      · intro i hi
        omega

theorem flag_stays (r : Nat → Bool) (hstep : ∀ i, r i = true → r (i + 1) = true) (N : Nat)
    (hN : r N = true) : ∀ j, N ≤ j → r j = true := by
  intro j hj
  induction j with
  | zero =>
    have e : N = 0 := by omega
    rw [← e]
    exact hN
  | succ k ih =>
    by_cases hk : N = k + 1
    · rw [← hk]
      exact hN
    · exact hstep k (ih (by omega))

theorem axis_loop_view (m : MotorId) (r lim pos v : Nat → Bool)
    (c : Nat → List (MotorId × MotorCall)) (n : Nat)
    (hdone : ∀ i, r i = true → r (i + 1) = true ∧ c (i + 1) = c i ∧ v (i + 1) = v i)
    (hmove : ∀ i, r i = false → lim i = false →
      r (i + 1) = false ∧ c (i + 1) = (m, MotorCall.move (-1)) :: c i ∧ v (i + 1) = v i)
    (hmark : ∀ i, r i = false → lim i = true →
      r (i + 1) = true
        ∧ c (i + 1) = (if pos i = true then [(m, MotorCall.set_inverted true)] else []) ++ c i
        ∧ v (i + 1) = (v i || pos i))
    (h0 : r 0 = false) (hquiet : ∀ i, i < n → lim i = false) (hfire : lim n = true) :
    (∀ i, i ≤ n → r i = false)
      ∧ ∀ i, n < i →
        r i = true
          ∧ c i = (if pos n = true then [(m, MotorCall.set_inverted true)] else [])
              ++ List.replicate n (m, MotorCall.move (-1)) ++ c 0
          ∧ v i = (v 0 || pos n) := by
  have hA : ∀ i, i ≤ n →
      r i = false ∧ c i = List.replicate i (m, MotorCall.move (-1)) ++ c 0 ∧ v i = v 0 := by
    intro i
    induction i with
    | zero =>
      intro _
      exact ⟨h0, rfl, rfl⟩
    | succ k ih =>
      intro hk
      obtain ⟨a1, a2, a3⟩ := ih (by omega)
      obtain ⟨b1, b2, b3⟩ := hmove k a1 (hquiet k (by omega))
      refine ⟨b1, ?_, ?_⟩
      · rw [b2, a2, List.replicate_succ]
        rfl
      · rw [b3, a3]
  have hB : ∀ k,
      r (n + 1 + k) = true
        ∧ c (n + 1 + k) = (if pos n = true then [(m, MotorCall.set_inverted true)] else [])
            ++ List.replicate n (m, MotorCall.move (-1)) ++ c 0
        ∧ v (n + 1 + k) = (v 0 || pos n) := by
    intro k
    induction k with
    | zero =>
      obtain ⟨a1, a2, a3⟩ := hA n (le_refl n)
      obtain ⟨b1, b2, b3⟩ := hmark n a1 hfire
      refine ⟨b1, ?_, ?_⟩
      · show c (n + 1) = _
        rw [b2, a2, List.append_assoc]
      · show v (n + 1) = _
        rw [b3, a3]
    | succ k ih =>
      obtain ⟨a1, a2, a3⟩ := ih
      obtain ⟨b1, b2, b3⟩ := hdone (n + 1 + k) a1
      exact ⟨b1, b2.trans a2, b3.trans a3⟩
  refine ⟨fun i hi => (hA i hi).1, ?_⟩
  intro i hi
  have e : i = n + 1 + (i - (n + 1)) := by omega
  rw [e]
  exact hB (i - (n + 1))

theorem finalize_pass_succ {σ : Type} (rig : Rig σ) (s : Engine σ) (i : Nat) :
    finalize_pass rig s (i + 1) = finalize_body rig (finalize_pass rig s i) :=
  Function.iterate_succ_apply' _ _ _

theorem finalize_pass_motors {σ : Type} (rig : Rig σ) (s : Engine σ) (i : Nat) :
    (finalize_pass rig s i).xMotor = s.xMotor ∧ (finalize_pass rig s i).yMotor = s.yMotor := by
  induction i with
  | zero => exact ⟨rfl, rfl⟩
  | succ k ih =>
    rw [finalize_pass_succ]
    have e : finalize_body rig (finalize_pass rig s k)
        = finalize_y rig (finalize_x rig (finalize_pass rig s k)) := rfl
    obtain ⟨x1, x2⟩ := finalize_x_motors rig (finalize_pass rig s k)
    obtain ⟨y1, y2⟩ := finalize_y_motors rig (finalize_x rig (finalize_pass rig s k))
    rw [e, y1, y2, x1, x2]
    exact ih

theorem finalize_y_keeps_x {σ : Type} (rig : Rig σ) (u : Engine σ)
    (hd : u.xMotor ≠ u.yMotor) :
    (finalize_y rig u).x_direction_resolved = u.x_direction_resolved
      ∧ calls_on u.xMotor (finalize_y rig u).calls = calls_on u.xMotor u.calls
      ∧ (finalize_y rig u).is_inverted u.xMotor = u.is_inverted u.xMotor := by
  have hd2 : ¬ (u.yMotor = u.xMotor) := fun e => hd e.symm
  simp only [finalize_y]
  split_ifs
  · simp [Engine.move, Engine.command, calls_on, Engine.is_inverted, hd2]
  · cases hx : u.xMotor <;> cases hy : u.yMotor <;>
      simp_all [Engine.set_inverted, Engine.command, calls_on, Engine.is_inverted]
  · simp [calls_on, Engine.is_inverted]
  · exact ⟨rfl, rfl, rfl⟩

theorem finalize_x_keeps_y {σ : Type} (rig : Rig σ) (u : Engine σ)
    (hd : u.xMotor ≠ u.yMotor) :
    (finalize_x rig u).y_direction_resolved = u.y_direction_resolved
      ∧ calls_on u.yMotor (finalize_x rig u).calls = calls_on u.yMotor u.calls
      ∧ (finalize_x rig u).is_inverted u.yMotor = u.is_inverted u.yMotor := by
  simp only [finalize_x]
  split_ifs
  · simp [Engine.move, Engine.command, calls_on, Engine.is_inverted, hd]
  · cases hx : u.xMotor <;> cases hy : u.yMotor <;>
      simp_all [Engine.set_inverted, Engine.command, calls_on, Engine.is_inverted]
  · simp [calls_on, Engine.is_inverted]
  · exact ⟨rfl, rfl, rfl⟩

theorem finalize_x_on_x {σ : Type} (rig : Rig σ) (u : Engine σ) :
    (u.x_direction_resolved = true → finalize_x rig u = u)
      ∧ (u.x_direction_resolved = false → rig.x_limit u.world = false →
          (finalize_x rig u).x_direction_resolved = false
          ∧ calls_on u.xMotor (finalize_x rig u).calls
              = (u.xMotor, MotorCall.move (-1)) :: calls_on u.xMotor u.calls
          ∧ (finalize_x rig u).is_inverted u.xMotor = u.is_inverted u.xMotor)
      ∧ (u.x_direction_resolved = false → rig.x_limit u.world = true →
          (finalize_x rig u).x_direction_resolved = true
          ∧ calls_on u.xMotor (finalize_x rig u).calls
              = (if rig.x_pos_limit u.world = true
                  then [(u.xMotor, MotorCall.set_inverted true)] else [])
                ++ calls_on u.xMotor u.calls
          ∧ (finalize_x rig u).is_inverted u.xMotor
              = (u.is_inverted u.xMotor || rig.x_pos_limit u.world)) := by
  refine ⟨?_, ?_, ?_⟩
  · intro hr
    simp [finalize_x, hr]
  · intro hr hl
    simp [finalize_x, hr, hl, Engine.move, Engine.command, calls_on, Engine.is_inverted]
  · intro hr hl
    by_cases hp : rig.x_pos_limit u.world = true
    · cases hm : u.xMotor <;>
        simp [finalize_x, hr, hl, hp, hm, Engine.set_inverted, Engine.command, calls_on,
          Engine.is_inverted]
    · have hp2 : rig.x_pos_limit u.world = false := by simpa using hp
      simp [finalize_x, hr, hl, hp2, calls_on, Engine.is_inverted]

theorem finalize_y_on_y {σ : Type} (rig : Rig σ) (u : Engine σ) :
    (u.y_direction_resolved = true → finalize_y rig u = u)
      ∧ (u.y_direction_resolved = false → rig.y_limit u.world = false →
          (finalize_y rig u).y_direction_resolved = false
          ∧ calls_on u.yMotor (finalize_y rig u).calls
              = (u.yMotor, MotorCall.move (-1)) :: calls_on u.yMotor u.calls
          ∧ (finalize_y rig u).is_inverted u.yMotor = u.is_inverted u.yMotor)
      ∧ (u.y_direction_resolved = false → rig.y_limit u.world = true →
          (finalize_y rig u).y_direction_resolved = true
          ∧ calls_on u.yMotor (finalize_y rig u).calls
              = (if rig.y_pos_limit u.world = true
                  then [(u.yMotor, MotorCall.set_inverted true)] else [])
                ++ calls_on u.yMotor u.calls
          ∧ (finalize_y rig u).is_inverted u.yMotor
              = (u.is_inverted u.yMotor || rig.y_pos_limit u.world)) := by
  refine ⟨?_, ?_, ?_⟩
  · intro hr
    simp [finalize_y, hr]
  · intro hr hl
    simp [finalize_y, hr, hl, Engine.move, Engine.command, calls_on, Engine.is_inverted]
  · intro hr hl
    by_cases hp : rig.y_pos_limit u.world = true
    · cases hm : u.yMotor <;>
        simp [finalize_y, hr, hl, hp, hm, Engine.set_inverted, Engine.command, calls_on,
          Engine.is_inverted]
    · have hp2 : rig.y_pos_limit u.world = false := by simpa using hp
      simp [finalize_y, hr, hl, hp2, calls_on, Engine.is_inverted]

theorem pass_x_step {σ : Type} (rig : Rig σ) (t : Engine σ) (hd : t.xMotor ≠ t.yMotor) :
    (t.x_direction_resolved = true →
        (finalize_body rig t).x_direction_resolved = true
        ∧ calls_on t.xMotor (finalize_body rig t).calls = calls_on t.xMotor t.calls
        ∧ (finalize_body rig t).is_inverted t.xMotor = t.is_inverted t.xMotor)
      ∧ (t.x_direction_resolved = false → rig.x_limit t.world = false →
          (finalize_body rig t).x_direction_resolved = false
          ∧ calls_on t.xMotor (finalize_body rig t).calls
              = (t.xMotor, MotorCall.move (-1)) :: calls_on t.xMotor t.calls
          ∧ (finalize_body rig t).is_inverted t.xMotor = t.is_inverted t.xMotor)
      ∧ (t.x_direction_resolved = false → rig.x_limit t.world = true →
          (finalize_body rig t).x_direction_resolved = true
          ∧ calls_on t.xMotor (finalize_body rig t).calls
              = (if rig.x_pos_limit t.world = true
                  then [(t.xMotor, MotorCall.set_inverted true)] else [])
                ++ calls_on t.xMotor t.calls
          ∧ (finalize_body rig t).is_inverted t.xMotor
              = (t.is_inverted t.xMotor || rig.x_pos_limit t.world)) := by
  have e : finalize_body rig t = finalize_y rig (finalize_x rig t) := rfl
  obtain ⟨mx, my⟩ := finalize_x_motors rig t
  have hdu : (finalize_x rig t).xMotor ≠ (finalize_x rig t).yMotor := by
    rw [mx, my]
    exact hd
  obtain ⟨k1, k2, k3⟩ := finalize_y_keeps_x rig (finalize_x rig t) hdu
  rw [mx] at k2 k3
  obtain ⟨c1, c2, c3⟩ := finalize_x_on_x rig t
  rw [e, k1, k2, k3]
  refine ⟨?_, c2, c3⟩
  intro hr
  rw [c1 hr]
  exact ⟨hr, rfl, rfl⟩

theorem pass_y_step {σ : Type} (rig : Rig σ) (t : Engine σ) (hd : t.xMotor ≠ t.yMotor) :
    (t.y_direction_resolved = true →
        (finalize_body rig t).y_direction_resolved = true
        ∧ calls_on t.yMotor (finalize_body rig t).calls = calls_on t.yMotor t.calls
        ∧ (finalize_body rig t).is_inverted t.yMotor = t.is_inverted t.yMotor)
      ∧ (t.y_direction_resolved = false → rig.y_limit (finalize_x rig t).world = false →
          (finalize_body rig t).y_direction_resolved = false
          ∧ calls_on t.yMotor (finalize_body rig t).calls
              = (t.yMotor, MotorCall.move (-1)) :: calls_on t.yMotor t.calls
          ∧ (finalize_body rig t).is_inverted t.yMotor = t.is_inverted t.yMotor)
      ∧ (t.y_direction_resolved = false → rig.y_limit (finalize_x rig t).world = true →
          (finalize_body rig t).y_direction_resolved = true
          ∧ calls_on t.yMotor (finalize_body rig t).calls
              = (if rig.y_pos_limit (finalize_x rig t).world = true
                  then [(t.yMotor, MotorCall.set_inverted true)] else [])
                ++ calls_on t.yMotor t.calls
          ∧ (finalize_body rig t).is_inverted t.yMotor
              = (t.is_inverted t.yMotor || rig.y_pos_limit (finalize_x rig t).world)) := by
  have e : finalize_body rig t = finalize_y rig (finalize_x rig t) := rfl
  obtain ⟨mx, my⟩ := finalize_x_motors rig t
  obtain ⟨k1, k2, k3⟩ := finalize_x_keeps_y rig t hd
  obtain ⟨c1, c2, c3⟩ := finalize_y_on_y rig (finalize_x rig t)
  rw [my, k1, k2, k3] at c2 c3
  rw [k1] at c1
  rw [e]
  refine ⟨?_, c2, c3⟩
  intro hr
  rw [c1 hr]
  exact ⟨k1.trans hr, k2, k3⟩

theorem finalize_loop_x {σ : Type} (rig : Rig σ) (s : Engine σ) (fuel n N : Nat)
    (hd : s.xMotor ≠ s.yMotor) (hx : s.x_direction_resolved = false)
    (hquiet : ∀ i, i < n → rig.x_limit (finalize_pass rig s i).world = false)
    (hfire : rig.x_limit (finalize_pass rig s n).world = true)
    (hy : (finalize_pass rig s N).y_direction_resolved = true)
    (hf : n + 1 < fuel ∧ N < fuel) :
    ∃ s', finalize_directions rig fuel s = some s'
      ∧ s'.x_direction_resolved = true ∧ s'.y_direction_resolved = true
      ∧ (∀ i, i ≤ n → (finalize_pass rig s i).x_direction_resolved = false)
      ∧ calls_on s.xMotor s'.calls
          = (if rig.x_pos_limit (finalize_pass rig s n).world = true
              then [(s.xMotor, MotorCall.set_inverted true)] else [])
            ++ List.replicate n (s.xMotor, MotorCall.move (-1)) ++ calls_on s.xMotor s.calls
      ∧ s'.is_inverted s.xMotor
          = (s.is_inverted s.xMotor || rig.x_pos_limit (finalize_pass rig s n).world) := by
  have hdi : ∀ i, (finalize_pass rig s i).xMotor ≠ (finalize_pass rig s i).yMotor := by
    intro i
    obtain ⟨m1, m2⟩ := finalize_pass_motors rig s i
    rw [m1, m2]
    exact hd
  have hX : ∀ i, _ := fun i => pass_x_step rig (finalize_pass rig s i) (hdi i)
  have hY : ∀ i, _ := fun i => pass_y_step rig (finalize_pass rig s i) (hdi i)
  obtain ⟨hA, hB⟩ := axis_loop_view s.xMotor
    (fun i => (finalize_pass rig s i).x_direction_resolved)
    (fun i => rig.x_limit (finalize_pass rig s i).world)
    (fun i => rig.x_pos_limit (finalize_pass rig s i).world)
    (fun i => (finalize_pass rig s i).is_inverted s.xMotor)
    (fun i => calls_on s.xMotor (finalize_pass rig s i).calls) n
    (by
      intro i hr
      have h := (hX i).1 hr
      rw [(finalize_pass_motors rig s i).1, ← finalize_pass_succ] at h
      exact h)
    (by
      intro i hr hl
      have h := (hX i).2.1 hr hl
      rw [(finalize_pass_motors rig s i).1, ← finalize_pass_succ] at h
      exact h)
    (by
      intro i hr hl
      have h := (hX i).2.2 hr hl
      rw [(finalize_pass_motors rig s i).1, ← finalize_pass_succ] at h
      exact h)
    hx hquiet hfire
  have hystay : ∀ j, N ≤ j → (finalize_pass rig s j).y_direction_resolved = true :=
    flag_stays (fun i => (finalize_pass rig s i).y_direction_resolved)
      (by
        intro i hr
        have h := ((hY i).1 hr).1
        rw [← finalize_pass_succ] at h
        exact h)
      N hy
  have hexit : (fun t : Engine σ => !(t.x_direction_resolved && t.y_direction_resolved))
      (Nat.iterate (finalize_body rig) (max (n + 1) N) s) = false := by
    have a := (hB (max (n + 1) N) (by omega)).1
    have b := hystay (max (n + 1) N) (by omega)
    show (!((finalize_pass rig s (max (n + 1) N)).x_direction_resolved
      && (finalize_pass rig s (max (n + 1) N)).y_direction_resolved)) = false
    rw [a, b]
    rfl
  obtain ⟨M, hM, hw, hcM, -⟩ := while_loop_first_exit
    (fun t : Engine σ => !(t.x_direction_resolved && t.y_direction_resolved))
    (finalize_body rig) (max (n + 1) N) fuel s hexit (by omega)
  have hflags : (finalize_pass rig s M).x_direction_resolved = true
      ∧ (finalize_pass rig s M).y_direction_resolved = true := by
    have h : (!((finalize_pass rig s M).x_direction_resolved
      && (finalize_pass rig s M).y_direction_resolved)) = false := hcM
    simpa using h
  have hnM : n < M := by
    by_contra hle
    have h := hA M (by omega)
    rw [hflags.1] at h
    exact Bool.noConfusion h
  obtain ⟨-, b2, b3⟩ := hB M hnM
  exact ⟨finalize_pass rig s M, hw, hflags.1, hflags.2, hA, b2, b3⟩

theorem finalize_loop_y {σ : Type} (rig : Rig σ) (s : Engine σ) (fuel n N : Nat)
    (hd : s.xMotor ≠ s.yMotor) (hy : s.y_direction_resolved = false)
    (hquiet : ∀ i, i < n →
      rig.y_limit (finalize_x rig (finalize_pass rig s i)).world = false)
    (hfire : rig.y_limit (finalize_x rig (finalize_pass rig s n)).world = true)
    (hx : (finalize_pass rig s N).x_direction_resolved = true)
    (hf : n + 1 < fuel ∧ N < fuel) :
    ∃ s', finalize_directions rig fuel s = some s'
      ∧ s'.x_direction_resolved = true ∧ s'.y_direction_resolved = true
      ∧ (∀ i, i ≤ n → (finalize_pass rig s i).y_direction_resolved = false)
      ∧ calls_on s.yMotor s'.calls
          = (if rig.y_pos_limit (finalize_x rig (finalize_pass rig s n)).world = true
              then [(s.yMotor, MotorCall.set_inverted true)] else [])
            ++ List.replicate n (s.yMotor, MotorCall.move (-1)) ++ calls_on s.yMotor s.calls
      ∧ s'.is_inverted s.yMotor
          = (s.is_inverted s.yMotor
              || rig.y_pos_limit (finalize_x rig (finalize_pass rig s n)).world) := by
  have hdi : ∀ i, (finalize_pass rig s i).xMotor ≠ (finalize_pass rig s i).yMotor := by
    intro i
    obtain ⟨m1, m2⟩ := finalize_pass_motors rig s i
    rw [m1, m2]
    exact hd
  have hX : ∀ i, _ := fun i => pass_x_step rig (finalize_pass rig s i) (hdi i)
  have hY : ∀ i, _ := fun i => pass_y_step rig (finalize_pass rig s i) (hdi i)
  obtain ⟨hA, hB⟩ := axis_loop_view s.yMotor
    (fun i => (finalize_pass rig s i).y_direction_resolved)
    (fun i => rig.y_limit (finalize_x rig (finalize_pass rig s i)).world)
    (fun i => rig.y_pos_limit (finalize_x rig (finalize_pass rig s i)).world)
    (fun i => (finalize_pass rig s i).is_inverted s.yMotor)
    (fun i => calls_on s.yMotor (finalize_pass rig s i).calls) n
    (by
      intro i hr
      have h := (hY i).1 hr
      rw [(finalize_pass_motors rig s i).2, ← finalize_pass_succ] at h
      exact h)
    (by
      intro i hr hl
      have h := (hY i).2.1 hr hl
      rw [(finalize_pass_motors rig s i).2, ← finalize_pass_succ] at h
      exact h)
    (by
      intro i hr hl
      have h := (hY i).2.2 hr hl
      rw [(finalize_pass_motors rig s i).2, ← finalize_pass_succ] at h
      exact h)
    hy hquiet hfire
  have hxstay : ∀ j, N ≤ j → (finalize_pass rig s j).x_direction_resolved = true :=
    flag_stays (fun i => (finalize_pass rig s i).x_direction_resolved)
      (by
        intro i hr
        have h := ((hX i).1 hr).1
        rw [← finalize_pass_succ] at h
        exact h)
      N hx
  have hexit : (fun t : Engine σ => !(t.x_direction_resolved && t.y_direction_resolved))
      (Nat.iterate (finalize_body rig) (max (n + 1) N) s) = false := by
    have a := (hB (max (n + 1) N) (by omega)).1
    have b := hxstay (max (n + 1) N) (by omega)
    show (!((finalize_pass rig s (max (n + 1) N)).x_direction_resolved
      && (finalize_pass rig s (max (n + 1) N)).y_direction_resolved)) = false
    rw [a, b]
    rfl
  obtain ⟨M, hM, hw, hcM, -⟩ := while_loop_first_exit
    (fun t : Engine σ => !(t.x_direction_resolved && t.y_direction_resolved))
    (finalize_body rig) (max (n + 1) N) fuel s hexit (by omega)
  have hflags : (finalize_pass rig s M).x_direction_resolved = true
      ∧ (finalize_pass rig s M).y_direction_resolved = true := by
    have h : (!((finalize_pass rig s M).x_direction_resolved
      && (finalize_pass rig s M).y_direction_resolved)) = false := hcM
    simpa using h
  have hnM : n < M := by
    by_contra hle
    have h := hA M (by omega)
    rw [hflags.2] at h
    exact Bool.noConfusion h
  obtain ⟨-, b2, b3⟩ := hB M hnM
  exact ⟨finalize_pass rig s M, hw, hflags.1, hflags.2, hA, b2, b3⟩

/-- C19 (direction-polarity finalization).  Take the finalization loop entered
in state `s` with the two pointers at different motors, and an axis that is not
resolved on entry.  If that axis's own limit is not triggered when the loop
reads it in the passes 0 to `n - 1` and is triggered in pass `n` (and the other
axis is resolved by pass `N`), then with fuel above `n + 1` and `N` the loop
returns with both axes resolved, the axis stays unresolved up to pass `n`, and
the calls the loop issued on that axis's motor are exactly `n` calls `move(-1)`,
one for each pass in which the limit was not triggered, followed by
`set_inverted(true)` if and only if the axis's positive-side switch is triggered
in pass `n`; the motor's inverted flag on return is the flag on entry or that
switch, so a motor whose negative-side switch fired is not inverted.  One pass
is the X half followed by the Y half, and each half acts as stated on the state
it reads: it does nothing for a resolved axis, commands `move(-1)` when the
limit is not triggered, and otherwise marks the axis resolved and inverts the
motor exactly when the positive-side switch is triggered. -/
theorem C19_direction_finalization {σ : Type} (rig : Rig σ) (s : Engine σ) :
    (∀ fuel n N : Nat, s.xMotor ≠ s.yMotor → s.x_direction_resolved = false →
        (∀ i, i < n → rig.x_limit (finalize_pass rig s i).world = false) →
        rig.x_limit (finalize_pass rig s n).world = true →
        (finalize_pass rig s N).y_direction_resolved = true →
        n + 1 < fuel ∧ N < fuel →
        ∃ s', finalize_directions rig fuel s = some s'
          ∧ s'.x_direction_resolved = true ∧ s'.y_direction_resolved = true
          ∧ (∀ i, i ≤ n → (finalize_pass rig s i).x_direction_resolved = false)
          ∧ calls_on s.xMotor s'.calls
              = (if rig.x_pos_limit (finalize_pass rig s n).world = true
                  then [(s.xMotor, MotorCall.set_inverted true)] else [])
                ++ List.replicate n (s.xMotor, MotorCall.move (-1))
                ++ calls_on s.xMotor s.calls
          ∧ s'.is_inverted s.xMotor
              = (s.is_inverted s.xMotor || rig.x_pos_limit (finalize_pass rig s n).world))
      ∧ (∀ fuel n N : Nat, s.xMotor ≠ s.yMotor → s.y_direction_resolved = false →
        (∀ i, i < n →
          rig.y_limit (finalize_x rig (finalize_pass rig s i)).world = false) →
        rig.y_limit (finalize_x rig (finalize_pass rig s n)).world = true →
        (finalize_pass rig s N).x_direction_resolved = true →
        n + 1 < fuel ∧ N < fuel →
        ∃ s', finalize_directions rig fuel s = some s'
          ∧ s'.x_direction_resolved = true ∧ s'.y_direction_resolved = true
          ∧ (∀ i, i ≤ n → (finalize_pass rig s i).y_direction_resolved = false)
          ∧ calls_on s.yMotor s'.calls
              = (if rig.y_pos_limit (finalize_x rig (finalize_pass rig s n)).world = true
                  then [(s.yMotor, MotorCall.set_inverted true)] else [])
                ++ List.replicate n (s.yMotor, MotorCall.move (-1))
                ++ calls_on s.yMotor s.calls
          ∧ s'.is_inverted s.yMotor
              = (s.is_inverted s.yMotor
                  || rig.y_pos_limit (finalize_x rig (finalize_pass rig s n)).world))
      ∧ (∀ i, finalize_pass rig s (i + 1)
          = finalize_y rig (finalize_x rig (finalize_pass rig s i)))
      ∧ finalize_body rig s = finalize_y rig (finalize_x rig s)
      ∧ (s.x_direction_resolved = true → finalize_x rig s = s)
      ∧ (s.x_direction_resolved = false → rig.x_limit s.world = false →
          finalize_x rig s = s.move rig s.xMotor (-1)
          ∧ (finalize_x rig s).x_direction_resolved = false
          ∧ (finalize_x rig s).calls = (s.xMotor, MotorCall.move (-1)) :: s.calls)
      ∧ (s.x_direction_resolved = false → rig.x_limit s.world = true →
          (finalize_x rig s).x_direction_resolved = true
          ∧ (finalize_x rig s).calls
              = (if rig.x_pos_limit s.world = true
                  then [(s.xMotor, MotorCall.set_inverted true)] else []) ++ s.calls
          ∧ (rig.x_pos_limit s.world = true →
              (finalize_x rig s).is_inverted s.xMotor = true)
          ∧ (rig.x_pos_limit s.world = false →
              (finalize_x rig s).a_inverted = s.a_inverted
              ∧ (finalize_x rig s).b_inverted = s.b_inverted))
      ∧ (s.y_direction_resolved = true → finalize_y rig s = s)
      ∧ (s.y_direction_resolved = false → rig.y_limit s.world = false →
          finalize_y rig s = s.move rig s.yMotor (-1)
          ∧ (finalize_y rig s).y_direction_resolved = false
          ∧ (finalize_y rig s).calls = (s.yMotor, MotorCall.move (-1)) :: s.calls)
      ∧ (s.y_direction_resolved = false → rig.y_limit s.world = true →
          (finalize_y rig s).y_direction_resolved = true
          ∧ (finalize_y rig s).calls
              = (if rig.y_pos_limit s.world = true
                  then [(s.yMotor, MotorCall.set_inverted true)] else []) ++ s.calls
          ∧ (rig.y_pos_limit s.world = true →
              (finalize_y rig s).is_inverted s.yMotor = true)
          ∧ (rig.y_pos_limit s.world = false →
              (finalize_y rig s).a_inverted = s.a_inverted
              ∧ (finalize_y rig s).b_inverted = s.b_inverted)) :=
  ⟨fun fuel n N hd hx hq hfire hy hf => finalize_loop_x rig s fuel n N hd hx hq hfire hy hf,
    fun fuel n N hd hy hq hfire hx hf => finalize_loop_y rig s fuel n N hd hy hq hfire hx hf,
    fun i => finalize_pass_succ rig s i,
    finalize_half_cases rig s⟩

/-- C19 at a concrete run: on a bed of 100 by 100 steps with the carriage on the
X-positive end and 3 steps from the Y-negative end, the loop returns; on motor A
it issued `set_inverted(true)` and no move, and motor A ends inverted; on motor
B it issued three calls `move(-1)` and no `set_inverted`, and motor B, whose
negative-side switch fired, is not inverted. -/
theorem C19_direction_finalization_witness :
    (∃ s', finalize_directions (bed_rig 100 100) 10 (bed_start 100 3) = some s'
        ∧ calls_on MotorId.A s'.calls = [(MotorId.A, MotorCall.set_inverted true)]
        ∧ s'.is_inverted MotorId.A = true)
      ∧ (∃ s', finalize_directions (bed_rig 100 100) 10 (bed_start 100 3) = some s'
        ∧ calls_on MotorId.B s'.calls = List.replicate 3 (MotorId.B, MotorCall.move (-1))
        ∧ s'.is_inverted MotorId.B = false) := by
  constructor
  · obtain ⟨s', e, -, -, -, c, v⟩ :=
      (C19_direction_finalization (bed_rig 100 100) (bed_start 100 3)).1 10 0 4
        (by decide) rfl (by decide) (by decide) (by decide) (by decide)
    exact ⟨s', e, c.trans (by decide), v.trans (by decide)⟩
  · obtain ⟨s', e, -, -, -, c, v⟩ :=
      (C19_direction_finalization (bed_rig 100 100) (bed_start 100 3)).2.1 10 3 1
        (by decide) rfl (by decide) (by decide) (by decide) (by decide)
    exact ⟨s', e, c.trans (by decide), v.trans (by decide)⟩

end Argentum
